import Mathlib

/-!
# Historical Datastore: broker connector and time-series storage adapter

A shallow embedding of `data/mqtt.go` and `data/influxdb.go`.

* Go maps with string keys are association lists with unique keys
  (`mapGet`, `mapPut`, `mapDelete`); `len` is the list length.
* A Go `error` result is an `Option String`: `none` is `nil`, `some msg` is an
  error with text `msg`.  A run-time panic is the extra outcome `Outcome.panic`.
* Calls on external clients (broker client, engine client) are answered by an
  oracle passed as a parameter, and every call is appended to a log, so that
  "which calls were issued" is a statement about the log.
* Instants are integers counting nanoseconds since the Unix epoch; durations are
  `int64` nanoseconds.
-/

namespace HDS

/-! ## Go maps -/

/-- Lookup `m[k]`; `none` when the key is absent. -/
def mapGet {V : Type} (m : List (String × V)) (k : String) : Option V :=
  match m with
  | [] => none
  | (k1, v) :: rest => if k1 = k then some v else mapGet rest k

/-- Assignment `m[k] = v`: replaces the entry of `k`, or adds one. -/
def mapPut {V : Type} (m : List (String × V)) (k : String) (v : V) : List (String × V) :=
  match m with
  | [] => [(k, v)]
  | (k1, v1) :: rest => if k1 = k then (k1, v) :: rest else (k1, v1) :: mapPut rest k v

/-- Builtin `delete(m, k)`. -/
def mapDelete {V : Type} (m : List (String × V)) (k : String) : List (String × V) :=
  m.filter (fun p => decide (p.1 ≠ k))

/-- A Go `error` value: `none` is `nil`. -/
abbrev GoError := Option String

/-- Result of running a Go function body: it returns, or it panics. -/
inductive Outcome (α : Type) where
  | ret (a : α)
  | panic (msg : String)
  deriving DecidableEq, Repr

/-- Test `strings.Contains(s, sub)`. -/
def stringsContains (s sub : String) : Bool :=
  decide (sub.toList <:+: s.toList)

/-! ## Registry types used by the connector (`registry.DataStream`) -/

/-- Source configuration `registry.MQTTSource`. -/
structure MQTTSource where
  BrokerURL : String
  Topic : String
  QoS : Nat
  Username : String
  Password : String
  deriving DecidableEq, Repr

/-- Field `DataStream.Source`; `MQTTSource` is a pointer, `none` is `nil`. -/
structure Source where
  SrcType : String
  MQTTSource : Option HDS.MQTTSource
  deriving DecidableEq, Repr

/-- Stream `registry.DataStream`, with the fields the connector reads. -/
structure DataStream where
  Name : String
  Type' : String
  Retention : String
  Source : HDS.Source
  deriving DecidableEq, Repr

/-! ## Broker connector (`data/mqtt.go`) -/

/-- Record `Subscription` (the back pointer to the connector is left out). -/
structure Subscription where
  url : String
  topic : String
  qos : Nat
  receivers : Int
  deriving DecidableEq, Repr

/-- Record `Manager`: one broker client and its subscriptions by topic. -/
structure Manager where
  url : String
  subscriptions : List (String × Subscription)
  deriving DecidableEq, Repr

/-- Calls made on a broker client (`paho.Client`). -/
inductive ClientOp where
  | connect (url clientID username password : String)
  | subscribe (url topic : String) (qos : Nat)
  | unsubscribe (url topic : String)
  | disconnect (url : String) (quiesce : Nat)
  deriving DecidableEq, Repr

/-- Answers of the brokers: the error of the token of each call (`none`: the call succeeded). -/
structure Broker where
  connect : String → GoError
  subscribe : String → String → GoError
  unsubscribe : String → String → GoError

/-- Record `MQTTConnector`. `clientLog` lists the broker-client calls made so far. -/
structure MQTTConnector where
  clientID : String
  managers : List (String × Manager)
  cache : List (String × DataStream)
  failedRegistrations : List (String × MQTTSource)
  clientLog : List ClientOp
  deriving DecidableEq, Repr

/-- Constructor `NewMQTTConnector`. -/
def NewMQTTConnector (clientID : String) : MQTTConnector :=
  { clientID := clientID, managers := [], cache := [], failedRegistrations := [], clientLog := [] }

/-- Method `flushCache`. -/
def flushCache (c : MQTTConnector) : MQTTConnector :=
  { c with cache := [] }

/-- Handler `Manager.onConnectHandler`: subscribes every topic of the manager; a failing
subscribe is only logged. The calls it makes on the client are returned. -/
def onConnectHandler (m : Manager) : List ClientOp :=
  m.subscriptions.map (fun p => ClientOp.subscribe m.url p.2.topic p.2.qos)

/-- Method `MQTTConnector.register`. The client runs the on-connect handler once the
connection is established; the embedding runs it right after a successful `Connect`. -/
def register (b : Broker) (c : MQTTConnector) (source : MQTTSource) : MQTTConnector × GoError :=
  match mapGet c.managers source.BrokerURL with
  | none =>
    let manager : Manager :=
      { url := source.BrokerURL,
        subscriptions := mapPut [] source.Topic
          { url := source.BrokerURL, topic := source.Topic, qos := source.QoS, receivers := 1 } }
    -- credentials are set on the client options only for a non-empty user name
    let username := source.Username
    let password := if source.Username ≠ "" then source.Password else ""
    let op := ClientOp.connect source.BrokerURL ("HDS-" ++ c.clientID) username password
    match b.connect source.BrokerURL with
    | some e =>
      ({ c with clientLog := c.clientLog ++ [op] },
        some ("MQTT: Error connecting to broker " ++ source.BrokerURL ++ ": " ++ e))
    | none =>
      ({ c with
          clientLog := c.clientLog ++ [op] ++ onConnectHandler manager,
          managers := mapPut c.managers source.BrokerURL manager }, none)
  | some manager =>
    match mapGet manager.subscriptions source.Topic with
    | none =>
      let subscription : Subscription :=
        { url := source.BrokerURL, topic := source.Topic, qos := source.QoS, receivers := 1 }
      let op := ClientOp.subscribe manager.url subscription.topic subscription.qos
      match b.subscribe manager.url subscription.topic with
      | some e =>
        ({ c with clientLog := c.clientLog ++ [op] }, some ("MQTT: Error subscribing: " ++ e))
      | none =>
        let manager1 : Manager :=
          { manager with subscriptions := mapPut manager.subscriptions source.Topic subscription }
        ({ c with
            clientLog := c.clientLog ++ [op],
            managers := mapPut c.managers source.BrokerURL manager1 }, none)
    | some s =>
      let manager1 : Manager :=
        { manager with
            subscriptions := mapPut manager.subscriptions source.Topic
              { s with receivers := s.receivers + 1 } }
      ({ c with managers := mapPut c.managers source.BrokerURL manager1 }, none)

/-- Last block of `unregister`: a manager left without subscriptions is disconnected and
removed from the connector. -/
def disconnectIfEmpty (c : MQTTConnector) (manager : Manager) (mqttSource : MQTTSource) :
    MQTTConnector × Outcome GoError :=
  if manager.subscriptions.length = 0 then
    ({ c with
        clientLog := c.clientLog ++ [ClientOp.disconnect manager.url 250],
        managers := mapDelete c.managers mqttSource.BrokerURL }, Outcome.ret none)
  else (c, Outcome.ret none)

/-- Method `MQTTConnector.unregister`. Reading `receivers` through a missing topic entry is
a nil dereference. -/
def unregister (b : Broker) (c : MQTTConnector) (mqttSource : MQTTSource) :
    MQTTConnector × Outcome GoError :=
  match mapGet c.managers mqttSource.BrokerURL with
  | none => (c, Outcome.ret none)
  | some manager =>
    match mapGet manager.subscriptions mqttSource.Topic with
    | none => (c, Outcome.panic "invalid memory address or nil pointer dereference")
    | some s =>
      let s1 : Subscription := { s with receivers := s.receivers - 1 }
      let manager1 : Manager :=
        { manager with subscriptions := mapPut manager.subscriptions mqttSource.Topic s1 }
      let c1 : MQTTConnector :=
        { c with managers := mapPut c.managers mqttSource.BrokerURL manager1 }
      if s1.receivers = 0 then
        let op := ClientOp.unsubscribe manager1.url mqttSource.Topic
        match b.unsubscribe manager1.url mqttSource.Topic with
        | some e =>
          ({ c1 with clientLog := c1.clientLog ++ [op] },
            Outcome.ret (some ("MQTT: Error unsubscribing: " ++ e)))
        | none =>
          let manager2 : Manager :=
            { manager1 with subscriptions := mapDelete manager1.subscriptions mqttSource.Topic }
          disconnectIfEmpty
            { c1 with
                clientLog := c1.clientLog ++ [op],
                managers := mapPut c1.managers mqttSource.BrokerURL manager2 }
            manager2 mqttSource
      else disconnectIfEmpty c1 manager1 mqttSource

/-- Handler `MQTTConnector.CreateHandler`. -/
def CreateHandler (b : Broker) (c : MQTTConnector) (ds : DataStream) : MQTTConnector × GoError :=
  match ds.Source.MQTTSource with
  | some src =>
    match register b c src with
    | (c1, some e) => (c1, some ("MQTT: Error adding subscription: " ++ e))
    | (c1, none) => (c1, none)
  | none => (c, none)

/-- Handler `MQTTConnector.DeleteHandler`. -/
def DeleteHandler (b : Broker) (c : MQTTConnector) (oldDS : DataStream) :
    MQTTConnector × Outcome GoError :=
  let c0 := flushCache c
  match oldDS.Source.MQTTSource with
  | some src =>
    let c1 : MQTTConnector := { c0 with cache := mapDelete c0.cache oldDS.Name }
    match unregister b c1 src with
    | (c2, Outcome.panic msg) => (c2, Outcome.panic msg)
    | (c2, Outcome.ret (some e)) =>
      (c2, Outcome.ret (some ("MQTT: Error removing subscription: " ++ e)))
    | (c2, Outcome.ret none) =>
      ({ c2 with failedRegistrations := mapDelete c2.failedRegistrations oldDS.Name },
        Outcome.ret none)
  | none => (c0, Outcome.ret none)

/-! ## Records and the message handler (`Subscription.onMessage`) -/

/-- A `float64` datum, carried by its bit pattern: the code below only tests such values for
presence and copies them. -/
structure F64 where
  bits : Nat
  deriving DecidableEq, Repr

/-- Normalised measurement record (`senml.Record`). `Value` and `BoolValue` are pointers. -/
structure Record where
  Name : String
  Unit : String
  Time : F64
  Value : Option F64
  StringValue : String
  BoolValue : Option Bool
  deriving DecidableEq, Repr

/-- Modelled from the spec: constant `common.FLOAT`, the stream type `float`; package `common`
is not part of the sources at hand. -/
def FLOAT : String := "float"

/-- Modelled from the spec: constant `common.STRING`, the stream type `string`. -/
def STRING : String := "string"

/-- Modelled from the spec: constant `common.BOOL`, the stream type `bool`. -/
def BOOL : String := "bool"

/-- Answer of `registry.Get(name)`: a stream, a not-found error, or another error. -/
inductive GetResult where
  | found (ds : DataStream)
  | notFound
  | failed
  deriving DecidableEq, Repr

/-- Local state of one run of `onMessage`: the connector cache, the maps `data` and `sources`
being filled, and the status codes logged by `logMQTTError`, each with the record name. -/
structure MessageState where
  cache : List (String × DataStream)
  data : List (String × List Record)
  sources : List (String × DataStream)
  log : List (Nat × String)
  deriving DecidableEq, Repr

/-- The switch of `onMessage` on the stream type: `true` when the record lacks the value the
type asks for. -/
def typeError (ds : DataStream) (r : Record) : Bool :=
  if ds.Type' = FLOAT then r.Value.isNone
  else if ds.Type' = STRING then decide (r.StringValue = "")
  else if ds.Type' = BOOL then r.BoolValue.isNone
  else false

/-- End of the loop body of `onMessage`: the record is appended to the entry of its stream
in `data`; the entry and the one in `sources` are created when missing. -/
def collectRecord (st : MessageState) (ds : DataStream) (r : Record) : MessageState :=
  let st2 : MessageState :=
    match mapGet st.data ds.Name with
    | some _ => st
    | none =>
      { st with data := mapPut st.data ds.Name [], sources := mapPut st.sources ds.Name ds }
  { st2 with data := mapPut st2.data ds.Name (((mapGet st2.data ds.Name).getD []) ++ [r]) }

/-- Middle of the loop body of `onMessage`, for the stream `ds` found for the record: the
checks "is the message wanted" and "does the value match the type", then the collection. -/
def checkRecord (url topic : String) (st : MessageState) (ds : DataStream) (r : Record) :
    MessageState :=
  match ds.Source.MQTTSource with
  | none => { st with log := st.log ++ [(406, r.Name)] }
  | some m =>
    if m.BrokerURL ≠ url then { st with log := st.log ++ [(406, r.Name)] }
    else if m.Topic ≠ topic then { st with log := st.log ++ [(406, r.Name)] }
    else if typeError ds r then { st with log := st.log ++ [(400, r.Name)] }
    else collectRecord st ds r

/-- Body of the loop of `onMessage` over the records of a message, for the subscription
`(url, topic)`: find the stream of the record (cache, else registry, which fills the cache),
then check and collect. -/
def onMessageRecord (url topic : String) (registryGet : String → GetResult)
    (st : MessageState) (r : Record) : MessageState :=
  match mapGet st.cache r.Name with
  | some ds => checkRecord url topic st ds r
  | none =>
    match registryGet r.Name with
    | GetResult.notFound => { st with log := st.log ++ [(404, r.Name)] }
    | GetResult.failed => { st with log := st.log ++ [(500, r.Name)] }
    | GetResult.found ds =>
      checkRecord url topic { st with cache := mapPut st.cache r.Name ds } ds r

/-- What one run of `onMessage` leaves behind: the connector (its cache may have grown), the
status codes logged, and the arguments of the call of `storage.Submit`, if it was called. -/
structure MessageResult where
  connector : MQTTConnector
  log : List (Nat × String)
  submitted : Option (List (String × List Record) × List (String × DataStream))

/-- Method `Subscription.onMessage` for the subscription `(url, topic)` of connector `c`.
`decode` stands for `senml.Decode` followed by `Normalize`, `registryGet` for the registry and
`storageSubmit` for the storage behind the connector. -/
def onMessage (decode : String → Option (List Record)) (registryGet : String → GetResult)
    (storageSubmit : List (String × List Record) → List (String × DataStream) → GoError)
    (c : MQTTConnector) (url topic : String) (payload : String) : MessageResult :=
  match decode payload with
  | none => { connector := c, log := [(400, "")], submitted := none }
  | some records =>
    let st := records.foldl (onMessageRecord url topic registryGet)
      { cache := c.cache, data := [], sources := [], log := [] }
    let c1 : MQTTConnector := { c with cache := st.cache }
    if st.data.length > 0 then
      match storageSubmit st.data st.sources with
      | some _ => { connector := c1, log := st.log ++ [(500, "")], submitted := some (st.data, st.sources) }
      | none => { connector := c1, log := st.log ++ [(202, "")], submitted := some (st.data, st.sources) }
    else { connector := c1, log := st.log, submitted := none }

/-- The records handed to `storage.Submit` by a run of `onMessage` (none when `Submit` was not
called). -/
def submittedRecords (res : MessageResult) : List Record :=
  match res.submitted with
  | none => []
  | some (data, _) => (data.map (fun p => p.2)).flatten

/-- The stream `onMessage` works with for a record name: the cached one, else the one the
registry returns. -/
def resolveStream (cache : List (String × DataStream)) (registryGet : String → GetResult)
    (name : String) : Option DataStream :=
  match mapGet cache name with
  | some ds => some ds
  | none =>
    match registryGet name with
    | GetResult.found ds => some ds
    | _ => none

/-- The stream has an mqtt source whose broker URL and topic are those of the subscription. -/
def sourceMatches (url topic : String) (ds : DataStream) : Prop :=
  ∃ m, ds.Source.MQTTSource = some m ∧ m.BrokerURL = url ∧ m.Topic = topic


/-! ## Time-series storage adapter (`data/influxdb.go`) -/

/-- Stream record `registry.DataSource`, with the fields the adapter reads. -/
structure DataSource where
  ID : String
  Resource : String
  Type' : String
  Retention : String
  deriving DecidableEq, Repr

/-- Record `influxStorageConfig`. -/
structure influxStorageConfig where
  dsn : String
  database : String
  username : String
  password : String
  replication : Int
  deriving DecidableEq, Repr

/-- Method `MeasurementName`. -/
def MeasurementName (id : String) : String :=
  "data_" ++ id

/-- Method `RetentionPolicyName`. -/
def RetentionPolicyName (period : String) : String :=
  if period = "" then "autogen" else "policy_" ++ period

/-- Method `MeasurementNameFQ`. -/
def MeasurementNameFQ (config : influxStorageConfig) (retention measurementName : String) :
    String :=
  "\"" ++ config.database ++ "\".\"" ++ RetentionPolicyName retention ++ "\".\""
    ++ measurementName ++ "\""

/-- Method `FieldForType`. -/
def FieldForType (t : String) : String :=
  if t = FLOAT then "value"
  else if t = STRING then "stringValue"
  else if t = BOOL then "booleanValue"
  else ""

/-- A fully qualified measurement name by its parts; `dbQuoted` tells whether the database
name is written in double quotes. -/
structure FQName where
  database : String
  retentionPolicy : String
  measurement : String
  dbQuoted : Bool
  deriving DecidableEq, Repr

/-- Text of a fully qualified name inside a command. -/
def FQName.text (n : FQName) : String :=
  (if n.dbQuoted then "\"" ++ n.database ++ "\"" else n.database)
    ++ ".\"" ++ n.retentionPolicy ++ "\".\"" ++ n.measurement ++ "\""

/-- The parts of `MeasurementNameFQ(retention, measurementName)`. -/
def measurementFQ (config : influxStorageConfig) (retention measurementName : String) : FQName :=
  { database := config.database, retentionPolicy := RetentionPolicyName retention,
    measurement := measurementName, dbQuoted := true }

/-- The parts of `measurementNameTempFQ(uuid)` of `ChangeRetentionPolicy`: the staging
measurement, under the default retention policy, with the database name unquoted. -/
def measurementNameTempFQ (config : influxStorageConfig) (uuid : String) : FQName :=
  { database := config.database, retentionPolicy := RetentionPolicyName "",
    measurement := "temp_" ++ uuid, dbQuoted := false }

/-- Name `measurementNameTemp(uuid)` of `ChangeRetentionPolicy`. -/
def measurementNameTemp (uuid : String) : String :=
  "temp_" ++ uuid

/-- The instant written by `t.Format(time.RFC3339)`, in whole seconds since the epoch: the
layout has no fractional seconds, the sub-second part of `t` is cut off. -/
def rfc3339 (t : Int) : Int :=
  t / 1000000000

/-- The time condition of `Query`: `time > 'after' AND time < 'before'`, or `time > 'after'`
when `before` is `none`; both in whole seconds since the epoch. -/
structure TimeCond where
  after : Int
  before : Option Int
  deriving DecidableEq, Repr

/-- The commands the adapter sends through `QuerySprintf`, one constructor per format string,
with the formatted arguments. -/
inductive Stmt where
  /-- Format `SELECT COUNT(%s) FROM %s WHERE %s`. -/
  | countWhere (field : String) (src : FQName) (cond : TimeCond)
  /-- Format `SELECT COUNT(%s) FROM %s GROUP BY *`. -/
  | countGroupByAll (field : String) (src : FQName)
  /-- Format `SELECT * FROM %s WHERE %s ORDER BY time %s LIMIT %d OFFSET %d`. -/
  | select (src : FQName) (cond : TimeCond) (sort : String) (limit offset : Int)
  /-- Format `SELECT * INTO %s FROM %s WHERE time > '%s'`. -/
  | selectIntoAfter (dst src : FQName) (after : Int)
  /-- Format `SELECT * INTO %s FROM %s`. -/
  | selectInto (dst src : FQName)
  /-- Format `DELETE FROM "%s"`. -/
  | deleteFrom (measurement : String)
  /-- Format `DROP MEASUREMENT "%s"`. -/
  | dropMeasurement (measurement : String)
  deriving DecidableEq, Repr

/-- A `json.Number`: its text, and what its methods `Int64` and `Float64` return for it
(`none`: the method returns an error). -/
structure JsonNumber where
  text : String
  int64 : Option Int
  float64 : Option F64
  deriving DecidableEq, Repr

/-- A cell of a result row (an empty interface): nil, a string, a `json.Number`, a bool, or
a value of another type. -/
inductive Cell where
  | null
  | str (s : String)
  | num (n : JsonNumber)
  | bool (b : Bool)
  | other
  deriving DecidableEq, Repr

/-- Result series `models.Row`. -/
structure Row where
  Name : String
  Tags : List (String × String)
  Columns : List String
  Values : List (List Cell)
  deriving DecidableEq, Repr

/-- Statement result `influx.Result`. -/
structure Result where
  Series : List Row
  Err : String
  deriving DecidableEq, Repr

/-- Engine answer `influx.Response`. -/
structure Response where
  Results : List Result
  Err : String
  deriving DecidableEq, Repr

/-- Method `Response.Error` of the engine client: the error of the response, else the first
error of a result. -/
def Response.Error (r : Response) : GoError :=
  if r.Err ≠ "" then some r.Err
  else (r.Results.find? (fun res => decide (res.Err ≠ ""))).map (fun res => res.Err)

/-- What `client.Query` returns: an error, or a response. -/
inductive QueryReply where
  | failed (err : String)
  | response (r : Response)
  deriving DecidableEq, Repr

/-- A value of a field of a point. -/
inductive FieldValue where
  | float (v : F64)
  | string (s : String)
  | bool (b : Bool)
  deriving DecidableEq, Repr

/-- A point as given to `influx.NewPoint`: measurement, tags, fields, time. -/
structure Point where
  name : String
  tags : List (String × String)
  fields : List (String × FieldValue)
  time : Int
  deriving DecidableEq, Repr

/-- A batch as built with `influx.NewBatchPoints` and `AddPoint`. -/
structure BatchPoints where
  database : String
  precision : String
  retentionPolicy : String
  points : List Point
  deriving DecidableEq, Repr

/-- The engine behind `influx.Client`, with state `σ`: the answers to a command and to a
write (the error of the write, `none` on success). -/
structure Client (σ : Type) where
  Query : Stmt → σ → QueryReply × σ
  Write : BatchPoints → σ → GoError × σ

/-- A call made on the engine client, with its answer. -/
inductive Call where
  | query (s : Stmt) (reply : QueryReply)
  | write (bp : BatchPoints) (err : GoError)
  deriving DecidableEq, Repr

/-- Outcome of running adapter code on the engine: the value, the engine state afterwards,
and the calls made on the client, in order. -/
structure Run (σ α : Type) where
  val : α
  engine : σ
  calls : List Call

/-- What the adapter takes from its surroundings: library functions, the clock, the uuid
generator. -/
structure Env where
  /-- Function `influxql.ParseDuration`: nanoseconds, or an error. -/
  ParseDuration : String → Except String Int
  /-- Function `json.Unmarshal` of an error text into an `influx.Response`: the field `Err`
  of the decoded response, or the decoding error. -/
  Unmarshal : String → Except String String
  /-- Function `influx.NewPoint`: the error it returns for a point, if any. -/
  NewPointError : Point → GoError
  /-- Instant `time.Unix(int64(sec), int64(frac*1e9))` for `sec, frac := math.Modf(t)`. -/
  UnixTime : F64 → Int
  /-- Conversion `time.Parse(time.RFC3339, s)` followed by `float64(t.UnixNano()) / 1e9`. -/
  ParseTime : String → Option F64
  /-- Function `common.PerItemPagination(limit, page, perPage, n)`. -/
  PerItemPagination : Int → Int → Int → Nat → List Int × List Int
  /-- Reading of the clock in `ParseDuration` (`time.Since`). -/
  nowParse : Int
  /-- Reading of the clock when the staging command is built (`time.Now()`). -/
  nowCommand : Int
  /-- Value of `uuid.NewV4().String()`. -/
  uuid : String

/-- Wrap-around of `int64` arithmetic. -/
def wrap64 (x : Int) : Int :=
  (x + 9223372036854775808) % 18446744073709551616 - 9223372036854775808

/-- Duration `time.Minute`, in nanoseconds. -/
def minute : Int := 60000000000

/-- The message of the engine for points older than the retention policy. -/
def retentionDropMsg : String := "partial write: points beyond retention policy dropped"

/-- Tags of the point of a record in `Submit`. -/
def tagsOf (dp : Record) : List (String × String) :=
  let tags := mapPut [] "name" dp.Name
  if dp.Unit ≠ "" then mapPut tags "units" dp.Unit else tags

/-- Fields of the point of a record in `Submit`. -/
def fieldsOf (dp : Record) : List (String × FieldValue) :=
  match dp.Value with
  | some v => mapPut [] "value" (FieldValue.float v)
  | none =>
    if dp.StringValue ≠ "" then mapPut [] "stringValue" (FieldValue.string dp.StringValue)
    else
      match dp.BoolValue with
      | some b => mapPut [] "booleanValue" (FieldValue.bool b)
      | none => []

/-- The point `Submit` builds for record `dp` of the stream `id`. -/
def pointOf (env : Env) (id : String) (dp : Record) : Point :=
  { name := MeasurementName id, tags := tagsOf dp, fields := fieldsOf dp,
    time := env.UnixTime dp.Time }

/-- Inner loop of `Submit`: the points of the records, up to the first point that
`influx.NewPoint` refuses. -/
def buildPoints (env : Env) (id : String) (dps : List Record) : Except String (List Point) :=
  match dps with
  | [] => Except.ok []
  | dp :: rest =>
    match env.NewPointError (pointOf env id dp) with
    | some e => Except.error e
    | none =>
      match buildPoints env id rest with
      | Except.error e => Except.error e
      | Except.ok pts => Except.ok (pointOf env id dp :: pts)

/-- The block of `Submit` that handles a failed write: what `Submit` returns for the error
text `err` of `client.Write`. -/
def writeError (env : Env) (err : String) : GoError :=
  match env.Unmarshal err with
  | Except.error marshalErr => some ("Error writing: " ++ marshalErr ++ ": " ++ err)
  | Except.ok influxErr =>
    if stringsContains influxErr retentionDropMsg then none
    else some ("Error writing: " ++ influxErr)

/-- Method `InfluxStorage.Submit`. The map `data` is given in the order the loop visits it.
The precision `us` is one `influx.NewBatchPoints` accepts. -/
def Submit {σ : Type} (cl : Client σ) (env : Env) (config : influxStorageConfig)
    (data : List (String × List Record)) (sources : List (String × DataSource)) (eng : σ) :
    Run σ (Outcome GoError) :=
  match data with
  | [] => { val := Outcome.ret none, engine := eng, calls := [] }
  | (id, dps) :: rest =>
    match mapGet sources id with
    | none =>
      { val := Outcome.panic "invalid memory address or nil pointer dereference",
        engine := eng, calls := [] }
    | some src =>
      match buildPoints env id dps with
      | Except.error e =>
        { val := Outcome.ret
            (some ("Error creating data point for source " ++ src.ID ++ ": " ++ e)),
          engine := eng, calls := [] }
      | Except.ok pts =>
        let bp : BatchPoints :=
          { database := config.database, precision := "us",
            retentionPolicy := RetentionPolicyName src.Retention, points := pts }
        let w := cl.Write bp eng
        match w.1 with
        | none =>
          let r := Submit cl env config rest sources w.2
          { r with calls := Call.write bp none :: r.calls }
        | some err =>
          { val := Outcome.ret (writeError env err), engine := w.2,
            calls := [Call.write bp (some err)] }

/-! ### Commands, counting, retention change -/

/-- What `QuerySprintf` returns for an answer of `client.Query`. -/
def replyResult (reply : QueryReply) : List Result × GoError :=
  match reply with
  | QueryReply.failed err => ([], some ("Request error: " ++ err))
  | QueryReply.response response =>
    match response.Error with
    | some e => ([], some ("Statement error: " ++ e))
    | none => (response.Results, none)

/-- Method `QuerySprintf`: sends the command and returns the results or an error. -/
def QuerySprintf {σ : Type} (cl : Client σ) (stmt : Stmt) (eng : σ) :
    Run σ (List Result × GoError) :=
  let a := cl.Query stmt eng
  { val := replyResult a.1, engine := a.2, calls := [Call.query stmt a.1] }

/-- The part of `CountSprintf` after the command: the count read from the first value row of
the first series of the first result. The cell is asserted to be a `json.Number`. -/
def countOfResults (res : List Result) : Outcome (Int × GoError) :=
  match res with
  | [] => Outcome.ret (0, some "Unable to get count from database: response empty")
  | res0 :: _ =>
    match res0.Series with
    | [] => Outcome.ret (0, none)
    | row :: _ =>
      match row.Values with
      | [] => Outcome.ret (0, some "Unable to get count from database: bad response")
      | v0 :: _ =>
        if v0.length < 2 then
          Outcome.ret (0, some "Unable to get count from database: bad response")
        else
          match v0[1]? with
          | some (Cell.num n) =>
            match n.int64 with
            | some count => Outcome.ret (count, none)
            | none => Outcome.ret (0, some "Unable to parse count from database response.")
          | _ => Outcome.panic "interface conversion: interface is not json.Number"

/-- What `CountSprintf` returns for an answer of `client.Query`. -/
def countOfReply (reply : QueryReply) : Outcome (Int × GoError) :=
  match replyResult reply with
  | (_, some err) => Outcome.ret (0, some err)
  | (res, none) => countOfResults res

/-- Method `CountSprintf`. -/
def CountSprintf {σ : Type} (cl : Client σ) (stmt : Stmt) (eng : σ) :
    Run σ (Outcome (Int × GoError)) :=
  let r := QuerySprintf cl stmt eng
  { val := match r.val with
      | (_, some err) => Outcome.ret (0, some err)
      | (res, none) => countOfResults res,
    engine := r.engine, calls := r.calls }

/-- Duration `t.Sub(u)`: the difference, saturated at the bounds of `int64`. -/
def timeSub (t u : Int) : Int :=
  max (-9223372036854775808) (min 9223372036854775807 (t - u))

/-- Method `ParseDuration`: the empty period is the time since the epoch. -/
def ParseDuration (env : Env) (durationStr : String) : Except String Int :=
  if durationStr = "" then Except.ok (timeSub env.nowParse 0)
  else env.ParseDuration durationStr

/-- The instant `time.Now().UTC().Add(-retention)` of the staging command, after
`retention -= time.Minute`, for the parsed duration `parsed`. -/
def stagingCutoff (now parsed : Int) : Int :=
  let retention := wrap64 (parsed - minute)
  now + wrap64 (-retention)

/-- Steps 2 to 4 of `ChangeRetentionPolicy`, after the staging command succeeded. -/
def moveStaged {σ : Type} (cl : Client σ) (env : Env) (config : influxStorageConfig)
    (measurement newRP : String) (eng : σ) : Run σ (Outcome GoError) :=
  -- 2) delete the data from old measurement (on all RPs)
  let r2 := QuerySprintf cl (Stmt.deleteFrom measurement) eng
  match r2.val.2 with
  | some err =>
    { val := Outcome.ret (some ("Error removing the historical data: " ++ err)),
      engine := r2.engine, calls := r2.calls }
  | none =>
    -- 3) move data from temp into new RP
    let r3 := QuerySprintf cl
      (Stmt.selectInto (measurementFQ config newRP measurement)
        (measurementNameTempFQ config env.uuid)) r2.engine
    match r3.val.2 with
    | some err =>
      { val := Outcome.ret
          (some ("Error moving the historical data to new retention policy: " ++ err)),
        engine := r3.engine, calls := r2.calls ++ r3.calls }
    | none =>
      -- 4) drop temp
      let r4 := QuerySprintf cl (Stmt.dropMeasurement (measurementNameTemp env.uuid)) r3.engine
      match r4.val.2 with
      | some err =>
        if stringsContains err "measurement not found" then
          { val := Outcome.ret none, engine := r4.engine,
            calls := r2.calls ++ r3.calls ++ r4.calls }
        else
          { val := Outcome.ret (some ("Error removing the historical data: " ++ err)),
            engine := r4.engine, calls := r2.calls ++ r3.calls ++ r4.calls }
      | none =>
        { val := Outcome.ret none, engine := r4.engine,
          calls := r2.calls ++ r3.calls ++ r4.calls }

/-- Method `ChangeRetentionPolicy`. -/
def ChangeRetentionPolicy {σ : Type} (cl : Client σ) (env : Env) (config : influxStorageConfig)
    (measurement countField oldRP newRP : String) (eng : σ) : Run σ (Outcome GoError) :=
  let r0 := CountSprintf cl
    (Stmt.countGroupByAll countField (measurementFQ config oldRP measurement)) eng
  match r0.val with
  | Outcome.panic msg => { val := Outcome.panic msg, engine := r0.engine, calls := r0.calls }
  | Outcome.ret (_, some err) =>
    { val := Outcome.ret (some ("Error counting historical data: " ++ err)),
      engine := r0.engine, calls := r0.calls }
  | Outcome.ret (count, none) =>
    if count = 0 then
      -- no data to move
      { val := Outcome.ret none, engine := r0.engine, calls := r0.calls }
    else
      match ParseDuration env newRP with
      | Except.error err =>
        { val := Outcome.ret
            (some ("Error parsing retention period: " ++ newRP ++ ": " ++ err)),
          engine := r0.engine, calls := r0.calls }
      | Except.ok parsed =>
        -- 1) keep required data in temp measurement
        let r1 := QuerySprintf cl
          (Stmt.selectIntoAfter (measurementNameTempFQ config env.uuid)
            (measurementFQ config oldRP measurement)
            (rfc3339 (stagingCutoff env.nowCommand parsed))) r0.engine
        match r1.val.2 with
        | some err =>
          { val := Outcome.ret
              (some ("Error moving the historical data to new retention policy: " ++ err)),
            engine := r1.engine, calls := r0.calls ++ r1.calls }
        | none =>
          let r := moveStaged cl env config measurement newRP r1.engine
          { r with calls := r0.calls ++ r1.calls ++ r.calls }

/-- Method `NtfUpdated`; the value is what is sent on the channel `callback`. The wait for
the preparation of the storage is taken as over. -/
def NtfUpdated {σ : Type} (cl : Client σ) (env : Env) (config : influxStorageConfig)
    (oldDS newDS : DataSource) (eng : σ) : Run σ (Outcome GoError) :=
  if oldDS.Retention ≠ newDS.Retention then
    let r := ChangeRetentionPolicy cl env config (MeasurementName oldDS.ID)
      (FieldForType oldDS.Type') oldDS.Retention newDS.Retention eng
    match r.val with
    | Outcome.ret (some err) =>
      { r with val := Outcome.ret (some ("Error changing retention policy: " ++ err)) }
    | _ => r
  else { val := Outcome.ret none, engine := eng, calls := [] }

/-! ### Query -/

/-- Query arguments `data.Query`; `Start` and `End` are instants. -/
structure Query where
  Start : Int
  End : Int
  Sort' : String
  Limit : Int
  deriving DecidableEq, Repr

/-- Modelled from the spec: constant `common.ASC`, the value of the parameter `sort` asking
for ascending order; package `common` is not part of the sources at hand. -/
def ASC : String := "asc"

/-- Modelled from the spec: constant `common.ParamEnd`, the name of the query parameter
`end`. -/
def ParamEnd : String := "end"

/-- The record a loop of `serieToRecords` starts from (`var record senml.SenMLRecord`). -/
def zeroRecord : Record :=
  { Name := "", Unit := "", Time := { bits := 0 }, Value := none, StringValue := "",
    BoolValue := none }

/-- The switch of `serieToRecords` on the column name, for a cell that is not nil. The cell
of column `value` is asserted to be a `json.Number`; when the number does not read as a float
the error is that of `strconv.ParseFloat`, given here with the text of a syntax error. -/
def setColumn (env : Env) (record : Record) (column : String) (v : Cell) :
    Outcome (Except String Record) :=
  if column = "time" then
    match v with
    | Cell.str val =>
      match env.ParseTime val with
      | none => Outcome.ret (Except.error ("Invalid time format: " ++ val))
      | some t => Outcome.ret (Except.ok { record with Time := t })
    | _ => Outcome.ret (Except.error "Interface conversion error. time not string?")
  else if column = "name" then
    match v with
    | Cell.str val => Outcome.ret (Except.ok { record with Name := val })
    | _ => Outcome.ret (Except.error "Interface conversion error. name not string?")
  else if column = "value" then
    match v with
    | Cell.num n =>
      match n.float64 with
      | some val => Outcome.ret (Except.ok { record with Value := some val })
      | none =>
        Outcome.ret (Except.error
          ("strconv.ParseFloat: parsing \"" ++ n.text ++ "\": invalid syntax"))
    | _ => Outcome.panic "interface conversion: interface is not json.Number"
  else if column = "booleanValue" then
    match v with
    | Cell.bool val => Outcome.ret (Except.ok { record with BoolValue := some val })
    | _ => Outcome.ret (Except.error "Interface conversion error. booleanValue not bool?")
  else if column = "stringValue" then
    match v with
    | Cell.str val => Outcome.ret (Except.ok { record with StringValue := val })
    | _ => Outcome.ret (Except.error "Interface conversion error. stringValue not string?")
  else if column = "units" then
    match v with
    | Cell.str val => Outcome.ret (Except.ok { record with Unit := val })
    | _ => Outcome.ret (Except.error "Interface conversion error. units not string?")
  else Outcome.ret (Except.ok record)

/-- Inner loop of `serieToRecords` over the cells of one value row, from index `i`. -/
def rowToRecord (env : Env) (columns : List String) (cells : List Cell) (i : Nat)
    (record : Record) : Outcome (Except String Record) :=
  match cells with
  | [] => Outcome.ret (Except.ok record)
  | v :: rest =>
    if v = Cell.null then rowToRecord env columns rest (i + 1) record
    else
      match columns[i]? with
      | none => Outcome.panic "index out of range"
      | some column =>
        match setColumn env record column v with
        | Outcome.panic msg => Outcome.panic msg
        | Outcome.ret (Except.error e) => Outcome.ret (Except.error e)
        | Outcome.ret (Except.ok record1) => rowToRecord env columns rest (i + 1) record1

/-- Outer loop of `serieToRecords` over the value rows. -/
def rowsToRecords (env : Env) (columns : List String) (values : List (List Cell))
    (records : List Record) : Outcome (List Record × GoError) :=
  match values with
  | [] => Outcome.ret (records, none)
  | e :: rest =>
    match rowToRecord env columns e 0 zeroRecord with
    | Outcome.panic msg => Outcome.panic msg
    | Outcome.ret (Except.error err) => Outcome.ret ([], some err)
    | Outcome.ret (Except.ok record) => rowsToRecords env columns rest (records ++ [record])

/-- Function `serieToRecords`. -/
def serieToRecords (env : Env) (r : Row) : Outcome (List Record × GoError) :=
  rowsToRecords env r.Columns r.Values []

/-- First block of `Query`: the start is raised to the epoch, and the query is refused when
its end is then before `time.Unix(0, 1)`. -/
def clampStart (q : Query) : Except String Query :=
  if q.Start < 0 then
    let q1 : Query := { q with Start := 0 }
    if q1.End < 1 then
      Except.error (ParamEnd ++ " argument must be greater than 1970-01-01T00:00:00Z")
    else Except.ok q1
  else Except.ok q

/-- The time condition of `Query`, after the start was raised to the epoch. -/
def timeCondOf (q : Query) : TimeCond :=
  if q.Start < q.End then { after := rfc3339 q.Start, before := some (rfc3339 q.End) }
  else { after := rfc3339 q.Start, before := none }

/-- The loop of `Query` over the streams, from index `i`, with the records and the total
collected so far. -/
def queryLoop {σ : Type} (cl : Client σ) (env : Env) (config : influxStorageConfig)
    (timeCond : TimeCond) (sort : String) (perItems offsets : List Int) (i : Nat)
    (sources : List DataSource) (pack : List Record) (total : Int) (eng : σ) :
    Run σ (Outcome (List Record × Int × GoError)) :=
  match sources with
  | [] => { val := Outcome.ret (pack, total, none), engine := eng, calls := [] }
  | ds :: rest =>
    let fq := measurementFQ config ds.Retention (MeasurementName ds.ID)
    -- count total
    let rc := CountSprintf cl (Stmt.countWhere (FieldForType ds.Type') fq timeCond) eng
    match rc.val with
    | Outcome.panic msg => { val := Outcome.panic msg, engine := rc.engine, calls := rc.calls }
    | Outcome.ret (_, some err) =>
      { val := Outcome.ret ([], 0,
          some ("Error counting records for source " ++ ds.Resource ++ ": " ++ err)),
        engine := rc.engine, calls := rc.calls }
    | Outcome.ret (count, none) =>
      if count < 1 then
        let r := queryLoop cl env config timeCond sort perItems offsets (i + 1) rest pack total
          rc.engine
        { r with calls := rc.calls ++ r.calls }
      else
        let total1 := wrap64 (total + count)
        match perItems[i]?, offsets[i]? with
        | some perItem, some offset =>
          let rq := QuerySprintf cl (Stmt.select fq timeCond sort perItem offset) rc.engine
          match rq.val with
          | (_, some err) =>
            { val := Outcome.ret ([], 0,
                some ("Error retrieving a data point for source " ++ ds.Resource ++ ": "
                  ++ err)),
              engine := rq.engine, calls := rc.calls ++ rq.calls }
          | ([], none) =>
            { val := Outcome.panic "index out of range", engine := rq.engine,
              calls := rc.calls ++ rq.calls }
          | (res0 :: _, none) =>
            if res0.Series.length > 1 then
              { val := Outcome.ret ([], 0, some "Unrecognized/Corrupted database schema."),
                engine := rq.engine, calls := rc.calls ++ rq.calls }
            else
              match res0.Series with
              | [] =>
                -- page out of range
                let r := queryLoop cl env config timeCond sort perItems offsets (i + 1) rest
                  pack total1 rq.engine
                { r with calls := rc.calls ++ rq.calls ++ r.calls }
              | serie :: _ =>
                match serieToRecords env serie with
                | Outcome.panic msg =>
                  { val := Outcome.panic msg, engine := rq.engine,
                    calls := rc.calls ++ rq.calls }
                | Outcome.ret (_, some err) =>
                  { val := Outcome.ret ([], 0,
                      some ("Error parsing points for source " ++ ds.Resource ++ ": " ++ err)),
                    engine := rq.engine, calls := rc.calls ++ rq.calls }
                | Outcome.ret (serieRecords, none) =>
                  let pack1 := if perItem ≠ 0 then pack ++ serieRecords else pack
                  let r := queryLoop cl env config timeCond sort perItems offsets (i + 1) rest
                    pack1 total1 rq.engine
                  { r with calls := rc.calls ++ rq.calls ++ r.calls }
        | _, _ =>
          { val := Outcome.panic "index out of range", engine := rc.engine, calls := rc.calls }

/-- Method `InfluxStorage.Query`: the records, the total and the error it returns. -/
def InfluxStorage.Query {σ : Type} (cl : Client σ) (env : Env) (config : influxStorageConfig)
    (q : Query) (page perPage : Int) (sources : List DataSource) (eng : σ) :
    Run σ (Outcome (List Record × Int × GoError)) :=
  match clampStart q with
  | Except.error err => { val := Outcome.ret ([], 0, some err), engine := eng, calls := [] }
  | Except.ok q1 =>
    let timeCond := timeCondOf q1
    let pag := env.PerItemPagination q1.Limit page perPage sources.length
    let sort := if q1.Sort' = ASC then "ASC" else "DESC"
    let r := queryLoop cl env config timeCond sort pag.1 pag.2 0 sources [] 0 eng
    match r.val with
    | Outcome.ret (pack, total, none) =>
      -- q.Limit overrides total
      if q1.Limit > 0 ∧ q1.Limit < total then { r with val := Outcome.ret (pack, q1.Limit, none) }
      else r
    | _ => r

/-! ### Reading the log of a retention change -/

/-- The command of a logged call, if it is a command. -/
def Call.stmt (c : Call) : Option Stmt :=
  match c with
  | Call.query s _ => some s
  | Call.write _ _ => none

/-- A logged call is a failed step of the retention change: the count command when
`CountSprintf` returns an error for its answer, the final drop when `QuerySprintf` returns an
error that does not mention a missing measurement, any other command when `QuerySprintf`
returns an error. -/
def stepFails (c : Call) : Prop :=
  match c with
  | Call.query (Stmt.countGroupByAll _ _) reply =>
    ∃ n err, countOfReply reply = Outcome.ret (n, some err)
  | Call.query (Stmt.dropMeasurement _) reply =>
    ∃ err, (replyResult reply).2 = some err ∧
      stringsContains err "measurement not found" = false
  | Call.query _ reply => ∃ err, (replyResult reply).2 = some err
  | Call.write _ err => err ≠ none

/-- The parsing of the new retention was reached and failed: the count command is the only
call, it gave a count other than zero, and `ParseDuration` returns an error. -/
def parseFails (env : Env) (newRP : String) (calls : List Call) : Prop :=
  ∃ s reply count err, calls = [Call.query s reply] ∧
    countOfReply reply = Outcome.ret (count, none) ∧ count ≠ 0 ∧
    ParseDuration env newRP = Except.error err

/-- The five commands of a retention change, in order: count, stage, delete, restore, drop. -/
def migrationStmts (env : Env) (config : influxStorageConfig)
    (measurement countField oldRP newRP : String) : List Stmt :=
  [ Stmt.countGroupByAll countField (measurementFQ config oldRP measurement),
    Stmt.selectIntoAfter (measurementNameTempFQ config env.uuid)
      (measurementFQ config oldRP measurement)
      (rfc3339 (stagingCutoff env.nowCommand
        (match ParseDuration env newRP with
          | Except.ok parsed => parsed
          | Except.error _ => 0))),
    Stmt.deleteFrom measurement,
    Stmt.selectInto (measurementFQ config newRP measurement)
      (measurementNameTempFQ config env.uuid),
    Stmt.dropMeasurement (measurementNameTemp env.uuid) ]

/-- The function returned a non-nil error. -/
def returnsError (o : Outcome GoError) : Prop :=
  ∃ e, o = Outcome.ret (some e)

/-! ### An engine for the commands of the retention change

The engine itself is outside this repository. To state what a retention change does to the
stored records, the commands it sends are given their meaning in the query language of the
engine, over a store of points filed by retention policy: `SELECT * INTO` copies the selected
points, `time > c` is strict, `DELETE FROM` and `DROP MEASUREMENT` act on all retention
policies, and dropping a measurement that does not exist is a statement error. -/

/-- A point in the store: the retention policy it is filed under, and the point. -/
structure Stored where
  retentionPolicy : String
  point : Point
  deriving DecidableEq, Repr

/-- The stored point belongs to the fully qualified measurement `n`. -/
def inTarget (n : FQName) (s : Stored) : Bool :=
  decide (s.retentionPolicy = n.retentionPolicy ∧ s.point.name = n.measurement)

/-- The copy of a stored point written into the fully qualified measurement `n`. -/
def retarget (n : FQName) (s : Stored) : Stored :=
  { retentionPolicy := n.retentionPolicy, point := { s.point with name := n.measurement } }

/-- The stored point has a value for the field. -/
def hasField (field : String) (s : Stored) : Bool :=
  (mapGet s.point.fields field).isSome

/-- The `json.Number` of a count; its reading as a float is not used. -/
def countNumber (n : Nat) : JsonNumber :=
  { text := toString n, int64 := some (n : Int), float64 := none }

/-- Series of `SELECT COUNT(field) ... GROUP BY *` over the given points: one series per set
of tags, with one value row `[time, count]`. -/
def countSeries (rows : List Stored) : List Row :=
  ((rows.map (fun s => s.point.tags)).dedup).map (fun tags =>
    { Name := "", Tags := tags, Columns := ["time", "count"],
      Values := [[Cell.str "1970-01-01T00:00:00Z",
                  Cell.num (countNumber (rows.filter (fun s => decide (s.point.tags = tags))).length)]] })

/-- The answer to a command that succeeded without rows. -/
def emptyReply : QueryReply :=
  QueryReply.response { Results := [{ Series := [], Err := "" }], Err := "" }

/-- The engine on the commands of the retention change; the two commands of `Query` are not
covered and are answered with an error. -/
def retentionEngineQuery (stmt : Stmt) (store : List Stored) : QueryReply × List Stored :=
  match stmt with
  | Stmt.countGroupByAll field src =>
    let series := countSeries (store.filter (fun s => inTarget src s && hasField field s))
    (QueryReply.response { Results := [{ Series := series, Err := "" }], Err := "" }, store)
  | Stmt.selectIntoAfter dst src after =>
    (emptyReply,
      store ++ (store.filter (fun s => inTarget src s &&
        decide (s.point.time > after * 1000000000))).map (retarget dst))
  | Stmt.selectInto dst src =>
    (emptyReply, store ++ (store.filter (fun s => inTarget src s)).map (retarget dst))
  | Stmt.deleteFrom measurement =>
    (emptyReply, store.filter (fun s => decide (s.point.name ≠ measurement)))
  | Stmt.dropMeasurement measurement =>
    if store.any (fun s => decide (s.point.name = measurement)) then
      (emptyReply, store.filter (fun s => decide (s.point.name ≠ measurement)))
    else
      (QueryReply.response
        { Results := [{ Series := [], Err := "measurement not found: " ++ measurement }],
          Err := "" }, store)
  | Stmt.countWhere _ _ _ => (QueryReply.failed "command not covered", store)
  | Stmt.select _ _ _ _ _ => (QueryReply.failed "command not covered", store)

/-- The engine as a client: commands as above, a write files its points under the retention
policy of the batch. -/
def retentionEngine : Client (List Stored) :=
  { Query := retentionEngineQuery,
    Write := fun bp store =>
      (none, store ++ bp.points.map (fun p => { retentionPolicy := bp.retentionPolicy,
                                                 point := p })) }

/-- A point of the measurement `data_a` with the field `value`, at the given instant. -/
def pointAt (t : Int) : Point :=
  { name := "data_a", tags := [("name", "a")],
    fields := [("value", FieldValue.float { bits := 42 })], time := t }

/-- The store after a retention change that runs all its steps on `retentionEngine`: the
points of `old` after the instant `after` (whole seconds) are staged in `temp`, the measurement
is deleted, the staged points are copied into `new`, and the staging measurement is dropped. -/
def migratedStore (old temp new : FQName) (after : Int) (store : List Stored) : List Stored :=
  let s1 := store ++ (store.filter (fun s => inTarget old s &&
    decide (s.point.time > after * 1000000000))).map (retarget temp)
  let s2 := s1.filter (fun s => decide (s.point.name ≠ old.measurement))
  let s3 := s2 ++ (s2.filter (fun s => inTarget temp s)).map (retarget new)
  if s3.any (fun s => decide (s.point.name = temp.measurement)) then
    s3.filter (fun s => decide (s.point.name ≠ temp.measurement))
  else s3

/-- A store for examples: two points of `data_a` under the default retention policy, one at
the instant 1699996460 s and one a second later. -/
def exampleStore : List Stored :=
  [{ retentionPolicy := "autogen", point := pointAt 1699996460000000000 },
   { retentionPolicy := "autogen", point := pointAt 1699996461000000000 }]

/-! ## Second part: query parameters, update handler, reading the log of a query -/

/-- Modelled from the spec: constant `common.DESC`, the value of the parameter `sort` asking
for descending order; package `common` is not part of the sources at hand. -/
def DESC : String := "desc"

/-- Modelled from the spec: constant `common.ParamStart`, the name of the query parameter
`start`. -/
def ParamStart : String := "start"

/-- Modelled from the spec: constant `common.ParamLimit`, the name of the query parameter
`limit`. -/
def ParamLimit : String := "limit"

/-- Modelled from the spec: constant `common.ParamSort`, the name of the query parameter
`sort`. -/
def ParamSort : String := "sort"

/-- The zero value `time.Time` of an instant: January 1 of year 1, 00:00:00 UTC. -/
def zeroTime : Int := -62135596800000000000

/-- Method `url.Values.Get`: the first value of the key, or the empty string. -/
def formGet (form : List (String × List String)) (key : String) : String :=
  match mapGet form key with
  | some (v :: _) => v
  | _ => ""

/-- Function `ParseQueryParameters` of the HTTP data API. `timeParse` stands for
`time.Parse(time.RFC3339, _)` and `atoi` for `strconv.Atoi` (`none`: an error). -/
def ParseQueryParameters (timeParse : String → Option Int) (atoi : String → Option Int)
    (form : List (String × List String)) : Query :=
  -- if erroneous time specified for start use 'zero time'
  let start := match timeParse (formGet form ParamStart) with
    | some t => t
    | none => zeroTime
  let end' := match timeParse (formGet form ParamEnd) with
    | some t => t
    | none => zeroTime
  -- limit shall be int
  let limit := match atoi (formGet form ParamLimit) with
    | some n => n
    | none => -1
  -- sort shall be asc or desc
  let sort := formGet form ParamSort
  let sort1 := if sort = "" ∨ sort ≠ ASC then DESC else sort
  { Start := start, End := end', Sort' := sort1, Limit := limit }

/-- The comparison `oldDS.Source.MQTTSource != newDS.Source.MQTTSource` of `UpdateHandler`,
a comparison of pointers: two nil pointers are equal, a nil and a non-nil pointer differ,
and two non-nil pointers differ unless they are one pointer, which `samePointer` tells. -/
def pointersDiffer (old new : Option MQTTSource) (samePointer : Bool) : Bool :=
  match old, new with
  | none, none => false
  | some _, some _ => !samePointer
  | _, _ => true

/-- Handler `MQTTConnector.UpdateHandler`; `samePointer` tells whether the source pointers
of the two streams are one pointer. -/
def UpdateHandler (b : Broker) (c : MQTTConnector) (oldDS newDS : DataStream)
    (samePointer : Bool) : MQTTConnector × Outcome GoError :=
  let c0 := if oldDS.Retention ≠ newDS.Retention then flushCache c else c
  if pointersDiffer oldDS.Source.MQTTSource newDS.Source.MQTTSource samePointer then
    -- remove old subscription
    let removed : MQTTConnector × Outcome GoError :=
      match oldDS.Source.MQTTSource with
      | some src =>
        match unregister b c0 src with
        | (c1, Outcome.ret (some e)) =>
          (c1, Outcome.ret (some ("MQTT: Error removing subscription: " ++ e)))
        | r => r
      | none => (c0, Outcome.ret none)
    match removed with
    | (c1, Outcome.ret none) =>
      let c2 : MQTTConnector :=
        { c1 with failedRegistrations := mapDelete c1.failedRegistrations oldDS.Name }
      -- add new subscription
      match newDS.Source.MQTTSource with
      | some src =>
        match register b c2 src with
        | (c3, some e) => (c3, Outcome.ret (some ("MQTT: Error adding subscription: " ++ e)))
        | (c3, none) => (c3, Outcome.ret none)
      | none => (c2, Outcome.ret none)
    | r => r
  else (c0, Outcome.ret none)

/-- The receivers count of the subscription `(url, topic)` in the connector; 0 when there is
no manager for `url` or no subscription for `topic`. -/
def receiversOf (c : MQTTConnector) (url topic : String) : Int :=
  match mapGet c.managers url with
  | none => 0
  | some m =>
    match mapGet m.subscriptions topic with
    | none => 0
    | some s => s.receivers

/-- The subscription `(url, topic)` in the connector, if there is one. -/
def subscriptionOf (c : MQTTConnector) (url topic : String) : Option Subscription :=
  match mapGet c.managers url with
  | none => none
  | some m => mapGet m.subscriptions topic

/-- Text of the time condition in a command, for a formatter `fmt` of instants in whole
seconds (the layout `time.RFC3339`). -/
def TimeCond.text (fmt : Int → String) (c : TimeCond) : String :=
  match c.before with
  | some b => "time > '" ++ fmt c.after ++ "' AND time < '" ++ fmt b ++ "'"
  | none => "time > '" ++ fmt c.after ++ "'"

/-- A logged call is a command of `Query` with the time condition `cond` and the sort order
`sort`: the count of a stream, or the selection of its rows. -/
def isQueryCommand (cond : TimeCond) (sort : String) (c : Call) : Prop :=
  ∃ reply, (∃ field src, c = Call.query (Stmt.countWhere field src cond) reply) ∨
    (∃ src limit offset, c = Call.query (Stmt.select src cond sort limit offset) reply)

/-- The count a logged call contributes to the total of `Query`: for a count command, the
count `CountSprintf` reads from its answer when that is at least 1; otherwise 0. -/
def loggedCount (c : Call) : Int :=
  match c with
  | Call.query (Stmt.countWhere _ _ _) reply =>
    match countOfReply reply with
    | Outcome.ret (count, none) => if count < 1 then 0 else count
    | _ => 0
  | _ => 0

/-- The records a logged call contributes to the pack of `Query`: for a selection with a
limit other than 0, the records `serieToRecords` decodes from the first series of its
answer; nothing for a selection with limit 0 and for every other call. -/
def loggedRecords (env : Env) (c : Call) : List Record :=
  match c with
  | Call.query (Stmt.select _ _ _ limit _) reply =>
    if limit = 0 then []
    else
      match replyResult reply with
      | (res0 :: _, none) =>
        match res0.Series with
        | serie :: _ =>
          match serieToRecords env serie with
          | Outcome.ret (records, none) => records
          | _ => []
        | [] => []
      | _ => []
  | _ => []

/-- The count commands among the logged calls, in order. -/
def countCommands (calls : List Call) : List Stmt :=
  calls.filterMap (fun c =>
    match c with
    | Call.query (Stmt.countWhere field src cond) _ => some (Stmt.countWhere field src cond)
    | _ => none)

/-- The limits of the selections among the logged calls, in order. -/
def selectLimits (calls : List Call) : List Int :=
  calls.filterMap (fun c =>
    match c with
    | Call.query (Stmt.select _ _ _ limit _) _ => some limit
    | _ => none)

/-- The total `Query` returns for the sum `sum` of the counts: the limit overrides it when
`0 < limit < sum`. -/
def limitedTotal (limit sum : Int) : Int :=
  if limit > 0 ∧ limit < sum then limit else sum

/-- The cell the engine returns for a field value; `enc` gives the `json.Number` of a
float. -/
def cellOf (enc : F64 → JsonNumber) (v : FieldValue) : Cell :=
  match v with
  | FieldValue.float x => Cell.num (enc x)
  | FieldValue.string x => Cell.str x
  | FieldValue.bool x => Cell.bool x

/-- The result series holding one point: the columns are its tags and its fields, the single
value row holds the tag values, as strings, and the field values. -/
def rowOfPoint (enc : F64 → JsonNumber) (pt : Point) : Row :=
  { Name := pt.name, Tags := [],
    Columns := pt.tags.map Prod.fst ++ pt.fields.map Prod.fst,
    Values := [pt.tags.map (fun p => Cell.str p.2) ++
      pt.fields.map (fun p => cellOf enc p.2)] }

/-- The record carries exactly one value: a number, a non-empty string, or a boolean. -/
def exactlyOneValue (dp : Record) : Prop :=
  (dp.Value ≠ none ∧ dp.StringValue = "" ∧ dp.BoolValue = none) ∨
  (dp.Value = none ∧ dp.StringValue ≠ "" ∧ dp.BoolValue = none) ∨
  (dp.Value = none ∧ dp.StringValue = "" ∧ dp.BoolValue ≠ none)

/-! ## Third part: type check of messages, configuration, HTTP submit, start-up -/

/-- The record carries the value the type of the stream asks for: a present `Value` for a
float stream, a non-empty `StringValue` for a string stream, a present `BoolValue` for a bool
stream. -/
def carriesDeclaredValue (ds : DataStream) (r : Record) : Prop :=
  (ds.Type' = FLOAT → r.Value ≠ none) ∧
  (ds.Type' = STRING → r.StringValue ≠ "") ∧
  (ds.Type' = BOOL → r.BoolValue ≠ none)

/-! ### Configuration of the storage adapter and its start-up -/

/-- Credentials of a URL (`url.Userinfo`): the user name, and the password if one is set. -/
structure Userinfo where
  username : String
  password : Option String
  deriving DecidableEq, Repr

/-- Parsed URL (`url.URL`), with the fields `initInfluxConf` reads; `User` is a pointer. -/
structure URL where
  Scheme : String
  Host : String
  Path : String
  User : Option Userinfo
  deriving DecidableEq, Repr

/-- Call `strings.Trim(s, "/")`: the leading and the trailing slashes are removed. -/
def trimSlashes (s : String) : String :=
  String.mk (((s.toList.dropWhile (fun ch => decide (ch = '/'))).reverse.dropWhile
    (fun ch => decide (ch = '/'))).reverse)

/-- Function `initInfluxConf`. `urlParse` stands for `url.Parse`. -/
def initInfluxConf (urlParse : String → Except String URL) (DSN : String) :
    Except String influxStorageConfig :=
  match urlParse DSN with
  | Except.error e => Except.error e
  | Except.ok PDSN =>
    if PDSN.Host = "" then
      Except.error "Influxdb config: host:port in the URL must be not empty"
    else if PDSN.Path = "" then Except.error "Influxdb config: db must be not empty"
    else
      let dsn := PDSN.Scheme ++ "://" ++ PDSN.Host
      let database := trimSlashes PDSN.Path
      match PDSN.User with
      | some u => Except.ok (influxStorageConfig.mk dsn database u.username (u.password.getD "") 0)
      | none => Except.ok (influxStorageConfig.mk dsn database "" "" 0)

/-- One second as a `time.Duration`. -/
def second : Int := 1000000000

/-- First loop of `prepareStorage`: ping the engine until it answers, sleeping after each
failed ping. `pingFails n` tells whether the ping of pass `n` fails, `attempt` counts the
passes and `interval` is the loop variable. The result lists the durations slept, in order;
`none` when the fuel runs out before a ping is answered. -/
def waitForEngine (pingFails : Nat → Bool) :
    (fuel : Nat) → (attempt : Nat) → (interval : Int) → Option (List Int)
  | 0, _, _ => none
  | fuel + 1, attempt, interval =>
    let interval1 := if interval ≥ 60 then 60 else interval
    if pingFails attempt then
      match waitForEngine pingFails fuel (attempt + 1) (wrap64 (interval1 * 2)) with
      | some sleeps => some (wrap64 (interval1 * second) :: sleeps)
      | none => none
    else some []

/-- The wait the specification gives for pass `n`, in seconds: `min(5·2^n, 60)`. -/
def backoffSeconds (n : Nat) : Int :=
  min (5 * 2 ^ n) 60

/-! ### HTTP submit handler (`data/http.go`, `WriteableAPI.Submit`) -/

/-- Entry of a decoded message (`senml.Entry`); the three value fields are pointers. -/
structure Entry where
  Name : String
  Units : String
  Value : Option F64
  StringValue : Option String
  BooleanValue : Option Bool
  deriving DecidableEq, Repr

/-- What the handler does besides answering: decoding the body, asking the registry for an
id, and calling `storage.Submit` with the maps `data` and `sources`. -/
inductive HandlerOp where
  | decodeBody
  | registryGet (id : String)
  | storageSubmit (data : List (String × List Entry)) (sources : List (String × DataSource))
  deriving DecidableEq, Repr

/-- Collaborators of the handler: `splitIDs` is `strings.Split(_, common.IDSeparator)`,
`decode` the JSON decoder followed by `Expand().Entries` (`none`: the body does not decode),
`registryGet` the registry client (`none`: an error) and `storageSubmit` the storage. -/
structure HttpEnv where
  splitIDs : String → List String
  decode : String → Option (List Entry)
  registryGet : String → Option DataSource
  storageSubmit : List (String × List Entry) → List (String × DataSource) → GoError

/-- Answer of the handler: the status code written, and what it did on the way. -/
structure HttpResult where
  status : Nat
  ops : List HandlerOp
  deriving DecidableEq, Repr

/-- Expression `strings.Split(header, ";")[0]`: the part before the first semicolon. -/
def mediaType (header : String) : String :=
  String.mk (header.toList.takeWhile (fun ch => decide (ch ≠ ';')))

/-- First loop of the handler: every id is looked up in the registry and the streams are
kept by resource name; the loop stops at the first id the registry does not return. The
result is the list of lookups made, and the map when all lookups succeeded. -/
def sourcesByResource (registryGet : String → Option DataSource) (ids : List String)
    (dsResources : List (String × DataSource)) (ops : List HandlerOp) :
    List HandlerOp × Option (List (String × DataSource)) :=
  match ids with
  | [] => (ops, some dsResources)
  | id :: rest =>
    match registryGet id with
    | none => (ops ++ [HandlerOp.registryGet id], none)
    | some ds =>
      sourcesByResource registryGet rest (mapPut dsResources ds.Resource ds)
        (ops ++ [HandlerOp.registryGet id])

/-- The switch of the handler on the stream type: `true` when the entry carries a value of
another kind than the type of the stream. -/
def entryTypeError (ds : DataSource) (e : Entry) : Bool :=
  let hasString : Bool :=
    match e.StringValue with
    | some s => decide (s ≠ "")
    | none => false
  if ds.Type' = FLOAT then e.BooleanValue.isSome || hasString
  else if ds.Type' = STRING then e.Value.isSome || e.BooleanValue.isSome
  else if ds.Type' = BOOL then e.Value.isSome || hasString
  else false

/-- Second loop of the handler: the entries are checked and grouped by stream id. The loop
stops with the status code of the first entry refused: 400 without a name, 404 for a name
that is not a resource of the request, 400 for a value of the wrong kind. The data points
built by `FromEntry` are stood for by the entries themselves. -/
def fillData (dsResources : List (String × DataSource)) (entries : List Entry)
    (data : List (String × List Entry)) (sources : List (String × DataSource)) :
    Except Nat (List (String × List Entry) × List (String × DataSource)) :=
  match entries with
  | [] => Except.ok (data, sources)
  | e :: rest =>
    if e.Name = "" then Except.error 400
    else
      match mapGet dsResources e.Name with
      | none => Except.error 404
      | some ds =>
        if entryTypeError ds e then Except.error 400
        else
          match mapGet data ds.ID with
          | some points => fillData dsResources rest (mapPut data ds.ID (points ++ [e])) sources
          | none =>
            fillData dsResources rest (mapPut (mapPut data ds.ID []) ds.ID [e])
              (mapPut sources ds.ID ds)

/-- Handler `WriteableAPI.Submit` for a request with the given `Content-Type` header, `id`
path parameter and body. -/
def WriteableAPI.Submit (env : HttpEnv) (contentTypeHeader idParam body : String) :
    HttpResult :=
  let contentType := mediaType contentTypeHeader
  if contentType ≠ "application/senml+json" then { status := 415, ops := [] }
  else
    let ids := env.splitIDs idParam
    match env.decode body with
    | none => { status := 400, ops := [HandlerOp.decodeBody] }
    | some entries =>
      match sourcesByResource env.registryGet ids [] [HandlerOp.decodeBody] with
      | (ops, none) => { status := 404, ops := ops }
      | (ops, some dsResources) =>
        match fillData dsResources entries [] [] with
        | Except.error code => { status := code, ops := ops }
        | Except.ok (data, sources) =>
          match env.storageSubmit data sources with
          | some _ => { status := 500, ops := ops ++ [HandlerOp.storageSubmit data sources] }
          | none => { status := 202, ops := ops ++ [HandlerOp.storageSubmit data sources] }

/-- The handler op is a call of `storage.Submit`. -/
def HandlerOp.isSubmit (op : HandlerOp) : Bool :=
  match op with
  | HandlerOp.storageSubmit _ _ => true
  | _ => false

/-- The entry carries a non-empty string. -/
def Entry.hasString (e : Entry) : Prop :=
  ∃ s, e.StringValue = some s ∧ s ≠ ""

/-- The entry carries a value of another kind than the type of the stream: a number or a
boolean for a string stream, a number or a non-empty string for a bool stream, a boolean or
a non-empty string for a float stream. -/
def wrongKind (ds : DataSource) (e : Entry) : Prop :=
  (ds.Type' = STRING ∧ (e.Value ≠ none ∨ e.BooleanValue ≠ none)) ∨
  (ds.Type' = BOOL ∧ (e.Value ≠ none ∨ e.hasString)) ∨
  (ds.Type' = FLOAT ∧ (e.BooleanValue ≠ none ∨ e.hasString))

/-! ### A retention change on an engine that refuses one command -/

/-- The engine `retentionEngine` behind a connection that breaks once: the command number `k`
(counted from 0) is answered with a request error and leaves the store as it is, the other
commands are run. The state is the number of commands received so far and the store. -/
def refusingEngine (k : Nat) : Client (Nat × List Stored) :=
  { Query := fun stmt st =>
      if st.1 = k then (QueryReply.failed "connection refused", (st.1 + 1, st.2))
      else ((retentionEngineQuery stmt st.2).1, (st.1 + 1, (retentionEngineQuery stmt st.2).2)),
    Write := fun bp st =>
      ((retentionEngine.Write bp st.2).1, (st.1, (retentionEngine.Write bp st.2).2)) }

/-! ### Start of the connector and the retry task (`data/mqtt.go`) -/

/-- Modelled from the spec: constant `registry.MqttType`, the source type `mqtt`; package
`registry` is not part of the sources at hand beyond its list type. -/
def MqttType : String := "mqtt"

/-- Body of the inner loop of `Start` for one stream: a stream with an mqtt source is
registered, and a failure is recorded in `failedRegistrations`. The source pointer of a stream
of type mqtt is dereferenced unchecked. -/
def startStream (b : Broker) (c : MQTTConnector) (ds : DataStream) : Outcome MQTTConnector :=
  if ds.Source.SrcType = MqttType then
    match ds.Source.MQTTSource with
    | none => Outcome.panic "invalid memory address or nil pointer dereference"
    | some src =>
      match register b c src with
      | (c1, some _) =>
        Outcome.ret { c1 with failedRegistrations := mapPut c1.failedRegistrations ds.Name src }
      | (c1, none) => Outcome.ret c1
  else Outcome.ret c

/-- Inner loop of `Start` over the streams of one page. -/
def startStreams (b : Broker) (c : MQTTConnector) (dataStreams : List DataStream) :
    Outcome MQTTConnector :=
  match dataStreams with
  | [] => Outcome.ret c
  | ds :: rest =>
    match startStream b c ds with
    | Outcome.panic msg => Outcome.panic msg
    | Outcome.ret c1 => startStreams b c1 rest

/-- Method `MQTTConnector.Start`, from page `page` on. `getMany page perPage` stands for
`registry.GetMany`: the streams of the page and the total, or an error. The result is `none`
when the fuel runs out before the last page; the retry task it spawns is `retryRegistrations`
below. -/
def startPages (b : Broker) (getMany : Int → Int → Except String (List DataStream × Int)) :
    (fuel : Nat) → (page : Int) → MQTTConnector → Option (MQTTConnector × Outcome GoError)
  | 0, _, _ => none
  | fuel + 1, page, c =>
    match getMany page 100 with
    | Except.error e => some (c, Outcome.ret (some ("MQTT: Error getting data sources: " ++ e)))
    | Except.ok (dataStreams, total) =>
      match startStreams b c dataStreams with
      | Outcome.panic msg => some (c, Outcome.panic msg)
      | Outcome.ret c1 =>
        if page * 100 ≥ total then some (c1, Outcome.ret none)
        else startPages b getMany fuel (page + 1) c1

/-- Method `MQTTConnector.Start`. -/
def Start (b : Broker) (getMany : Int → Int → Except String (List DataStream × Int))
    (fuel : Nat) (c : MQTTConnector) : Option (MQTTConnector × Outcome GoError) :=
  startPages b getMany fuel 1 c

/-- One round of `retryRegistrations`: every failed registration is tried again, in the order
of the list, and removed when it succeeds. -/
def retryRegistrations (b : Broker) (c : MQTTConnector) : MQTTConnector :=
  c.failedRegistrations.foldl (fun c1 p =>
    match register b c1 p.2 with
    | (c2, some _) => c2
    | (c2, none) => { c2 with failedRegistrations := mapDelete c2.failedRegistrations p.1 }) c

/-- Every manager of the connector has a subscription and every subscription has a receiver. -/
def receiversPositive (c : MQTTConnector) : Bool :=
  c.managers.all (fun p => !p.2.subscriptions.isEmpty &&
    p.2.subscriptions.all (fun q => decide (1 ≤ q.2.receivers)))

/-- The log of sending the commands `stmts` to the engine one after the other, from the state
`eng`: each command with the answer the engine gives in the state the commands before it
left. -/
def replayCommands {σ : Type} (cl : Client σ) (stmts : List Stmt) (eng : σ) : List Call :=
  match stmts with
  | [] => []
  | s :: rest => Call.query s (cl.Query s eng).1 :: replayCommands cl rest (cl.Query s eng).2

/-- The receiver the subscription `(url, topic)` loses when the old source is unregistered:
one, when the old stream has an mqtt source with this broker URL and topic and a manager
exists for the broker; none otherwise. -/
def lostReceiver (c : MQTTConnector) (old : Option MQTTSource) (url topic : String) : Int :=
  match old with
  | some src =>
    if mapGet c.managers src.BrokerURL ≠ none ∧ src.BrokerURL = url ∧ src.Topic = topic then 1
    else 0
  | none => 0

/-- The receiver the subscription `(url, topic)` gains when the new source is registered:
one, when the new stream has an mqtt source with this broker URL and topic. -/
def gainedReceiver (new : Option MQTTSource) (url topic : String) : Int :=
  match new with
  | some src => if src.BrokerURL = url ∧ src.Topic = topic then 1 else 0
  | none => 0

/-- The source, if any, is at the place `(url, topic)`. -/
def sourceAt (src : Option MQTTSource) (url topic : String) : Prop :=
  ∃ s, src = some s ∧ s.BrokerURL = url ∧ s.Topic = topic

/-! ## Concrete inputs -/

/-- The record carries the value of the stream type `t` and none of the kinds `Submit` tests
before it. -/
def hasShape (t : String) (dp : Record) : Prop :=
  (t = FLOAT ∧ dp.Value ≠ none) ∨
  (t = STRING ∧ dp.Value = none ∧ dp.StringValue ≠ "") ∨
  (t = BOOL ∧ dp.Value = none ∧ dp.StringValue = "" ∧ dp.BoolValue ≠ none)

/-- An environment for examples: the decoder returns the error text as the message of the
engine, except for the text `connection refused`, which does not decode. -/
def exampleEnv : Env :=
  { ParseDuration := fun d =>
      if d = "1h" then Except.ok 3600000000000 else Except.error "invalid duration",
    Unmarshal := fun text =>
      if text = "connection refused" then Except.error "invalid character" else Except.ok text,
    NewPointError := fun _ => none,
    UnixTime := fun t => t.bits,
    ParseTime := fun _ => none,
    PerItemPagination := fun _ _ perPage n => (List.replicate n perPage, List.replicate n 0),
    nowParse := 1700000000000000000,
    nowCommand := 1700000000000000000,
    uuid := "u1" }

/-- A configuration for examples. -/
def exampleConfig : influxStorageConfig :=
  { dsn := "http://localhost:8086", database := "hds", username := "", password := "",
    replication := 1 }

/-- A record with a number. -/
def numberRecord (name : String) : Record :=
  { Name := name, Unit := "", Time := { bits := 5 }, Value := some { bits := 42 },
    StringValue := "", BoolValue := none }

/-- An engine without state that accepts every write, except those under the retention
policy `policy_1h`, which it answers with the message for dropped points. -/
def dropClient : Client Unit :=
  { Query := fun _ _ =>
      (QueryReply.response { Results := [{ Series := [], Err := "" }], Err := "" }, ()),
    Write := fun bp _ =>
      (if bp.retentionPolicy = "policy_1h" then some retentionDropMsg else none, ()) }

/-- An engine without state whose client fails every command and every write. -/
def failClient : Client Unit :=
  { Query := fun _ _ => (QueryReply.failed "connection refused", ()),
    Write := fun _ _ => (some "connection refused", ()) }

/-- An engine without state that answers every command with one series holding the count 2,
and accepts every write. -/
def twoRowsClient : Client Unit :=
  { Query := fun _ _ =>
      (QueryReply.response
        { Results := [{ Series := [{ Name := "data_a", Tags := [], Columns := ["time", "count"],
                                      Values := [[Cell.str "1970-01-01T00:00:00Z",
                                        Cell.num { text := "2", int64 := some 2,
                                                   float64 := none }]] }],
                        Err := "" }],
          Err := "" }, ()),
    Write := fun _ _ => (none, ()) }

/-- An engine without state that answers a count with the count 2, a selection with one
series of two rows with the columns `name` and `value`, and every other command without
rows; it accepts every write. -/
def recordsClient : Client Unit :=
  { Query := fun stmt _ =>
      match stmt with
      | Stmt.countWhere _ _ _ =>
        (QueryReply.response
          { Results := [{ Series := [{ Name := "data_a", Tags := [],
                                        Columns := ["time", "count"],
                                        Values := [[Cell.str "1970-01-01T00:00:00Z",
                                          Cell.num { text := "2", int64 := some 2,
                                                     float64 := none }]] }],
                          Err := "" }],
            Err := "" }, ())
      | Stmt.select _ _ _ _ _ =>
        (QueryReply.response
          { Results := [{ Series := [{ Name := "data_a", Tags := [],
                                        Columns := ["name", "value"],
                                        Values := [[Cell.str "a",
                                          Cell.num { text := "42", int64 := some 42,
                                                     float64 := some { bits := 42 } }],
                                         [Cell.str "a",
                                          Cell.num { text := "43", int64 := some 43,
                                                     float64 := some { bits := 43 } }]] }],
                          Err := "" }],
            Err := "" }, ())
      | _ => (QueryReply.response { Results := [{ Series := [], Err := "" }], Err := "" }, ()),
    Write := fun _ _ => (none, ()) }

/-- The example environment with a pagination that gives every stream the limit 0 and the
offset 0, as for a page past the end. -/
def zeroPageEnv : Env :=
  { exampleEnv with
    PerItemPagination := fun _ _ _ n => (List.replicate n 0, List.replicate n 0) }

/-- A stream of type float with the id `a` and the default retention. -/
def floatSource : DataSource :=
  { ID := "a", Resource := "a", Type' := FLOAT, Retention := "" }

/-- A parser of instants for examples: it knows one text and refuses every other one, the
empty text included. -/
def exampleTimeParse (text : String) : Option Int :=
  if text = "2023-11-14T22:13:20Z" then some 1700000000000000000 else none

/-- A parser of integers for examples: it knows the texts `0`, `1` and `5`. -/
def exampleAtoi (text : String) : Option Int :=
  if text = "0" then some 0
  else if text = "1" then some 1
  else if text = "5" then some 5
  else none

/-- A query from one second before the epoch to the instant 1700000000 s. -/
def epochQuery : Query :=
  { Start := -1000000000, End := 1700000000000000000, Sort' := "", Limit := -1 }

/-- An encoder of floats for examples: the number reads back as the float it was made of. -/
def exampleEnc (v : F64) : JsonNumber :=
  { text := toString v.bits, int64 := none, float64 := some v }

/-- A broker that accepts every call. -/
def acceptingBroker : Broker :=
  { connect := fun _ => none, subscribe := fun _ _ => none, unsubscribe := fun _ _ => none }

/-- A stream fed from topic `t` of broker `tcp://b:1883`. -/
def mqttStream (name : String) : DataStream :=
  { Name := name, Type' := FLOAT, Retention := "",
    Source := { SrcType := "mqtt",
                MQTTSource := some { BrokerURL := "tcp://b:1883", Topic := "t", QoS := 1,
                                     Username := "", Password := "" } } }

/-- The stream `s4` of `mqttStream`, moved to the topic `t2` of the same broker. -/
def movedStream : DataStream :=
  { Name := "s4", Type' := FLOAT, Retention := "",
    Source := { SrcType := "mqtt",
                MQTTSource := some { BrokerURL := "tcp://b:1883", Topic := "t2", QoS := 1,
                                     Username := "", Password := "" } } }

/-- The stream `s4` without a source. -/
def unsourcedStream : DataStream :=
  { Name := "s4", Type' := FLOAT, Retention := "", Source := { SrcType := "", MQTTSource := none } }

/-- A connector without managers in which the registration of the stream `s4` has failed. -/
def failedConnector : MQTTConnector :=
  { clientID := "hds", managers := [], cache := [],
    failedRegistrations := [("s4", { BrokerURL := "tcp://b:1883", Topic := "t", QoS := 1,
                                     Username := "", Password := "" })],
    clientLog := [] }

/-- A parser for examples. It knows three DSNs of one host: without a path, with the path of
the database `hds`, and with a path that is a single slash. -/
def exampleUrlParse (DSN : String) : Except String URL :=
  if DSN = "http://localhost:8086" then
    Except.ok { Scheme := "http", Host := "localhost:8086", Path := "", User := none }
  else if DSN = "http://localhost:8086/hds" then
    Except.ok { Scheme := "http", Host := "localhost:8086", Path := "/hds", User := none }
  else if DSN = "http://localhost:8086/" then
    Except.ok { Scheme := "http", Host := "localhost:8086", Path := "/", User := none }
  else Except.error "parse error"

/-- Collaborators for examples: one id, registered as the float stream `floatSource`; the
body decodes to one entry for that stream which carries a boolean. -/
def exampleHttpEnv : HttpEnv :=
  { splitIDs := fun _ => ["a"],
    decode := fun _ => some [Entry.mk "a" "" none none (some true)],
    registryGet := fun _ => some floatSource,
    storageSubmit := fun _ _ => none }

/-- The source of the streams of `mqttStream`: topic `t` of broker `tcp://b:1883`. -/
def sourceT : MQTTSource :=
  { BrokerURL := "tcp://b:1883", Topic := "t", QoS := 1, Username := "", Password := "" }

/-- The source of `t2Stream`: topic `t2` of the same broker. -/
def sourceT2 : MQTTSource :=
  { BrokerURL := "tcp://b:1883", Topic := "t2", QoS := 1, Username := "", Password := "" }

/-- A stream `s5` fed from topic `t2` of broker `tcp://b:1883`. -/
def t2Stream : DataStream :=
  { Name := "s5", Type' := FLOAT, Retention := "",
    Source := { SrcType := "mqtt", MQTTSource := some sourceT2 } }

/-- A broker that cannot be reached. -/
def downBroker : Broker :=
  { connect := fun _ => some "network unreachable", subscribe := fun _ _ => none,
    unsubscribe := fun _ _ => none }

/-- A broker that refuses the subscription to topic `t2`. -/
def refusingT2Broker : Broker :=
  { connect := fun _ => none,
    subscribe := fun _ topic => if topic = "t2" then some "not authorized" else none,
    unsubscribe := fun _ _ => none }

/-- A broker whose unsubscribe calls fail. -/
def stuckBroker : Broker :=
  { connect := fun _ => none, subscribe := fun _ _ => none,
    unsubscribe := fun _ _ => some "timeout" }

/-- A registry with the single stream `s6`, fed from topic `t`. -/
def s6Registry (_page _perPage : Int) : Except String (List DataStream × Int) :=
  Except.ok ([mqttStream "s6"], 1)

/-- A registry with the streams `s4`, fed from topic `t`, and `s5`, fed from topic `t2`. -/
def s4s5Registry (_page _perPage : Int) : Except String (List DataStream × Int) :=
  Except.ok ([mqttStream "s4", t2Stream], 2)

/-- The connector after `Start` on `s6Registry` with the broker down: no manager, and the
registration of `s6` noted as failed. -/
def afterFailedStart : MQTTConnector :=
  { clientID := "hds", managers := [], cache := [],
    failedRegistrations := [("s6", sourceT)],
    clientLog := [ClientOp.connect "tcp://b:1883" "HDS-hds" "" ""] }

/-- The connector after `Start` on `s4s5Registry` with `refusingT2Broker`: a manager with the
subscription to `t`, and the registration of `s5` noted as failed. -/
def afterPartialStart : MQTTConnector :=
  { clientID := "hds",
    managers :=
      [("tcp://b:1883", Manager.mk "tcp://b:1883" [("t", Subscription.mk "tcp://b:1883" "t" 1 1)])],
    cache := [],
    failedRegistrations := [("s5", sourceT2)],
    clientLog := [ClientOp.connect "tcp://b:1883" "HDS-hds" "" "",
      ClientOp.subscribe "tcp://b:1883" "t" 1, ClientOp.subscribe "tcp://b:1883" "t2" 1] }

/-- A decoder for examples: every payload holds one record, a number for the stream `s4`. -/
def s4Decode (_payload : String) : Option (List Record) :=
  some [numberRecord "s4"]

/-- The connector after the stream `s4` of `mqttStream` was created and one message for it
arrived on its topic `t`: the cache holds the snapshot of `s4` taken from the registry. -/
def warmConnector : MQTTConnector :=
  (onMessage s4Decode (fun _ => GetResult.found (mqttStream "s4")) (fun _ _ => none)
    (CreateHandler acceptingBroker (NewMQTTConnector "hds") (mqttStream "s4")).1
    "tcp://b:1883" "t" "").connector

/-- The stream `s4` of `movedStream` with the retention `1h`. -/
def movedRetainedStream : DataStream :=
  { movedStream with Retention := "1h" }

/-! ## Theorems -/

/-- C1: from a connector without managers and a broker that accepts every call, creating two
streams on the same (brokerURL, topic) leaves one manager with one subscription of that topic
and receivers = 2; deleting the first keeps that subscription with receivers = 1 and makes no
broker call; deleting the second unsubscribes, disconnects and leaves no manager. -/
theorem C1_shared_subscription_lifecycle (b : Broker) (c : MQTTConnector)
    (ds1 ds2 : DataStream) (s1 s2 : MQTTSource)
    (hconn : ∀ u, b.connect u = none)
    (hunsub : ∀ u t, b.unsubscribe u t = none)
    (hc : c.managers = [])
    (h1 : ds1.Source.MQTTSource = some s1) (h2 : ds2.Source.MQTTSource = some s2)
    (hurl : s2.BrokerURL = s1.BrokerURL) (htopic : s2.Topic = s1.Topic) :
    let r1 := CreateHandler b c ds1
    let r2 := CreateHandler b r1.1 ds2
    let r3 := DeleteHandler b r2.1 ds1
    let r4 := DeleteHandler b r3.1 ds2
    r1.2 = none ∧ r2.2 = none ∧ r3.2 = Outcome.ret none ∧ r4.2 = Outcome.ret none ∧
    r2.1.managers =
      [(s1.BrokerURL, { url := s1.BrokerURL, subscriptions :=
          [(s1.Topic, { url := s1.BrokerURL, topic := s1.Topic, qos := s1.QoS,
                        receivers := 2 })] })] ∧
    r3.1.managers =
      [(s1.BrokerURL, { url := s1.BrokerURL, subscriptions :=
          [(s1.Topic, { url := s1.BrokerURL, topic := s1.Topic, qos := s1.QoS,
                        receivers := 1 })] })] ∧
    r3.1.clientLog = r2.1.clientLog ∧
    r4.1.managers = [] ∧
    r4.1.clientLog = r3.1.clientLog ++
      [ClientOp.unsubscribe s1.BrokerURL s1.Topic, ClientOp.disconnect s1.BrokerURL 250] := by
  simp [CreateHandler, DeleteHandler, register, unregister, disconnectIfEmpty, flushCache,
    mapGet, mapPut, mapDelete, h1, h2, hurl, htopic, hconn, hunsub, hc]

/-- Witness of C1: two streams on topic `t` of one broker. -/
theorem C1_shared_subscription_lifecycle_witness :
    (DeleteHandler acceptingBroker
      (DeleteHandler acceptingBroker
        (CreateHandler acceptingBroker
          (CreateHandler acceptingBroker (NewMQTTConnector "hds") (mqttStream "s4")).1
          (mqttStream "s5")).1
        (mqttStream "s4")).1
      (mqttStream "s5")).1.managers = [] :=
  (C1_shared_subscription_lifecycle acceptingBroker (NewMQTTConnector "hds")
    (mqttStream "s4") (mqttStream "s5") _ _ (fun _ => rfl) (fun _ _ => rfl) rfl rfl rfl rfl
    rfl).2.2.2.2.2.2.2.1

/-! ### Lemmas on maps -/

theorem mapGet_mapPut {V : Type} (m : List (String × V)) (k k1 : String) (v : V) :
    mapGet (mapPut m k v) k1 = if k = k1 then some v else mapGet m k1 := by
  induction m with
  | nil => simp [mapPut, mapGet]
  | cons p rest ih =>
    obtain ⟨k2, v2⟩ := p
    by_cases h : k2 = k
    · subst h
      by_cases h1 : k2 = k1 <;> simp [mapPut, mapGet, h1]
    · by_cases h1 : k2 = k1
      · subst h1
        have h2 : ¬ k = k2 := fun e => h e.symm
        simp [mapPut, mapGet, h, h2]
      · simp [mapPut, mapGet, h, h1, ih]

theorem mem_flatten_mapPut {V : Type} (m : List (String × List V)) (k : String) (v : List V)
    (x : V) (hx : x ∈ ((mapPut m k v).map (fun p => p.2)).flatten) :
    x ∈ v ∨ x ∈ (m.map (fun p => p.2)).flatten := by
  induction m with
  | nil => simpa [mapPut] using hx
  | cons p rest ih =>
    obtain ⟨k2, v2⟩ := p
    by_cases h : k2 = k
    · simp only [mapPut, h, if_true, List.map_cons, List.flatten_cons, List.mem_append] at hx ⊢
      rcases hx with hx | hx
      · exact Or.inl hx
      · exact Or.inr (Or.inr hx)
    · simp only [mapPut, h, if_false, List.map_cons, List.flatten_cons, List.mem_append] at hx ⊢
      rcases hx with hx | hx
      · exact Or.inr (Or.inl hx)
      · rcases ih hx with h1 | h1
        · exact Or.inl h1
        · exact Or.inr (Or.inr h1)

theorem mem_of_mapGet {V : Type} (m : List (String × List V)) (k : String) (v : List V)
    (x : V) (hk : mapGet m k = some v) (hx : x ∈ v) :
    x ∈ (m.map (fun p => p.2)).flatten := by
  induction m with
  | nil => simp [mapGet] at hk
  | cons p rest ih =>
    obtain ⟨k2, v2⟩ := p
    by_cases h : k2 = k
    · simp only [mapGet, h, if_true, Option.some.injEq] at hk
      subst hk
      simp [hx]
    · simp only [mapGet, h, if_false] at hk
      simp only [List.map_cons, List.flatten_cons, List.mem_append]
      exact Or.inr (ih hk)

/-! ### The message handler keeps only wanted records -/

theorem collectRecord_cache (st : MessageState) (ds : DataStream) (r : Record) :
    (collectRecord st ds r).cache = st.cache := by
  unfold collectRecord
  cases mapGet st.data ds.Name <;> rfl

theorem checkRecord_cache (url topic : String) (st : MessageState) (ds : DataStream)
    (r : Record) : (checkRecord url topic st ds r).cache = st.cache := by
  unfold checkRecord
  cases ds.Source.MQTTSource with
  | none => rfl
  | some m =>
    simp only []
    split
    · rfl
    · split
      · rfl
      · split
        · rfl
        · exact collectRecord_cache st ds r

/-- Filling the cache from the registry does not change which stream a name resolves to. -/
theorem resolveStream_onMessageRecord (url topic : String) (registryGet : String → GetResult)
    (st : MessageState) (r : Record) (name : String) :
    resolveStream (onMessageRecord url topic registryGet st r).cache registryGet name
      = resolveStream st.cache registryGet name := by
  unfold onMessageRecord
  cases hc : mapGet st.cache r.Name with
  | some ds => simp only [checkRecord_cache]
  | none =>
    cases hg : registryGet r.Name with
    | notFound => rfl
    | failed => rfl
    | found ds =>
      simp only [checkRecord_cache]
      unfold resolveStream
      rw [mapGet_mapPut]
      by_cases hn : r.Name = name
      · subst hn
        simp [hc, hg]
      · simp [hn]

/-- The records collected after appending `r` to the entry of `k` are `r` and the records
collected before. -/
theorem mem_collect_append (data : List (String × List Record)) (k : String) (r x : Record)
    (hx : x ∈ ((mapPut data k (((mapGet data k).getD []) ++ [r])).map (fun p => p.2)).flatten) :
    x = r ∨ x ∈ (data.map (fun p => p.2)).flatten := by
  rcases mem_flatten_mapPut _ _ _ _ hx with h | h
  · rcases List.mem_append.1 h with h1 | h1
    · cases hk : mapGet data k with
      | none => simp [hk] at h1
      | some v =>
        rw [hk] at h1
        exact Or.inr (mem_of_mapGet data k v x hk h1)
    · exact Or.inl (by simpa using h1)
  · exact Or.inr h

/-- Collecting `r` adds `r` and nothing else. -/
theorem collectRecord_mem (st : MessageState) (ds : DataStream) (r x : Record)
    (hx : x ∈ ((collectRecord st ds r).data.map (fun p => p.2)).flatten) :
    x = r ∨ x ∈ (st.data.map (fun p => p.2)).flatten := by
  unfold collectRecord at hx
  cases hk : mapGet st.data ds.Name with
  | some v =>
    simp only [hk] at hx
    exact mem_collect_append st.data ds.Name r x (by simpa [hk] using hx)
  | none =>
    simp only [hk] at hx
    rcases mem_collect_append _ ds.Name r x hx with h | h
    · exact Or.inl h
    · rcases mem_flatten_mapPut _ _ _ _ h with h1 | h1
      · simp at h1
      · exact Or.inr h1

/-- Checking a record adds nothing, or adds it for a stream whose source is the subscription. -/
theorem checkRecord_mem (url topic : String) (st : MessageState) (ds : DataStream)
    (r x : Record)
    (hx : x ∈ ((checkRecord url topic st ds r).data.map (fun p => p.2)).flatten) :
    x ∈ (st.data.map (fun p => p.2)).flatten ∨ (x = r ∧ sourceMatches url topic ds) := by
  unfold checkRecord at hx
  cases hm : ds.Source.MQTTSource with
  | none => simp only [hm] at hx; exact Or.inl hx
  | some m =>
    simp only [hm] at hx
    split at hx
    · exact Or.inl hx
    · split at hx
      · exact Or.inl hx
      · split at hx
        · exact Or.inl hx
        · rename_i hu ht _
          rcases collectRecord_mem st ds r x hx with h | h
          · exact Or.inr ⟨h, m, hm, not_not.1 hu, not_not.1 ht⟩
          · exact Or.inl h

/-- What a loop step does to the collected records: nothing is added, or the record `r` is
added and `r` resolves to a stream whose mqtt source is the subscription. -/
theorem onMessageRecord_data (url topic : String) (registryGet : String → GetResult)
    (st : MessageState) (r x : Record)
    (hx : x ∈ ((onMessageRecord url topic registryGet st r).data.map (fun p => p.2)).flatten) :
    x ∈ (st.data.map (fun p => p.2)).flatten ∨
    (x = r ∧ ∃ ds, resolveStream st.cache registryGet r.Name = some ds ∧
      sourceMatches url topic ds) := by
  unfold onMessageRecord at hx
  cases hc : mapGet st.cache r.Name with
  | some ds =>
    simp only [hc] at hx
    rcases checkRecord_mem url topic st ds r x hx with h | ⟨h, hw⟩
    · exact Or.inl h
    · exact Or.inr ⟨h, ds, by simp [resolveStream, hc], hw⟩
  | none =>
    simp only [hc] at hx
    cases hg : registryGet r.Name with
    | notFound => simp only [hg] at hx; exact Or.inl hx
    | failed => simp only [hg] at hx; exact Or.inl hx
    | found ds =>
      simp only [hg] at hx
      rcases checkRecord_mem url topic _ ds r x hx with h | ⟨h, hw⟩
      · exact Or.inl h
      · exact Or.inr ⟨h, ds, by simp [resolveStream, hc, hg], hw⟩

/-- Invariant of the loop of `onMessage`, from any starting state. -/
theorem foldl_onMessageRecord_wanted (url topic : String) (registryGet : String → GetResult)
    (cache0 : List (String × DataStream)) (records : List Record) (st : MessageState)
    (hcache : ∀ name, resolveStream st.cache registryGet name
      = resolveStream cache0 registryGet name)
    (hinv : ∀ x ∈ (st.data.map (fun p => p.2)).flatten,
      ∃ ds, resolveStream cache0 registryGet x.Name = some ds ∧ sourceMatches url topic ds) :
    ∀ x ∈ (((records.foldl (onMessageRecord url topic registryGet) st).data).map
        (fun p => p.2)).flatten,
      ∃ ds, resolveStream cache0 registryGet x.Name = some ds ∧ sourceMatches url topic ds := by
  induction records generalizing st with
  | nil => simpa using hinv
  | cons r rest ih =>
    simp only [List.foldl_cons]
    apply ih
    · intro name
      rw [resolveStream_onMessageRecord, hcache]
    · intro x hx
      rcases onMessageRecord_data url topic registryGet st r x hx with h | ⟨h, ds, hds, hw⟩
      · exact hinv x h
      · subst h
        exact ⟨ds, by rw [← hcache]; exact hds, hw⟩

/-- C2: every record that `onMessage` hands to `Submit` resolves (cache first, then registry)
to a stream whose mqtt source has the broker URL and the topic of the subscription; a record
whose stream has no mqtt source, another broker URL or another topic is not handed over. -/
theorem C2_only_wanted_records_submitted (decode : String → Option (List Record))
    (registryGet : String → GetResult)
    (storageSubmit : List (String × List Record) → List (String × DataStream) → GoError)
    (c : MQTTConnector) (url topic payload : String) :
    (∀ r ∈ submittedRecords (onMessage decode registryGet storageSubmit c url topic payload),
      ∃ ds, resolveStream c.cache registryGet r.Name = some ds ∧ sourceMatches url topic ds) ∧
    (∀ r ds, resolveStream c.cache registryGet r.Name = some ds → ¬ sourceMatches url topic ds →
      r ∉ submittedRecords (onMessage decode registryGet storageSubmit c url topic payload)) := by
  have main : ∀ r ∈ submittedRecords
      (onMessage decode registryGet storageSubmit c url topic payload),
      ∃ ds, resolveStream c.cache registryGet r.Name = some ds ∧ sourceMatches url topic ds := by
    intro r hr
    unfold onMessage at hr
    cases hd : decode payload with
    | none => simp [hd, submittedRecords] at hr
    | some records =>
      have inv := foldl_onMessageRecord_wanted url topic registryGet c.cache records
        { cache := c.cache, data := [], sources := [], log := [] } (fun _ => rfl) (by simp)
      simp only [hd] at hr
      split at hr
      · split at hr <;> exact inv r (by simpa [submittedRecords] using hr)
      · simp [submittedRecords] at hr
  refine ⟨main, ?_⟩
  intro r ds hds hnot hr
  obtain ⟨ds1, h1, h2⟩ := main r hr
  rw [hds] at h1
  cases h1
  exact hnot h2

/-! ### Submit -/

/-- The points built for a stream are the points of its records, one per record, in order. -/
theorem buildPoints_ok (env : Env) (id : String) (dps : List Record) (pts : List Point)
    (h : buildPoints env id dps = Except.ok pts) :
    pts = dps.map (pointOf env id) := by
  induction dps generalizing pts with
  | nil =>
    simp only [buildPoints, Except.ok.injEq] at h
    simp [← h]
  | cons dp rest ih =>
    unfold buildPoints at h
    split at h
    · cases h
    · split at h
      · cases h
      · rename_i pts1 hrest
        simp only [Except.ok.injEq] at h
        rw [← h, ih pts1 hrest]
        rfl

/-- Every write `Submit` issues is the batch of one entry of `data`: the points of its
records, under the retention policy of its stream. -/
theorem Submit_write_mem {σ : Type} (cl : Client σ) (env : Env) (config : influxStorageConfig)
    (data : List (String × List Record)) (sources : List (String × DataSource)) (eng : σ)
    (bp : BatchPoints) (err : GoError)
    (h : Call.write bp err ∈ (Submit cl env config data sources eng).calls) :
    ∃ id dps src, (id, dps) ∈ data ∧ mapGet sources id = some src ∧
      bp.points = dps.map (pointOf env id) ∧
      bp.retentionPolicy = RetentionPolicyName src.Retention := by
  induction data generalizing eng with
  | nil => simp [Submit] at h
  | cons p rest ih =>
    obtain ⟨id, dps⟩ := p
    unfold Submit at h
    cases hs : mapGet sources id with
    | none => simp [hs] at h
    | some src =>
      simp only [hs] at h
      cases hb : buildPoints env id dps with
      | error e => simp [hb] at h
      | ok pts =>
        have hpts := buildPoints_ok env id dps pts hb
        simp only [hb] at h
        split at h
        · simp only [List.mem_cons, Call.write.injEq] at h
          rcases h with ⟨h1, _⟩ | h
          · exact ⟨id, dps, src, List.mem_cons_self _ _, hs, by rw [h1]; exact hpts,
              by rw [h1]⟩
          · obtain ⟨id1, dps1, src1, hm, hrest⟩ := ih _ h
            exact ⟨id1, dps1, src1, List.mem_cons_of_mem _ hm, hrest⟩
        · simp only [List.mem_singleton, Call.write.injEq] at h
          exact ⟨id, dps, src, List.mem_cons_self _ _, hs, by rw [h.1]; exact hpts,
            by rw [h.1]⟩

/-- The field `Submit` writes for a record that has the shape of the stream type is the one
`FieldForType` names. -/
theorem fieldsOf_hasShape (t : String) (dp : Record) (h : hasShape t dp) :
    (fieldsOf dp).map Prod.fst = [FieldForType t] := by
  rcases h with ⟨ht, hv⟩ | ⟨ht, hv, hs⟩ | ⟨ht, hv, hs, hb⟩
  · subst ht
    cases hval : dp.Value with
    | none => exact absurd hval hv
    | some v => simp [fieldsOf, hval, mapPut, FieldForType]
  · subst ht
    simp [fieldsOf, hv, hs, mapPut, FieldForType, STRING, FLOAT]
  · subst ht
    cases hbv : dp.BoolValue with
    | none => exact absurd hbv hb
    | some v => simp [fieldsOf, hv, hs, hbv, mapPut, FieldForType, STRING, FLOAT, BOOL]

/-- C3 fails as stated: a record with a number, submitted for a stream of type bool, is
written with the field `value`, while the field of the type is `booleanValue`. -/
theorem C3_counterexample_field_from_record :
    ∃ bp pt,
      Call.write bp none ∈
        (Submit dropClient exampleEnv exampleConfig [("a", [numberRecord "a"])]
          [("a", { ID := "a", Resource := "a", Type' := BOOL, Retention := "" })] ()).calls ∧
      pt ∈ bp.points ∧ pt.fields.map Prod.fst = ["value"] ∧
      FieldForType BOOL = "booleanValue" ∧ pt.fields.map Prod.fst ≠ [FieldForType BOOL] :=
  ⟨{ database := "hds", precision := "us", retentionPolicy := "autogen",
     points := [{ name := "data_a", tags := [("name", "a")],
                  fields := [("value", FieldValue.float { bits := 42 })], time := 5 }] },
   { name := "data_a", tags := [("name", "a")],
     fields := [("value", FieldValue.float { bits := 42 })], time := 5 },
   by decide, by decide, by decide, by decide, by decide⟩

/-- C3, amended: every point `Submit` writes is the point of a record of the batch, its
fields are chosen by the values present in the record, and they are the single field named by
`FieldForType` of the stream type when the record has the shape of that type. -/
theorem C3_field_of_written_point {σ : Type} (cl : Client σ) (env : Env)
    (config : influxStorageConfig) (data : List (String × List Record))
    (sources : List (String × DataSource)) (eng : σ) (bp : BatchPoints) (err : GoError)
    (pt : Point)
    (hcall : Call.write bp err ∈ (Submit cl env config data sources eng).calls)
    (hpt : pt ∈ bp.points) :
    ∃ id dps dp src, (id, dps) ∈ data ∧ dp ∈ dps ∧ mapGet sources id = some src ∧
      pt.fields = fieldsOf dp ∧
      (hasShape src.Type' dp → pt.fields.map Prod.fst = [FieldForType src.Type']) := by
  obtain ⟨id, dps, src, hmem, hsrc, hpoints, _⟩ :=
    Submit_write_mem cl env config data sources eng bp err hcall
  rw [hpoints, List.mem_map] at hpt
  obtain ⟨dp, hdp, rfl⟩ := hpt
  exact ⟨id, dps, dp, src, hmem, hdp, hsrc, rfl, fun hsh => fieldsOf_hasShape _ dp hsh⟩


/-- Witness of C3: the record with a number, in a stream of type float. -/
theorem C3_field_of_written_point_witness :
    ∃ id dps dp src, (id, dps) ∈ [("a", [numberRecord "a"])] ∧ dp ∈ dps ∧
      mapGet [("a", ({ ID := "a", Resource := "a", Type' := FLOAT, Retention := "" }
        : DataSource))] id = some src ∧
      (pointOf exampleEnv "a" (numberRecord "a")).fields = fieldsOf dp ∧
      (hasShape src.Type' dp →
        (pointOf exampleEnv "a" (numberRecord "a")).fields.map Prod.fst
          = [FieldForType src.Type']) :=
  C3_field_of_written_point dropClient exampleEnv exampleConfig [("a", [numberRecord "a"])]
    [("a", { ID := "a", Resource := "a", Type' := FLOAT, Retention := "" })] ()
    { database := "hds", precision := "us", retentionPolicy := "autogen",
      points := [pointOf exampleEnv "a" (numberRecord "a")] } none
    (pointOf exampleEnv "a" (numberRecord "a")) (by decide) (by decide)

/-- C4 at the failing input: a batch for the streams `a` (retention `1h`) and `b`, where the
engine answers the write for `a` with the dropped-points message. `Submit` returns nil after
that one write; no write is issued for `b`. -/
theorem C4_submit_stops_after_dropped_points :
    (Submit dropClient exampleEnv exampleConfig
      [("a", [numberRecord "a"]), ("b", [numberRecord "b"])]
      [("a", { ID := "a", Resource := "a", Type' := FLOAT, Retention := "1h" }),
       ("b", { ID := "b", Resource := "b", Type' := FLOAT, Retention := "" })] ()).val
      = Outcome.ret none ∧
    (Submit dropClient exampleEnv exampleConfig
      [("a", [numberRecord "a"]), ("b", [numberRecord "b"])]
      [("a", { ID := "a", Resource := "a", Type' := FLOAT, Retention := "1h" }),
       ("b", { ID := "b", Resource := "b", Type' := FLOAT, Retention := "" })] ()).calls
      = [Call.write
          { database := "hds", precision := "us", retentionPolicy := "policy_1h",
            points := [{ name := "data_a", tags := [("name", "a")],
                         fields := [("value", FieldValue.float { bits := 42 })],
                         time := 5 }] }
          (some "partial write: points beyond retention policy dropped")] := by
  constructor <;> decide

/-- C5: when a write of `Submit` is answered with the error text `e`, `Submit` returns nil
exactly when `e` decodes as an engine response whose message contains the dropped-points
message, and returns an error in every other case. -/
theorem C5_write_error_result {σ : Type} (cl : Client σ) (env : Env)
    (config : influxStorageConfig) (data : List (String × List Record))
    (sources : List (String × DataSource)) (eng : σ) (bp : BatchPoints) (e : String)
    (h : Call.write bp (some e) ∈ (Submit cl env config data sources eng).calls) :
    ((Submit cl env config data sources eng).val = Outcome.ret none ↔
      ∃ msg, env.Unmarshal e = Except.ok msg ∧ stringsContains msg retentionDropMsg = true) ∧
    ((¬ ∃ msg, env.Unmarshal e = Except.ok msg ∧ stringsContains msg retentionDropMsg = true) →
      ∃ m, (Submit cl env config data sources eng).val = Outcome.ret (some m)) := by
  induction data generalizing eng with
  | nil => simp [Submit] at h
  | cons p rest ih =>
    obtain ⟨id, dps⟩ := p
    unfold Submit at h ⊢
    cases hs : mapGet sources id with
    | none => simp [hs] at h
    | some src =>
      simp only [hs] at h ⊢
      cases hb : buildPoints env id dps with
      | error e1 => simp [hb] at h
      | ok pts =>
        simp only [hb] at h ⊢
        split at h
        · rename_i hw
          simp only [List.mem_cons, Call.write.injEq, reduceCtorEq, and_false, false_or] at h
          simp only [hw]
          exact ih _ h
        · rename_i err hw
          simp only [List.mem_singleton, Call.write.injEq, Option.some.injEq] at h
          obtain ⟨_, he⟩ := h
          subst he
          simp only [hw, Outcome.ret.injEq]
          unfold writeError
          cases hu : env.Unmarshal e with
          | error me => simp
          | ok msg =>
            by_cases hc : stringsContains msg retentionDropMsg = true <;> simp [hc]

/-- Witness of C5: the write for stream `a` that the engine answers with the dropped-points
message. -/
theorem C5_write_error_result_witness :
    (Submit dropClient exampleEnv exampleConfig [("a", [numberRecord "a"])]
      [("a", { ID := "a", Resource := "a", Type' := FLOAT, Retention := "1h" })] ()).val
      = Outcome.ret none ↔
    ∃ msg, exampleEnv.Unmarshal retentionDropMsg = Except.ok msg ∧
      stringsContains msg retentionDropMsg = true :=
  (C5_write_error_result dropClient exampleEnv exampleConfig [("a", [numberRecord "a"])]
    [("a", { ID := "a", Resource := "a", Type' := FLOAT, Retention := "1h" })] ()
    { database := "hds", precision := "us", retentionPolicy := "policy_1h",
      points := [pointOf exampleEnv "a" (numberRecord "a")] } retentionDropMsg
    (by decide)).1

/-! ### Retention change: which steps run, and when it fails -/

/-- Steps 2 to 4: the result is an error exactly when a step failed; only the last call
issued can be a failed step; the commands issued are the first ones of delete, restore, drop;
there is no panic. -/
theorem moveStaged_spec {σ : Type} (cl : Client σ) (env : Env) (config : influxStorageConfig)
    (measurement newRP : String) (eng : σ) :
    (returnsError (moveStaged cl env config measurement newRP eng).val ↔
      ∃ c ∈ (moveStaged cl env config measurement newRP eng).calls, stepFails c) ∧
    (∀ c ∈ (moveStaged cl env config measurement newRP eng).calls.dropLast, ¬ stepFails c) ∧
    ((moveStaged cl env config measurement newRP eng).calls.map Call.stmt <+:
      [some (Stmt.deleteFrom measurement),
       some (Stmt.selectInto (measurementFQ config newRP measurement)
          (measurementNameTempFQ config env.uuid)),
       some (Stmt.dropMeasurement (measurementNameTemp env.uuid))]) ∧
    (moveStaged cl env config measurement newRP eng).calls ≠ [] ∧
    ((moveStaged cl env config measurement newRP eng).val = Outcome.ret none ∨
      returnsError (moveStaged cl env config measurement newRP eng).val) := by
  unfold moveStaged QuerySprintf
  simp only []
  cases h2 : (replyResult (cl.Query (Stmt.deleteFrom measurement) eng).1).2 with
  | some e2 =>
    simp [returnsError, stepFails, h2, Call.stmt, List.prefix_cons_inj]
  | none =>
    simp only []
    cases h3 : (replyResult (cl.Query (Stmt.selectInto (measurementFQ config newRP measurement)
        (measurementNameTempFQ config env.uuid))
        (cl.Query (Stmt.deleteFrom measurement) eng).2).1).2 with
    | some e3 =>
      simp [returnsError, stepFails, h2, h3, Call.stmt, List.prefix_cons_inj]
    | none =>
      simp only []
      cases h4 : (replyResult (cl.Query (Stmt.dropMeasurement (measurementNameTemp env.uuid))
          (cl.Query (Stmt.selectInto (measurementFQ config newRP measurement)
            (measurementNameTempFQ config env.uuid))
            (cl.Query (Stmt.deleteFrom measurement) eng).2).2).1).2 with
      | none =>
        simp [returnsError, stepFails, h2, h3, h4, Call.stmt]
      | some e4 =>
        by_cases hc : stringsContains e4 "measurement not found" = true
        · simp [returnsError, stepFails, h2, h3, h4, hc, Call.stmt]
        · simp [returnsError, stepFails, h2, h3, h4, hc, Call.stmt]

theorem dropLast_cons_cons {α : Type} (a b : α) (l : List α) (h : l ≠ []) :
    (a :: b :: l).dropLast = a :: b :: l.dropLast := by
  cases l with
  | nil => exact absurd rfl h
  | cons x xs => rfl

theorem CountSprintf_val {σ : Type} (cl : Client σ) (stmt : Stmt) (eng : σ) :
    (CountSprintf cl stmt eng).val = countOfReply (cl.Query stmt eng).1 := by
  unfold CountSprintf QuerySprintf countOfReply
  rfl

theorem CountSprintf_calls {σ : Type} (cl : Client σ) (stmt : Stmt) (eng : σ) :
    (CountSprintf cl stmt eng).calls = [Call.query stmt (cl.Query stmt eng).1] := rfl

theorem CountSprintf_engine {σ : Type} (cl : Client σ) (stmt : Stmt) (eng : σ) :
    (CountSprintf cl stmt eng).engine = (cl.Query stmt eng).2 := rfl

/-- The retention change: the result is an error exactly when a step failed or the parsing
of the new retention was reached and failed; only the last call issued can be a failed step;
the commands issued are the first ones of the five commands of the change. -/
theorem ChangeRetentionPolicy_spec {σ : Type} (cl : Client σ) (env : Env)
    (config : influxStorageConfig) (measurement countField oldRP newRP : String) (eng : σ) :
    (returnsError
        (ChangeRetentionPolicy cl env config measurement countField oldRP newRP eng).val ↔
      (∃ c ∈ (ChangeRetentionPolicy cl env config measurement countField oldRP newRP eng).calls,
        stepFails c) ∨
      parseFails env newRP
        (ChangeRetentionPolicy cl env config measurement countField oldRP newRP eng).calls) ∧
    (∀ c ∈ (ChangeRetentionPolicy cl env config measurement countField oldRP newRP
        eng).calls.dropLast, ¬ stepFails c) ∧
    ((ChangeRetentionPolicy cl env config measurement countField oldRP newRP eng).calls.map
        Call.stmt <+:
      (migrationStmts env config measurement countField oldRP newRP).map some) := by
  unfold ChangeRetentionPolicy
  simp only [CountSprintf_val, CountSprintf_calls, CountSprintf_engine]
  cases h0 : countOfReply (cl.Query (Stmt.countGroupByAll countField
      (measurementFQ config oldRP measurement)) eng).1 with
  | panic msg =>
    simp [returnsError, stepFails, parseFails, h0, Call.stmt, migrationStmts,
      List.prefix_cons_inj]
  | ret v =>
    obtain ⟨count, err⟩ := v
    cases err with
    | some e =>
      simp [returnsError, stepFails, parseFails, h0, Call.stmt, migrationStmts,
        List.prefix_cons_inj]
    | none =>
      simp only []
      by_cases hz : count = 0
      · simp [returnsError, stepFails, parseFails, h0, hz, Call.stmt, migrationStmts,
          List.prefix_cons_inj]
      · simp only [hz, if_false]
        cases hp : ParseDuration env newRP with
        | error e =>
          refine ⟨?_, ?_, ?_⟩
          · simp only [returnsError, Outcome.ret.injEq, Option.some.injEq, exists_eq', true_iff]
            exact Or.inr ⟨_, _, count, e, rfl, h0, hz, hp⟩
          · simp
          · simp [Call.stmt, migrationStmts, List.prefix_cons_inj]
        | ok parsed =>
          simp only [QuerySprintf]
          cases h1 : (replyResult (cl.Query (Stmt.selectIntoAfter
              (measurementNameTempFQ config env.uuid) (measurementFQ config oldRP measurement)
              (rfc3339 (stagingCutoff env.nowCommand parsed)))
              (cl.Query (Stmt.countGroupByAll countField
                (measurementFQ config oldRP measurement)) eng).2).1).2 with
          | some e1 =>
            simp [returnsError, stepFails, parseFails, h0, hz, hp, h1, Call.stmt,
              migrationStmts, List.prefix_cons_inj]
          | none =>
            simp only []
            obtain ⟨hm1, hm2, hm3, hm4, _⟩ := moveStaged_spec cl env config measurement newRP
              (cl.Query (Stmt.selectIntoAfter
                (measurementNameTempFQ config env.uuid) (measurementFQ config oldRP measurement)
                (rfc3339 (stagingCutoff env.nowCommand parsed)))
                (cl.Query (Stmt.countGroupByAll countField
                  (measurementFQ config oldRP measurement)) eng).2).2
            refine ⟨?_, ?_, ?_⟩
            · rw [hm1]
              simp [stepFails, parseFails, h0, h1]
            · intro c hc
              simp only [List.cons_append, List.nil_append, List.append_assoc] at hc
              rw [dropLast_cons_cons _ _ _ hm4] at hc
              simp only [List.mem_cons] at hc
              rcases hc with hc | hc | hc
              · subst hc
                simp [stepFails, h0]
              · subst hc
                simp [stepFails, h1]
              · exact hm2 c hc
            · simp only [List.cons_append, List.nil_append, List.map_cons, Call.stmt,
                migrationStmts, hp, List.prefix_cons_inj]
              simpa using hm3

/-- Steps 2 to 4 are sent to the engine: the log is the engine's answers to the commands in
it, in order, and when no logged step failed all three commands were sent and the result is
nil. -/
theorem moveStaged_progress {σ : Type} (cl : Client σ) (env : Env)
    (config : influxStorageConfig) (measurement newRP : String) (eng : σ) :
    (moveStaged cl env config measurement newRP eng).calls =
      replayCommands cl
        ((moveStaged cl env config measurement newRP eng).calls.filterMap Call.stmt) eng ∧
    ((∀ c ∈ (moveStaged cl env config measurement newRP eng).calls, ¬ stepFails c) →
      (moveStaged cl env config measurement newRP eng).calls.map Call.stmt =
        [some (Stmt.deleteFrom measurement),
         some (Stmt.selectInto (measurementFQ config newRP measurement)
            (measurementNameTempFQ config env.uuid)),
         some (Stmt.dropMeasurement (measurementNameTemp env.uuid))] ∧
      (moveStaged cl env config measurement newRP eng).val = Outcome.ret none) := by
  unfold moveStaged QuerySprintf
  simp only []
  cases h2 : (replyResult (cl.Query (Stmt.deleteFrom measurement) eng).1).2 with
  | some e2 =>
    simp [stepFails, h2, Call.stmt, replayCommands]
  | none =>
    simp only []
    cases h3 : (replyResult (cl.Query (Stmt.selectInto (measurementFQ config newRP measurement)
        (measurementNameTempFQ config env.uuid))
        (cl.Query (Stmt.deleteFrom measurement) eng).2).1).2 with
    | some e3 =>
      simp [stepFails, h2, h3, Call.stmt, replayCommands]
    | none =>
      simp only []
      cases h4 : (replyResult (cl.Query (Stmt.dropMeasurement (measurementNameTemp env.uuid))
          (cl.Query (Stmt.selectInto (measurementFQ config newRP measurement)
            (measurementNameTempFQ config env.uuid))
            (cl.Query (Stmt.deleteFrom measurement) eng).2).2).1).2 with
      | none =>
        simp [stepFails, h2, h3, h4, Call.stmt, replayCommands]
      | some e4 =>
        by_cases hc : stringsContains e4 "measurement not found" = true
        · simp [stepFails, h2, h3, h4, hc, Call.stmt, replayCommands]
        · simp [stepFails, h2, h3, h4, hc, Call.stmt, replayCommands]

/-- The retention change is sent to the engine: the log is the engine's answers to the
commands in it, in order; it starts with the count command; and when the count is not zero,
the new retention parses and no logged step failed, all five commands were sent and the
result is nil. -/
theorem ChangeRetentionPolicy_progress {σ : Type} (cl : Client σ) (env : Env)
    (config : influxStorageConfig) (measurement countField oldRP newRP : String) (eng : σ) :
    (ChangeRetentionPolicy cl env config measurement countField oldRP newRP eng).calls =
      replayCommands cl
        ((ChangeRetentionPolicy cl env config measurement countField oldRP newRP
          eng).calls.filterMap Call.stmt) eng ∧
    (ChangeRetentionPolicy cl env config measurement countField oldRP newRP eng).calls.head? =
      some (Call.query (Stmt.countGroupByAll countField (measurementFQ config oldRP measurement))
        (cl.Query (Stmt.countGroupByAll countField
          (measurementFQ config oldRP measurement)) eng).1) ∧
    (∀ count parsed,
      countOfReply (cl.Query (Stmt.countGroupByAll countField
        (measurementFQ config oldRP measurement)) eng).1 = Outcome.ret (count, none) →
      count ≠ 0 → ParseDuration env newRP = Except.ok parsed →
      (∀ c ∈ (ChangeRetentionPolicy cl env config measurement countField oldRP newRP
        eng).calls, ¬ stepFails c) →
      (ChangeRetentionPolicy cl env config measurement countField oldRP newRP eng).calls.map
          Call.stmt = (migrationStmts env config measurement countField oldRP newRP).map some ∧
      (ChangeRetentionPolicy cl env config measurement countField oldRP newRP eng).val
        = Outcome.ret none) := by
  unfold ChangeRetentionPolicy
  simp only [CountSprintf_val, CountSprintf_calls, CountSprintf_engine]
  cases h0 : countOfReply (cl.Query (Stmt.countGroupByAll countField
      (measurementFQ config oldRP measurement)) eng).1 with
  | panic msg => simp [Call.stmt, replayCommands]
  | ret v =>
    obtain ⟨count, err⟩ := v
    cases err with
    | some e => simp [Call.stmt, replayCommands]
    | none =>
      simp only []
      by_cases hz : count = 0
      · refine ⟨by simp [hz, Call.stmt, replayCommands], by simp [hz], ?_⟩
        intro count1 parsed1 hc1 hne
        simp only [Outcome.ret.injEq, Prod.mk.injEq, and_true] at hc1
        exact absurd (hc1.symm.trans hz) hne
      · simp only [hz, if_false]
        cases hp : ParseDuration env newRP with
        | error e => simp [Call.stmt, replayCommands]
        | ok parsed =>
          simp only [QuerySprintf]
          cases h1 : (replyResult (cl.Query (Stmt.selectIntoAfter
              (measurementNameTempFQ config env.uuid) (measurementFQ config oldRP measurement)
              (rfc3339 (stagingCutoff env.nowCommand parsed)))
              (cl.Query (Stmt.countGroupByAll countField
                (measurementFQ config oldRP measurement)) eng).2).1).2 with
          | some e1 =>
            simp [stepFails, h1, Call.stmt, replayCommands]
          | none =>
            simp only []
            obtain ⟨hm1, hm2⟩ := moveStaged_progress cl env config measurement newRP
              (cl.Query (Stmt.selectIntoAfter
                (measurementNameTempFQ config env.uuid) (measurementFQ config oldRP measurement)
                (rfc3339 (stagingCutoff env.nowCommand parsed)))
                (cl.Query (Stmt.countGroupByAll countField
                  (measurementFQ config oldRP measurement)) eng).2).2
            refine ⟨?_, by simp, ?_⟩
            · simp only [List.cons_append, List.nil_append, List.filterMap_cons, Call.stmt,
                replayCommands, List.cons.injEq, true_and]
              exact hm1
            · intro count1 parsed1 hc1 _ hp1 hno
              simp only [Except.ok.injEq] at hp1
              subst hp1
              have hno2 := hm2 (fun c hc => hno c (by simp [hc]))
              refine ⟨?_, hno2.2⟩
              simp only [List.cons_append, List.nil_append, List.map_cons, Call.stmt,
                migrationStmts, hp, hno2.1]
              rfl

/-- C8: `NtfUpdated` with equal retentions acknowledges nil and sends no command. With
different retentions it runs `ChangeRetentionPolicy`: the count command is sent first, the
log holds the engine's answers to the commands sent, in order, and these commands are the
first ones of the five commands of the change; it acknowledges an error exactly when the
change returns one, which is exactly when a step failed (count, staging SELECT INTO, DELETE,
restoring SELECT INTO, or DROP with an error other than a missing measurement) or the parsing
of the new retention was reached and failed; a failed step is the last command sent; and
when the count is not zero, the retention parses and no step failed, all five commands were
sent and nil is acknowledged. -/
theorem C8_update_fails_iff_step_fails {σ : Type} (cl : Client σ) (env : Env)
    (config : influxStorageConfig) (oldDS newDS : DataSource) (eng : σ) :
    (oldDS.Retention = newDS.Retention →
      (NtfUpdated cl env config oldDS newDS eng).val = Outcome.ret none ∧
      (NtfUpdated cl env config oldDS newDS eng).calls = []) ∧
    (oldDS.Retention ≠ newDS.Retention →
      (NtfUpdated cl env config oldDS newDS eng).calls =
        (ChangeRetentionPolicy cl env config (MeasurementName oldDS.ID)
          (FieldForType oldDS.Type') oldDS.Retention newDS.Retention eng).calls ∧
      (returnsError (NtfUpdated cl env config oldDS newDS eng).val ↔
        returnsError (ChangeRetentionPolicy cl env config (MeasurementName oldDS.ID)
          (FieldForType oldDS.Type') oldDS.Retention newDS.Retention eng).val) ∧
      (returnsError (NtfUpdated cl env config oldDS newDS eng).val ↔
        (∃ c ∈ (NtfUpdated cl env config oldDS newDS eng).calls, stepFails c) ∨
        parseFails env newDS.Retention (NtfUpdated cl env config oldDS newDS eng).calls) ∧
      (∀ c ∈ (NtfUpdated cl env config oldDS newDS eng).calls.dropLast, ¬ stepFails c) ∧
      ((NtfUpdated cl env config oldDS newDS eng).calls.map Call.stmt <+:
        (migrationStmts env config (MeasurementName oldDS.ID) (FieldForType oldDS.Type')
          oldDS.Retention newDS.Retention).map some) ∧
      (NtfUpdated cl env config oldDS newDS eng).calls =
        replayCommands cl
          ((NtfUpdated cl env config oldDS newDS eng).calls.filterMap Call.stmt) eng ∧
      (NtfUpdated cl env config oldDS newDS eng).calls.head? =
        some (Call.query
          (Stmt.countGroupByAll (FieldForType oldDS.Type')
            (measurementFQ config oldDS.Retention (MeasurementName oldDS.ID)))
          (cl.Query (Stmt.countGroupByAll (FieldForType oldDS.Type')
            (measurementFQ config oldDS.Retention (MeasurementName oldDS.ID))) eng).1) ∧
      (∀ count parsed,
        countOfReply (cl.Query (Stmt.countGroupByAll (FieldForType oldDS.Type')
          (measurementFQ config oldDS.Retention (MeasurementName oldDS.ID))) eng).1
          = Outcome.ret (count, none) →
        count ≠ 0 → ParseDuration env newDS.Retention = Except.ok parsed →
        (∀ c ∈ (NtfUpdated cl env config oldDS newDS eng).calls, ¬ stepFails c) →
        (NtfUpdated cl env config oldDS newDS eng).calls.map Call.stmt =
          (migrationStmts env config (MeasurementName oldDS.ID) (FieldForType oldDS.Type')
            oldDS.Retention newDS.Retention).map some ∧
        (NtfUpdated cl env config oldDS newDS eng).val = Outcome.ret none)) := by
  constructor
  · intro h
    simp [NtfUpdated, h]
  · intro h
    obtain ⟨h1, h2, h3⟩ := ChangeRetentionPolicy_spec cl env config (MeasurementName oldDS.ID)
      (FieldForType oldDS.Type') oldDS.Retention newDS.Retention eng
    obtain ⟨p1, p2, p3⟩ := ChangeRetentionPolicy_progress cl env config
      (MeasurementName oldDS.ID) (FieldForType oldDS.Type') oldDS.Retention newDS.Retention eng
    have hcalls : (NtfUpdated cl env config oldDS newDS eng).calls =
        (ChangeRetentionPolicy cl env config (MeasurementName oldDS.ID)
          (FieldForType oldDS.Type') oldDS.Retention newDS.Retention eng).calls := by
      unfold NtfUpdated
      simp only [h, ne_eq, not_false_eq_true, if_true]
      split <;> rfl
    have hval : returnsError (NtfUpdated cl env config oldDS newDS eng).val ↔
        returnsError (ChangeRetentionPolicy cl env config (MeasurementName oldDS.ID)
          (FieldForType oldDS.Type') oldDS.Retention newDS.Retention eng).val := by
      unfold NtfUpdated
      simp only [h, ne_eq, not_false_eq_true, if_true]
      split
      · rename_i err hr
        simp [returnsError, hr]
      · rfl
    have hnil : (ChangeRetentionPolicy cl env config (MeasurementName oldDS.ID)
          (FieldForType oldDS.Type') oldDS.Retention newDS.Retention eng).val
          = Outcome.ret none →
        (NtfUpdated cl env config oldDS newDS eng).val = Outcome.ret none := by
      intro hv
      unfold NtfUpdated
      simp only [h, ne_eq, not_false_eq_true, if_true, hv]
    refine ⟨hcalls, hval, ?_, ?_, ?_, ?_, ?_, ?_⟩
    · rw [hval, hcalls]; exact h1
    · rw [hcalls]; exact h2
    · rw [hcalls]; exact h3
    · rw [hcalls]; exact p1
    · rw [hcalls]; exact p2
    · intro count parsed hc hz hp hno
      rw [hcalls] at hno ⊢
      obtain ⟨q1, q2⟩ := p3 count parsed hc hz hp hno
      exact ⟨q1, hnil q2⟩

/-- Witness of C8: against an engine that fails every command, the update from retention
`1h` to `2h` is acknowledged with an error, the count command having failed; on the engine
holding the example store, the update of stream `a` to the retention `1h` sends all five
commands. -/
theorem C8_update_fails_iff_step_fails_witness :
    returnsError (NtfUpdated failClient exampleEnv exampleConfig
        { ID := "a", Resource := "a", Type' := FLOAT, Retention := "1h" }
        { ID := "a", Resource := "a", Type' := FLOAT, Retention := "2h" } ()).val ∧
    (NtfUpdated retentionEngine exampleEnv exampleConfig
        { ID := "a", Resource := "a", Type' := FLOAT, Retention := "" }
        { ID := "a", Resource := "a", Type' := FLOAT, Retention := "1h" }
        exampleStore).calls.map Call.stmt =
      (migrationStmts exampleEnv exampleConfig "data_a" "value" "" "1h").map some :=
  ⟨((C8_update_fails_iff_step_fails failClient exampleEnv exampleConfig
      { ID := "a", Resource := "a", Type' := FLOAT, Retention := "1h" }
      { ID := "a", Resource := "a", Type' := FLOAT, Retention := "2h" } ()).2
      (by decide)).2.2.1.2
      (Or.inl ⟨Call.query (Stmt.countGroupByAll "value"
          (measurementFQ exampleConfig "1h" "data_a")) (QueryReply.failed "connection refused"),
        by decide, 0, "Request error: connection refused", rfl⟩),
   (((C8_update_fails_iff_step_fails retentionEngine exampleEnv exampleConfig
      { ID := "a", Resource := "a", Type' := FLOAT, Retention := "" }
      { ID := "a", Resource := "a", Type' := FLOAT, Retention := "1h" } exampleStore).2
      (by decide)).2.2.2.2.2.2.2 2 3600000000000 (by decide) (by decide) rfl
      (fun c hc hf => absurd
        (((C8_update_fails_iff_step_fails retentionEngine exampleEnv exampleConfig
          { ID := "a", Resource := "a", Type' := FLOAT, Retention := "" }
          { ID := "a", Resource := "a", Type' := FLOAT, Retention := "1h" } exampleStore).2
          (by decide)).2.2.1.2 (Or.inl ⟨c, hc, hf⟩))
        (by
          rintro ⟨e, he⟩
          rw [show (NtfUpdated retentionEngine exampleEnv exampleConfig
            { ID := "a", Resource := "a", Type' := FLOAT, Retention := "" }
            { ID := "a", Resource := "a", Type' := FLOAT, Retention := "1h" }
            exampleStore).val = Outcome.ret none from by decide] at he
          cases he))).1⟩

/-- C9: when the count command gives the count zero, `ChangeRetentionPolicy` returns nil and
the count command is the only call it makes, whatever the new retention is. -/
theorem C9_zero_count_skips {σ : Type} (cl : Client σ) (env : Env)
    (config : influxStorageConfig) (measurement countField oldRP newRP : String) (eng : σ)
    (h : countOfReply (cl.Query (Stmt.countGroupByAll countField
      (measurementFQ config oldRP measurement)) eng).1 = Outcome.ret (0, none)) :
    (ChangeRetentionPolicy cl env config measurement countField oldRP newRP eng).val
      = Outcome.ret none ∧
    (ChangeRetentionPolicy cl env config measurement countField oldRP newRP eng).calls
      = [Call.query (Stmt.countGroupByAll countField (measurementFQ config oldRP measurement))
          (cl.Query (Stmt.countGroupByAll countField
            (measurementFQ config oldRP measurement)) eng).1] ∧
    (ChangeRetentionPolicy cl env config measurement countField oldRP newRP eng).engine
      = (cl.Query (Stmt.countGroupByAll countField
          (measurementFQ config oldRP measurement)) eng).2 := by
  unfold ChangeRetentionPolicy
  simp only [CountSprintf_val, CountSprintf_calls, CountSprintf_engine, h, if_true, and_self]

/-- Witness of C9: an engine that returns no series for the count, and a new retention that
does not parse. -/
theorem C9_zero_count_skips_witness :
    ParseDuration exampleEnv "soon" = Except.error "invalid duration" ∧
    (ChangeRetentionPolicy dropClient exampleEnv exampleConfig "data_a" "value" "1h" "soon"
      ()).val = Outcome.ret none ∧
    (ChangeRetentionPolicy dropClient exampleEnv exampleConfig "data_a" "value" "1h" "soon"
      ()).calls
      = [Call.query (Stmt.countGroupByAll "value" (measurementFQ exampleConfig "1h" "data_a"))
          (dropClient.Query (Stmt.countGroupByAll "value"
            (measurementFQ exampleConfig "1h" "data_a")) ()).1] :=
  ⟨rfl,
   (C9_zero_count_skips dropClient exampleEnv exampleConfig "data_a" "value" "1h" "soon" ()
      (by decide)).1,
   (C9_zero_count_skips dropClient exampleEnv exampleConfig "data_a" "value" "1h" "soon" ()
      (by decide)).2.1⟩

/-- The cutoff of the staging command for a duration from which a minute can be taken
without leaving `int64` (every positive duration is one): no wrap-around occurs. -/
theorem stagingCutoff_eq (now parsed : Int) (hmin : -9223371976854775808 < parsed)
    (hmax : parsed ≤ 9223372036854775807) :
    stagingCutoff now parsed = now - parsed + minute := by
  simp only [stagingCutoff, wrap64, minute]
  omega

/-- C7: when the count is not zero and the new retention parses as a duration from which a
minute can be taken within `int64` (every positive duration is one), the second command of
`ChangeRetentionPolicy` is the staging command and the instant formatted into it is
`now - parse(newRetention) + 1 minute`. For the empty retention the parsed duration
is the time since the epoch, so that the instant is the epoch plus one minute when both
readings of the clock are the same. -/
theorem C7_staging_cutoff {σ : Type} (cl : Client σ) (env : Env)
    (config : influxStorageConfig) (measurement countField oldRP newRP : String) (eng : σ)
    (count parsed : Int)
    (hcount : countOfReply (cl.Query (Stmt.countGroupByAll countField
      (measurementFQ config oldRP measurement)) eng).1 = Outcome.ret (count, none))
    (hne : count ≠ 0)
    (hparse : ParseDuration env newRP = Except.ok parsed)
    (hmin : -9223371976854775808 < parsed) (hmax : parsed ≤ 9223372036854775807) :
    (∃ reply,
      (ChangeRetentionPolicy cl env config measurement countField oldRP newRP eng).calls[1]?
        = some (Call.query
            (Stmt.selectIntoAfter (measurementNameTempFQ config env.uuid)
              (measurementFQ config oldRP measurement)
              (rfc3339 (env.nowCommand - parsed + minute))) reply)) ∧
    (newRP = "" → env.nowParse ≤ 9223372036854775807 →
      parsed = env.nowParse - 0 ∧
      (env.nowCommand = env.nowParse → env.nowCommand - parsed + minute = 0 + minute)) := by
  constructor
  · unfold ChangeRetentionPolicy
    simp only [CountSprintf_val, CountSprintf_calls, CountSprintf_engine, hcount, hne, if_false,
      hparse, stagingCutoff_eq _ _ hmin hmax]
    refine ⟨(cl.Query (Stmt.selectIntoAfter (measurementNameTempFQ config env.uuid)
      (measurementFQ config oldRP measurement) (rfc3339 (env.nowCommand - parsed + minute)))
      (cl.Query (Stmt.countGroupByAll countField
        (measurementFQ config oldRP measurement)) eng).2).1, ?_⟩
    split <;> simp [QuerySprintf]
  · intro hrp hnow
    subst hrp
    have hp : parsed = env.nowParse - 0 := by
      simp only [ParseDuration, if_true, Except.ok.injEq, timeSub] at hparse
      omega
    exact ⟨hp, fun h => by omega⟩

/-- Witness of C7: two rows counted, from retention `2h` to retention `1h`, which parses as
3600 seconds. -/
theorem C7_staging_cutoff_witness :
    ∃ reply,
      (ChangeRetentionPolicy twoRowsClient exampleEnv exampleConfig "data_a" "value" "2h" "1h"
        ()).calls[1]?
        = some (Call.query
            (Stmt.selectIntoAfter (measurementNameTempFQ exampleConfig exampleEnv.uuid)
              (measurementFQ exampleConfig "2h" "data_a")
              (rfc3339 (exampleEnv.nowCommand - 3600000000000 + minute))) reply) :=
  (C7_staging_cutoff twoRowsClient exampleEnv exampleConfig "data_a" "value" "2h" "1h" ()
    2 3600000000000 (by decide) (by decide) rfl (by decide) (by decide)).1

/-! ### Query: time validation -/

/-- C10 fails as stated: a query with its start one nanosecond before the epoch and its end
half a second after the epoch (before epoch + 1 second) passes the time validation; `Query`
goes on to the engine and returns no error. -/
theorem C10_counterexample_end_within_first_second :
    (({ Start := -1, End := 500000000, Sort' := "", Limit := -1 } : Query).Start < 0 ∧
     ({ Start := -1, End := 500000000, Sort' := "", Limit := -1 } : Query).End < 1000000000) ∧
    clampStart { Start := -1, End := 500000000, Sort' := "", Limit := -1 }
      = Except.ok { Start := 0, End := 500000000, Sort' := "", Limit := -1 } ∧
    (InfluxStorage.Query dropClient exampleEnv exampleConfig
      { Start := -1, End := 500000000, Sort' := "", Limit := -1 } 1 10
      [{ ID := "a", Resource := "a", Type' := FLOAT, Retention := "" }] ()).val
      = Outcome.ret ([], 0, none) ∧
    (InfluxStorage.Query dropClient exampleEnv exampleConfig
      { Start := -1, End := 500000000, Sort' := "", Limit := -1 } 1 10
      [{ ID := "a", Resource := "a", Type' := FLOAT, Retention := "" }] ()).calls.length = 1 :=
  ⟨by decide, rfl, by decide, by decide⟩

/-- C10, amended: the time validation of `Query` fails exactly when the start is before the
epoch and the end is before epoch + 1 nanosecond (not after the epoch); `Query` then returns
an error, no records and the total 0, and makes no call on the engine. -/
theorem C10_time_validation {σ : Type} (cl : Client σ) (env : Env)
    (config : influxStorageConfig) (q : Query) (page perPage : Int)
    (sources : List DataSource) (eng : σ) :
    ((∃ err, clampStart q = Except.error err) ↔ (q.Start < 0 ∧ q.End < 1)) ∧
    ((q.Start < 0 ∧ q.End < 1) →
      (InfluxStorage.Query cl env config q page perPage sources eng).val
        = Outcome.ret ([], 0,
            some (ParamEnd ++ " argument must be greater than 1970-01-01T00:00:00Z")) ∧
      (InfluxStorage.Query cl env config q page perPage sources eng).calls = [] ∧
      (InfluxStorage.Query cl env config q page perPage sources eng).engine = eng) := by
  constructor
  · unfold clampStart
    by_cases h1 : q.Start < 0
    · by_cases h2 : q.End < 1 <;> simp [h1, h2]
    · simp [h1]
  · intro h
    unfold InfluxStorage.Query clampStart
    simp [h.1, h.2]

/-- Witness of C10: a query that ends at the epoch is refused without a call on the engine. -/
theorem C10_time_validation_witness :
    (InfluxStorage.Query dropClient exampleEnv exampleConfig
      { Start := -1, End := 0, Sort' := "", Limit := -1 } 1 10
      [{ ID := "a", Resource := "a", Type' := FLOAT, Retention := "" }] ()).calls = [] :=
  ((C10_time_validation dropClient exampleEnv exampleConfig
    { Start := -1, End := 0, Sort' := "", Limit := -1 } 1 10
    [{ ID := "a", Resource := "a", Type' := FLOAT, Retention := "" }] ()).2
    (by decide)).2.1

/-! ### Retention change on the engine -/

theorem countOfResults_countSeries (rows : List Stored) (h : rows ≠ []) :
    ∃ k : Nat, k ≠ 0 ∧
      countOfResults [{ Series := countSeries rows, Err := "" }] = Outcome.ret ((k : Int), none) := by
  unfold countSeries
  cases hd : (rows.map (fun s => s.point.tags)).dedup with
  | nil =>
    rw [List.dedup_eq_nil] at hd
    simp at hd
    exact absurd hd h
  | cons t ts =>
    refine ⟨(rows.filter (fun s => decide (s.point.tags = t))).length, ?_, ?_⟩
    · have ht : t ∈ (rows.map (fun s => s.point.tags)).dedup := by rw [hd]; simp
      rw [List.mem_dedup, List.mem_map] at ht
      obtain ⟨x, hx, hxt⟩ := ht
      have : x ∈ rows.filter (fun s => decide (s.point.tags = t)) := by
        simp [List.mem_filter, hx, hxt]
      intro h0
      rw [List.length_eq_zero] at h0
      rw [h0] at this
      simp at this
    · simp [countOfResults, countNumber]

theorem replyResult_emptyReply :
    replyResult emptyReply = ([{ Series := [], Err := "" }], none) := by
  decide

theorem stringsContains_not_found (name : String) :
    stringsContains ("Statement error: " ++ ("measurement not found: " ++ name))
      "measurement not found" = true := by
  unfold stringsContains
  rw [decide_eq_true_iff]
  refine ⟨"Statement error: ".toList, (": " ++ name).toList, ?_⟩
  have : "measurement not found: " = "measurement not found" ++ ": " := by decide
  rw [this]
  simp [String.toList, String.data_append]

theorem replyResult_not_found (name : String) :
    replyResult (QueryReply.response
      { Results := [{ Series := [], Err := "measurement not found: " ++ name }], Err := "" })
      = ([], some ("Statement error: " ++ ("measurement not found: " ++ name))) := by
  have hne : "measurement not found: " ++ name ≠ "" := by
    intro h
    have := congrArg String.length h
    simp [String.length_append] at this
    have h2 : "measurement not found: ".length = 23 := by decide
    omega
  simp [replyResult, Response.Error, hne]

theorem countOfReply_retentionEngine (field : String) (src : FQName) (store : List Stored) :
    countOfReply (retentionEngine.Query (Stmt.countGroupByAll field src) store).1 =
      countOfResults [Result.mk
        (countSeries (store.filter (fun s => inTarget src s && hasField field s))) ""] := by
  simp [retentionEngine, retentionEngineQuery, countOfReply, replyResult, Response.Error]

/-- Steps 2 to 4 on the engine. -/
theorem moveStaged_retentionEngine (env : Env) (config : influxStorageConfig)
    (measurement newRP : String) (s1 : List Stored) :
    (moveStaged retentionEngine env config measurement newRP s1).val = Outcome.ret none ∧
    (moveStaged retentionEngine env config measurement newRP s1).engine =
      (let s2 := s1.filter (fun s => decide (s.point.name ≠ measurement))
       let s3 := s2 ++ (s2.filter (fun s =>
          inTarget (measurementNameTempFQ config env.uuid) s)).map
            (retarget (measurementFQ config newRP measurement))
       if s3.any (fun s => decide (s.point.name = measurementNameTemp env.uuid)) then
         s3.filter (fun s => decide (s.point.name ≠ measurementNameTemp env.uuid))
       else s3) := by
  unfold moveStaged QuerySprintf
  simp only [retentionEngine, retentionEngineQuery, replyResult_emptyReply]
  by_cases hany : (List.filter (fun s => decide (s.point.name ≠ measurement)) s1 ++
      List.map (retarget (measurementFQ config newRP measurement))
        (List.filter (fun s => inTarget (measurementNameTempFQ config env.uuid) s)
          (List.filter (fun s => decide (s.point.name ≠ measurement)) s1))).any
      (fun s => decide (s.point.name = measurementNameTemp env.uuid)) = true
  · simp only [hany, if_true, replyResult_emptyReply, and_self]
  · simp only [hany, if_false, replyResult_not_found, stringsContains_not_found, if_true,
      and_self, Bool.false_eq_true]

/-- On the engine, a retention change that counts a point and parses the new retention
returns nil and leaves the store `migratedStore`. -/
theorem ChangeRetentionPolicy_retentionEngine (env : Env) (config : influxStorageConfig)
    (measurement countField oldRP newRP : String) (store : List Stored) (parsed : Int)
    (hcount : ∃ s ∈ store, s.retentionPolicy = RetentionPolicyName oldRP ∧
      s.point.name = measurement ∧ hasField countField s = true)
    (hparse : ParseDuration env newRP = Except.ok parsed) :
    (ChangeRetentionPolicy retentionEngine env config measurement countField oldRP newRP
      store).val = Outcome.ret none ∧
    (ChangeRetentionPolicy retentionEngine env config measurement countField oldRP newRP
      store).engine =
      migratedStore (measurementFQ config oldRP measurement)
        (measurementNameTempFQ config env.uuid) (measurementFQ config newRP measurement)
        (rfc3339 (stagingCutoff env.nowCommand parsed)) store := by
  obtain ⟨s0, hs0, hrp, hname, hfield⟩ := hcount
  have hne : store.filter (fun s => inTarget (measurementFQ config oldRP measurement) s &&
      hasField countField s) ≠ [] := by
    intro h
    have : s0 ∈ store.filter (fun s => inTarget (measurementFQ config oldRP measurement) s &&
        hasField countField s) := by
      simp [List.mem_filter, hs0, inTarget, measurementFQ, hrp, hname, hfield]
    rw [h] at this
    simp at this
  obtain ⟨k, hk0, hk⟩ := countOfResults_countSeries _ hne
  have hkz : ¬ ((k : Int) = 0) := by omega
  unfold ChangeRetentionPolicy
  simp only [CountSprintf_val, CountSprintf_calls, CountSprintf_engine,
    countOfReply_retentionEngine, hk, hkz, if_false, hparse]
  have hstage : (QuerySprintf retentionEngine
      (Stmt.selectIntoAfter (measurementNameTempFQ config env.uuid)
        (measurementFQ config oldRP measurement)
        (rfc3339 (stagingCutoff env.nowCommand parsed)))
      (retentionEngine.Query (Stmt.countGroupByAll countField
        (measurementFQ config oldRP measurement)) store).2).val.2 = none := by
    simp [QuerySprintf, retentionEngine, retentionEngineQuery, replyResult_emptyReply]
  simp only [hstage]
  obtain ⟨hv, he⟩ := moveStaged_retentionEngine env config measurement newRP
    (QuerySprintf retentionEngine
      (Stmt.selectIntoAfter (measurementNameTempFQ config env.uuid)
        (measurementFQ config oldRP measurement)
        (rfc3339 (stagingCutoff env.nowCommand parsed)))
      (retentionEngine.Query (Stmt.countGroupByAll countField
        (measurementFQ config oldRP measurement)) store).2).engine
  refine ⟨hv, ?_⟩
  rw [he]
  rfl

/-- The points of the measurement in the migrated store: the points that were filed under
`old` after the instant `after`, now filed under the retention policy of `new`. -/
theorem migratedStore_mem (old temp new : FQName) (after : Int) (store : List Stored)
    (hfresh : ∀ s ∈ store, s.point.name ≠ temp.measurement)
    (hne : old.measurement ≠ temp.measurement) (hnew : new.measurement = old.measurement)
    (s : Stored) (hs : s.point.name = old.measurement) :
    s ∈ migratedStore old temp new after store ↔
      ∃ y ∈ store, inTarget old y = true ∧ y.point.time > after * 1000000000 ∧
        s = { retentionPolicy := new.retentionPolicy, point := y.point } := by
  have hstemp : s.point.name ≠ temp.measurement := by rw [hs]; exact hne
  have hmem3 : s ∈ migratedStore old temp new after store ↔
      s ∈ (store ++ (store.filter (fun s => inTarget old s &&
          decide (s.point.time > after * 1000000000))).map (retarget temp)).filter
            (fun s => decide (s.point.name ≠ old.measurement)) ++
        (((store ++ (store.filter (fun s => inTarget old s &&
          decide (s.point.time > after * 1000000000))).map (retarget temp)).filter
            (fun s => decide (s.point.name ≠ old.measurement))).filter
              (fun s => inTarget temp s)).map (retarget new) := by
    unfold migratedStore
    simp only []
    split
    · rw [List.mem_filter]
      simp [hstemp]
    · rfl
  rw [hmem3, List.mem_append]
  constructor
  · rintro (h | h)
    · rw [List.mem_filter] at h
      simp [hs] at h
    · rw [List.mem_map] at h
      obtain ⟨x, hx, hxs⟩ := h
      rw [List.mem_filter, List.mem_filter, List.mem_append] at hx
      obtain ⟨⟨hx1, _⟩, hxt⟩ := hx
      simp only [inTarget, decide_eq_true_eq] at hxt
      rcases hx1 with hx1 | hx1
      · exact absurd hxt.2 (hfresh x hx1)
      · rw [List.mem_map] at hx1
        obtain ⟨y, hy, hyx⟩ := hx1
        rw [List.mem_filter] at hy
        simp only [Bool.and_eq_true, decide_eq_true_eq] at hy
        refine ⟨y, hy.1, hy.2.1, hy.2.2, ?_⟩
        have hyn : y.point.name = old.measurement := by
          have := hy.2.1
          simp only [inTarget, decide_eq_true_eq] at this
          exact this.2
        rw [← hxs, ← hyx]
        simp only [retarget, hnew, ← hyn]
  · rintro ⟨y, hy, hyt, htime, rfl⟩
    right
    have hyn : y.point.name = old.measurement := by
      simp only [inTarget, decide_eq_true_eq] at hyt
      exact hyt.2
    rw [List.mem_map]
    refine ⟨retarget temp y, ?_, ?_⟩
    · rw [List.mem_filter, List.mem_filter, List.mem_append]
      refine ⟨⟨Or.inr ?_, ?_⟩, ?_⟩
      · rw [List.mem_map]
        exact ⟨y, by simp [List.mem_filter, hy, hyt, htime], rfl⟩
      · simp only [retarget, ne_eq, decide_eq_true_eq]
        exact fun h => hne h.symm
      · simp [inTarget, retarget]
    · simp only [retarget, hnew, ← hyn]

/-- In the migrated store every point of the measurement is filed under the retention policy
of `new`. -/
theorem migratedStore_policy (old temp new : FQName) (after : Int) (store : List Stored)
    (hfresh : ∀ s ∈ store, s.point.name ≠ temp.measurement)
    (hne : old.measurement ≠ temp.measurement) (hnew : new.measurement = old.measurement)
    (s : Stored) (hmem : s ∈ migratedStore old temp new after store)
    (hs : s.point.name = old.measurement) :
    s.retentionPolicy = new.retentionPolicy := by
  obtain ⟨y, _, _, _, rfl⟩ :=
    (migratedStore_mem old temp new after store hfresh hne hnew s hs).1 hmem
  rfl

/-- C6 fails as stated: with now = 1700000000 s and the new retention `1h`, the cutoff is
1699996460 s. The point stored at the cutoff (timestamp ≥ cutoff) is not in the measurement
under the new policy after the change; only the later point is. -/
theorem C6_counterexample_point_at_cutoff :
    (ChangeRetentionPolicy retentionEngine exampleEnv exampleConfig "data_a" "value" "" "1h"
      exampleStore).val = Outcome.ret none ∧
    exampleEnv.nowCommand - 3600000000000 + minute = 1699996460000000000 ∧
    ({ retentionPolicy := "autogen", point := pointAt 1699996460000000000 } : Stored)
      ∈ exampleStore ∧
    (pointAt 1699996460000000000).time ≥ exampleEnv.nowCommand - 3600000000000 + minute ∧
    ({ retentionPolicy := "policy_1h", point := pointAt 1699996460000000000 } : Stored)
      ∉ (ChangeRetentionPolicy retentionEngine exampleEnv exampleConfig "data_a" "value" ""
          "1h" exampleStore).engine ∧
    (ChangeRetentionPolicy retentionEngine exampleEnv exampleConfig "data_a" "value" "" "1h"
      exampleStore).engine
      = [{ retentionPolicy := "policy_1h", point := pointAt 1699996461000000000 }] := by
  refine ⟨by decide, by decide, by decide, by decide, by decide, by decide⟩

/-- C6, amended: after a retention change on the engine, for a measurement with at least one
point of the counted field under the old policy, a new retention that parses as a duration
from which a minute can be taken within `int64` (every positive duration is one) and a
staging name not in use, the change returns nil; the measurement under the new
policy holds exactly the points that were under the old policy with a timestamp strictly
after the cutoff `now - parse(newRetention) + 1 minute` cut to whole seconds; and no point
of the measurement is under another policy. -/
theorem C6_migration_keeps_points_after_cutoff (env : Env) (config : influxStorageConfig)
    (measurement countField oldRP newRP : String) (store : List Stored) (parsed : Int)
    (hcount : ∃ s ∈ store, s.retentionPolicy = RetentionPolicyName oldRP ∧
      s.point.name = measurement ∧ hasField countField s = true)
    (hparse : ParseDuration env newRP = Except.ok parsed)
    (hmin : -9223371976854775808 < parsed) (hmax : parsed ≤ 9223372036854775807)
    (hfresh : ∀ s ∈ store, s.point.name ≠ measurementNameTemp env.uuid)
    (hne : measurement ≠ measurementNameTemp env.uuid) :
    (ChangeRetentionPolicy retentionEngine env config measurement countField oldRP newRP
      store).val = Outcome.ret none ∧
    (∀ p : Point, p.name = measurement →
      (({ retentionPolicy := RetentionPolicyName newRP, point := p } : Stored) ∈
          (ChangeRetentionPolicy retentionEngine env config measurement countField oldRP newRP
            store).engine ↔
        (({ retentionPolicy := RetentionPolicyName oldRP, point := p } : Stored) ∈ store ∧
          p.time > rfc3339 (env.nowCommand - parsed + minute) * 1000000000))) ∧
    (∀ s ∈ (ChangeRetentionPolicy retentionEngine env config measurement countField oldRP newRP
        store).engine, s.point.name = measurement →
      s.retentionPolicy = RetentionPolicyName newRP) := by
  obtain ⟨hval, heng⟩ := ChangeRetentionPolicy_retentionEngine env config measurement
    countField oldRP newRP store parsed hcount hparse
  rw [heng, stagingCutoff_eq _ _ hmin hmax]
  refine ⟨hval, ?_, ?_⟩
  · intro p hp
    rw [migratedStore_mem (measurementFQ config oldRP measurement)
      (measurementNameTempFQ config env.uuid) (measurementFQ config newRP measurement) _ store
      hfresh hne rfl _ hp]
    constructor
    · rintro ⟨y, hy, hyt, htime, heq⟩
      simp only [Stored.mk.injEq] at heq
      simp only [inTarget, measurementFQ, decide_eq_true_eq] at hyt
      have : y = { retentionPolicy := RetentionPolicyName oldRP, point := p } := by
        cases y
        simp_all
      rw [← this]
      exact ⟨hy, by rw [heq.2]; exact htime⟩
    · rintro ⟨hmem, htime⟩
      exact ⟨_, hmem, by simp [inTarget, measurementFQ, hp], htime, rfl⟩
  · intro s hs hname
    exact migratedStore_policy (measurementFQ config oldRP measurement)
      (measurementNameTempFQ config env.uuid) (measurementFQ config newRP measurement) _ store
      hfresh hne rfl s hs hname

/-- Witness of C6: the later point of the example store, moved from the default policy to
the policy of `1h`. -/
theorem C6_migration_keeps_points_after_cutoff_witness :
    ({ retentionPolicy := RetentionPolicyName "1h", point := pointAt 1699996461000000000 }
        : Stored) ∈
      (ChangeRetentionPolicy retentionEngine exampleEnv exampleConfig "data_a" "value" "" "1h"
        exampleStore).engine ↔
    (({ retentionPolicy := RetentionPolicyName "", point := pointAt 1699996461000000000 }
        : Stored) ∈ exampleStore ∧
      (pointAt 1699996461000000000).time >
        rfc3339 (exampleEnv.nowCommand - 3600000000000 + minute) * 1000000000) :=
  (C6_migration_keeps_points_after_cutoff exampleEnv exampleConfig "data_a" "value" "" "1h"
    exampleStore 3600000000000 (by decide) rfl (by decide) (by decide) (by decide)
    (by decide)).2.1 (pointAt 1699996461000000000) rfl

/-! ### The loop of Query -/

/-- Every call of the loop of `Query` is a count or a selection with the time condition and
the sort order the loop was given. -/
theorem queryLoop_calls_shape {σ : Type} (cl : Client σ) (env : Env)
    (config : influxStorageConfig) (cond : TimeCond) (sort : String)
    (perItems offsets : List Int) (sources : List DataSource) :
    ∀ (i : Nat) (pack : List Record) (total : Int) (eng : σ),
      ∀ c ∈ (queryLoop cl env config cond sort perItems offsets i sources pack total eng).calls,
        isQueryCommand cond sort c := by
  induction sources with
  | nil =>
    intro i pack total eng c hc
    simp [queryLoop] at hc
  | cons ds rest ih =>
    intro i pack total eng c hc
    have hcount : isQueryCommand cond sort
        (Call.query (Stmt.countWhere (FieldForType ds.Type')
          (measurementFQ config ds.Retention (MeasurementName ds.ID)) cond)
          (cl.Query (Stmt.countWhere (FieldForType ds.Type')
            (measurementFQ config ds.Retention (MeasurementName ds.ID)) cond) eng).1) :=
      ⟨_, Or.inl ⟨_, _, rfl⟩⟩
    unfold queryLoop at hc
    simp only [CountSprintf_val, CountSprintf_calls, CountSprintf_engine] at hc
    split at hc
    · simp only [List.mem_singleton] at hc
      rw [hc]; exact hcount
    · simp only [List.mem_singleton] at hc
      rw [hc]; exact hcount
    · split at hc
      · simp only [List.singleton_append, List.mem_cons] at hc
        rcases hc with hc | hc
        · rw [hc]; exact hcount
        · exact ih _ _ _ _ c hc
      · split at hc
        · rename_i perItem offset _ _
          have hsel : isQueryCommand cond sort
              (Call.query (Stmt.select (measurementFQ config ds.Retention
                (MeasurementName ds.ID)) cond sort perItem offset)
                (cl.Query (Stmt.select (measurementFQ config ds.Retention
                  (MeasurementName ds.ID)) cond sort perItem offset)
                  (cl.Query (Stmt.countWhere (FieldForType ds.Type')
                    (measurementFQ config ds.Retention (MeasurementName ds.ID)) cond)
                    eng).2).1) :=
            ⟨_, Or.inr ⟨_, _, _, rfl⟩⟩
          simp only [QuerySprintf] at hc
          repeat' split at hc
          all_goals
            simp only [List.singleton_append, List.cons_append, List.nil_append, List.mem_cons,
              List.mem_singleton, List.not_mem_nil, or_false] at hc
          all_goals
            first
            | (rcases hc with hc | hc | hc
               · rw [hc]; exact hcount
               · rw [hc]; exact hsel
               · exact ih _ _ _ _ c hc)
            | (rcases hc with hc | hc
               · rw [hc]; exact hcount
               · rw [hc]; exact hsel)
        · simp only [List.mem_singleton] at hc
          rw [hc]; exact hcount


/-- One round of the loop of `Query` in a run that ends without error: the count command of
the stream is answered with a count; below 1 the loop goes on unchanged, otherwise the
selection is sent with the limit and offset of the stream, the count is added to the total
and the records the selection contributes are appended. -/
theorem queryLoop_cons_success {σ : Type} (cl : Client σ) (env : Env)
    (config : influxStorageConfig) (cond : TimeCond) (sort : String)
    (perItems offsets : List Int) (i : Nat) (ds : DataSource) (rest : List DataSource)
    (pack : List Record) (total : Int) (eng : σ) (p : List Record) (t : Int)
    (h : (queryLoop cl env config cond sort perItems offsets i (ds :: rest) pack total
      eng).val = Outcome.ret (p, t, none)) :
    ∃ count, countOfReply (cl.Query (Stmt.countWhere (FieldForType ds.Type')
        (measurementFQ config ds.Retention (MeasurementName ds.ID)) cond) eng).1
        = Outcome.ret (count, none) ∧
      ((count < 1 ∧
        (queryLoop cl env config cond sort perItems offsets i (ds :: rest) pack total
          eng).calls =
          Call.query (Stmt.countWhere (FieldForType ds.Type')
            (measurementFQ config ds.Retention (MeasurementName ds.ID)) cond)
            (cl.Query (Stmt.countWhere (FieldForType ds.Type')
              (measurementFQ config ds.Retention (MeasurementName ds.ID)) cond) eng).1 ::
          (queryLoop cl env config cond sort perItems offsets (i + 1) rest pack total
            (cl.Query (Stmt.countWhere (FieldForType ds.Type')
              (measurementFQ config ds.Retention (MeasurementName ds.ID)) cond) eng).2).calls ∧
        (queryLoop cl env config cond sort perItems offsets (i + 1) rest pack total
            (cl.Query (Stmt.countWhere (FieldForType ds.Type')
              (measurementFQ config ds.Retention (MeasurementName ds.ID)) cond) eng).2).val
          = Outcome.ret (p, t, none)) ∨
       (¬ count < 1 ∧ ∃ perItem offset eng1 c1,
        perItems[i]? = some perItem ∧ offsets[i]? = some offset ∧
        c1 = Call.query (Stmt.select (measurementFQ config ds.Retention
              (MeasurementName ds.ID)) cond sort perItem offset)
            (cl.Query (Stmt.select (measurementFQ config ds.Retention
              (MeasurementName ds.ID)) cond sort perItem offset)
              (cl.Query (Stmt.countWhere (FieldForType ds.Type')
                (measurementFQ config ds.Retention (MeasurementName ds.ID)) cond) eng).2).1 ∧
        (queryLoop cl env config cond sort perItems offsets i (ds :: rest) pack total
          eng).calls =
          Call.query (Stmt.countWhere (FieldForType ds.Type')
            (measurementFQ config ds.Retention (MeasurementName ds.ID)) cond)
            (cl.Query (Stmt.countWhere (FieldForType ds.Type')
              (measurementFQ config ds.Retention (MeasurementName ds.ID)) cond) eng).1 ::
          c1 ::
          (queryLoop cl env config cond sort perItems offsets (i + 1) rest
            (pack ++ loggedRecords env c1) (wrap64 (total + count)) eng1).calls ∧
        (queryLoop cl env config cond sort perItems offsets (i + 1) rest
            (pack ++ loggedRecords env c1) (wrap64 (total + count)) eng1).val
          = Outcome.ret (p, t, none))) := by
  rw [queryLoop] at h ⊢
  simp only [CountSprintf_val, CountSprintf_calls, CountSprintf_engine] at h ⊢
  generalize cl.Query (Stmt.countWhere (FieldForType ds.Type')
      (measurementFQ config ds.Retention (MeasurementName ds.ID)) cond) eng = a0 at h ⊢
  cases hc0 : countOfReply a0.1 with
  | panic msg => simp [hc0] at h
  | ret v =>
    obtain ⟨count, err⟩ := v
    cases err with
    | some e => simp [hc0] at h
    | none =>
      refine ⟨count, rfl, ?_⟩
      simp only [hc0] at h ⊢
      by_cases hlt : count < 1
      · left
        simp only [hlt, if_true] at h ⊢
        exact ⟨trivial, by simp, h⟩
      · right
        simp only [hlt, if_false] at h ⊢
        refine ⟨not_false, ?_⟩
        cases hpi : perItems[i]? with
        | none => simp [hpi] at h
        | some perItem =>
          cases hoff : offsets[i]? with
          | none => simp [hpi, hoff] at h
          | some offset =>
            simp only [hpi, hoff, QuerySprintf] at h ⊢
            refine ⟨perItem, offset, ?_⟩
            generalize cl.Query (Stmt.select (measurementFQ config ds.Retention
                (MeasurementName ds.ID)) cond sort perItem offset) a0.2 = a1 at h ⊢
            refine ⟨a1.2, Call.query (Stmt.select
              (measurementFQ config ds.Retention (MeasurementName ds.ID)) cond sort perItem
              offset) a1.1, rfl, rfl, rfl, ?_⟩
            cases hrr : replyResult a1.1 with
            | mk res err =>
              cases err with
              | some e => simp [hrr] at h
              | none =>
                cases res with
                | nil => simp [hrr] at h
                | cons res0 tl =>
                  simp only [hrr] at h ⊢
                  by_cases hlen : res0.Series.length > 1
                  · simp [hlen] at h
                  · simp only [hlen, if_false] at h ⊢
                    cases hser : res0.Series with
                    | nil =>
                      simp only [hser] at h ⊢
                      have hlr : loggedRecords env (Call.query (Stmt.select
                          (measurementFQ config ds.Retention (MeasurementName ds.ID)) cond sort
                          perItem offset) a1.1) = [] := by
                        simp [loggedRecords, hrr, hser]
                      rw [hlr, List.append_nil]
                      exact ⟨by simp, h⟩
                    | cons serie tl2 =>
                      simp only [hser] at h ⊢
                      cases hdec : serieToRecords env serie with
                      | panic msg => simp [hdec] at h
                      | ret v =>
                        obtain ⟨recs, derr⟩ := v
                        cases derr with
                        | some e => simp [hdec] at h
                        | none =>
                          simp only [hdec] at h ⊢
                          have hpack : pack ++ loggedRecords env (Call.query (Stmt.select
                              (measurementFQ config ds.Retention (MeasurementName ds.ID)) cond
                              sort perItem offset) a1.1)
                              = if perItem ≠ 0 then pack ++ recs else pack := by
                            by_cases hz : perItem = 0 <;>
                              simp [loggedRecords, hrr, hser, hdec, hz]
                          rw [hpack]
                          exact ⟨by simp, h⟩

theorem loggedCount_nonneg (c : Call) : 0 ≤ loggedCount c := by
  unfold loggedCount
  split
  · split
    · split <;> omega
    · exact le_refl 0
  · exact le_refl 0

theorem loggedCount_sum_nonneg (calls : List Call) : 0 ≤ (calls.map loggedCount).sum := by
  induction calls with
  | nil => simp
  | cons c rest ih =>
    simp only [List.map_cons, List.sum_cons]
    have := loggedCount_nonneg c
    omega

/-- A run of the loop of `Query` that ends without error: the pack is the pack at the start
followed by the records the logged selections contribute, one count command was sent per
stream, in order, every selection has the limit of a stream, and the total is the total at
the start plus the logged counts, as long as that sum stays within `int64`. -/
theorem queryLoop_success {σ : Type} (cl : Client σ) (env : Env)
    (config : influxStorageConfig) (cond : TimeCond) (sort : String)
    (perItems offsets : List Int) (sources : List DataSource) :
    ∀ (i : Nat) (pack : List Record) (total : Int) (eng : σ) (p : List Record) (t : Int),
      (queryLoop cl env config cond sort perItems offsets i sources pack total eng).val
        = Outcome.ret (p, t, none) →
      p = pack ++ (((queryLoop cl env config cond sort perItems offsets i sources pack total
          eng).calls).map (loggedRecords env)).flatten ∧
      countCommands (queryLoop cl env config cond sort perItems offsets i sources pack total
          eng).calls
        = sources.map (fun ds => Stmt.countWhere (FieldForType ds.Type')
            (measurementFQ config ds.Retention (MeasurementName ds.ID)) cond) ∧
      (∀ l ∈ selectLimits (queryLoop cl env config cond sort perItems offsets i sources pack
          total eng).calls, l ∈ perItems) ∧
      (0 ≤ total →
        total + (((queryLoop cl env config cond sort perItems offsets i sources pack total
          eng).calls).map loggedCount).sum ≤ 9223372036854775807 →
        t = total + (((queryLoop cl env config cond sort perItems offsets i sources pack total
          eng).calls).map loggedCount).sum) := by
  induction sources with
  | nil =>
    intro i pack total eng p t h
    simp only [queryLoop, Outcome.ret.injEq, Prod.mk.injEq, and_true] at h
    simp [queryLoop, countCommands, selectLimits, h.1, h.2]
  | cons ds rest ih =>
    intro i pack total eng p t h
    obtain ⟨count, hcount, hcase⟩ :=
      queryLoop_cons_success cl env config cond sort perItems offsets i ds rest pack total eng
        p t h
    rcases hcase with ⟨hlt, hcalls, hval⟩ | ⟨hge, perItem, offset, eng1, c1, hpi, _, hc1, hcalls,
      hval⟩
    · obtain ⟨ih1, ih2, ih3, ih4⟩ := ih _ _ _ _ _ _ hval
      have hlc : loggedCount (Call.query (Stmt.countWhere (FieldForType ds.Type')
          (measurementFQ config ds.Retention (MeasurementName ds.ID)) cond)
          (cl.Query (Stmt.countWhere (FieldForType ds.Type')
            (measurementFQ config ds.Retention (MeasurementName ds.ID)) cond) eng).1) = 0 := by
        simp [loggedCount, hcount, hlt]
      rw [hcalls]
      refine ⟨?_, ?_, ?_, ?_⟩
      · simpa [loggedRecords] using ih1
      · simpa [countCommands] using ih2
      · simpa [selectLimits] using ih3
      · intro h0 hb
        simp only [List.map_cons, List.sum_cons, hlc, zero_add] at hb ⊢
        exact ih4 h0 hb
    · obtain ⟨ih1, ih2, ih3, ih4⟩ := ih _ _ _ _ _ _ hval
      have hlc : loggedCount (Call.query (Stmt.countWhere (FieldForType ds.Type')
          (measurementFQ config ds.Retention (MeasurementName ds.ID)) cond)
          (cl.Query (Stmt.countWhere (FieldForType ds.Type')
            (measurementFQ config ds.Retention (MeasurementName ds.ID)) cond) eng).1)
          = count := by
        simp [loggedCount, hcount, hge]
      have hlc1 : loggedCount c1 = 0 := by rw [hc1]; rfl
      have hsel : selectLimits [c1] = [perItem] := by rw [hc1]; rfl
      have hcc1 : countCommands [c1] = [] := by rw [hc1]; rfl
      rw [hcalls]
      refine ⟨?_, ?_, ?_, ?_⟩
      · rw [ih1]
        simp [loggedRecords]
      · have : countCommands (c1 :: (queryLoop cl env config cond sort perItems offsets (i + 1)
            rest (pack ++ loggedRecords env c1) (wrap64 (total + count)) eng1).calls)
            = countCommands (queryLoop cl env config cond sort perItems offsets (i + 1)
            rest (pack ++ loggedRecords env c1) (wrap64 (total + count)) eng1).calls := by
          rw [hc1]; rfl
        simp only [countCommands, List.filterMap_cons, List.map_cons] at this ih2 ⊢
        rw [this, ih2]
      · intro l hl
        have : selectLimits (c1 :: (queryLoop cl env config cond sort perItems offsets (i + 1)
            rest (pack ++ loggedRecords env c1) (wrap64 (total + count)) eng1).calls)
            = perItem :: selectLimits (queryLoop cl env config cond sort perItems offsets
            (i + 1) rest (pack ++ loggedRecords env c1) (wrap64 (total + count)) eng1).calls := by
          rw [hc1]; rfl
        simp only [selectLimits, List.filterMap_cons] at this hl ih3
        rw [this] at hl
        rcases List.mem_cons.1 hl with hl | hl
        · rw [hl]; exact List.getElem?_mem hpi
        · exact ih3 l hl
      · intro h0 hb
        simp only [List.map_cons, List.sum_cons, hlc, hlc1, zero_add] at hb ⊢
        have hrest := loggedCount_sum_nonneg (queryLoop cl env config cond sort perItems offsets
          (i + 1) rest (pack ++ loggedRecords env c1) (wrap64 (total + count)) eng1).calls
        have hw : wrap64 (total + count) = total + count := by
          simp only [wrap64]
          omega
        rw [hw] at ih4 hrest hb ⊢
        have := ih4 (by omega) (by omega)
        omega


/-! ### Query as a whole -/

theorem clampStart_ok (q q1 : Query) (h : clampStart q = Except.ok q1) :
    q1.Start = max q.Start 0 ∧ q1.End = q.End ∧ q1.Sort' = q.Sort' ∧ q1.Limit = q.Limit := by
  unfold clampStart at h
  by_cases h1 : q.Start < 0
  · by_cases h2 : q.End < 1
    · simp [h1, h2] at h
    · simp only [h1, h2, if_true, if_false, Except.ok.injEq] at h
      subst h
      refine ⟨?_, rfl, rfl, rfl⟩
      show (0 : Int) = max q.Start 0
      omega
  · simp only [h1, if_false, Except.ok.injEq] at h
    subst h
    refine ⟨?_, rfl, rfl, rfl⟩
    omega

/-- The calls of `Query` are the calls of its loop. -/
theorem Query_calls {σ : Type} (cl : Client σ) (env : Env) (config : influxStorageConfig)
    (q q1 : Query) (page perPage : Int) (sources : List DataSource) (eng : σ)
    (h : clampStart q = Except.ok q1) :
    (InfluxStorage.Query cl env config q page perPage sources eng).calls =
      (queryLoop cl env config (timeCondOf q1) (if q1.Sort' = ASC then "ASC" else "DESC")
        (env.PerItemPagination q1.Limit page perPage sources.length).1
        (env.PerItemPagination q1.Limit page perPage sources.length).2 0 sources [] 0
        eng).calls := by
  unfold InfluxStorage.Query
  simp only [h]
  split
  · split <;> rfl
  · rfl

/-- A result of `Query` without error is the result of its loop, with the total limited. -/
theorem Query_success {σ : Type} (cl : Client σ) (env : Env) (config : influxStorageConfig)
    (q : Query) (page perPage : Int) (sources : List DataSource) (eng : σ)
    (pack : List Record) (total : Int)
    (h : (InfluxStorage.Query cl env config q page perPage sources eng).val
      = Outcome.ret (pack, total, none)) :
    ∃ q1 t0, clampStart q = Except.ok q1 ∧
      (queryLoop cl env config (timeCondOf q1) (if q1.Sort' = ASC then "ASC" else "DESC")
        (env.PerItemPagination q1.Limit page perPage sources.length).1
        (env.PerItemPagination q1.Limit page perPage sources.length).2 0 sources [] 0
        eng).val = Outcome.ret (pack, t0, none) ∧
      total = limitedTotal q.Limit t0 := by
  unfold InfluxStorage.Query at h
  cases hq : clampStart q with
  | error e => simp [hq] at h
  | ok q1 =>
    obtain ⟨_, _, _, hlim⟩ := clampStart_ok q q1 hq
    simp only [hq] at h
    refine ⟨q1, ?_⟩
    split at h
    · rename_i pack0 total0 hloop
      refine ⟨total0, rfl, ?_⟩
      rw [hloop]
      unfold limitedTotal
      rw [← hlim]
      simp only [Outcome.ret.injEq, Prod.mk.injEq, and_true]
      split at h
      · rename_i hcond
        simp only [Outcome.ret.injEq, Prod.mk.injEq, and_true] at h
        obtain ⟨hp, ht⟩ := h
        subst hp
        rw [if_pos hcond]
        exact ⟨rfl, ht.symm⟩
      · rename_i hcond
        rw [hloop] at h
        simp only [Outcome.ret.injEq, Prod.mk.injEq, and_true] at h
        obtain ⟨hp, ht⟩ := h
        subst hp
        rw [if_neg hcond]
        exact ⟨rfl, ht.symm⟩
    · rename_i hne
      exact absurd h (hne pack total)


/-- The first call of the loop of `Query` over a non-empty list of streams is the count
command of the first stream. -/
theorem queryLoop_first_call {σ : Type} (cl : Client σ) (env : Env)
    (config : influxStorageConfig) (cond : TimeCond) (sort : String)
    (perItems offsets : List Int) (i : Nat) (ds : DataSource) (rest : List DataSource)
    (pack : List Record) (total : Int) (eng : σ) :
    (queryLoop cl env config cond sort perItems offsets i (ds :: rest) pack total
      eng).calls.head? =
      some (Call.query (Stmt.countWhere (FieldForType ds.Type')
        (measurementFQ config ds.Retention (MeasurementName ds.ID)) cond)
        (cl.Query (Stmt.countWhere (FieldForType ds.Type')
          (measurementFQ config ds.Retention (MeasurementName ds.ID)) cond) eng).1) := by
  rw [queryLoop]
  simp only [CountSprintf_val, CountSprintf_calls, CountSprintf_engine]
  repeat' split
  all_goals rfl

/-- C11 fails as stated: the query without start and end parameters (both the zero time), the
query with its start one second before the epoch and an unset end (before its start), and
the query from two seconds before the epoch to three seconds before the epoch are refused by
`Query`, with no call on the engine. -/
theorem C11_counterexample_unset_end_refused :
    ParseQueryParameters exampleTimeParse exampleAtoi [("limit", ["5"])]
      = { Start := zeroTime, End := zeroTime, Sort' := DESC, Limit := 5 } ∧
    (InfluxStorage.Query dropClient exampleEnv exampleConfig
      (ParseQueryParameters exampleTimeParse exampleAtoi [("limit", ["5"])]) 1 10
      [floatSource] ()).val
      = Outcome.ret ([], 0, some "end argument must be greater than 1970-01-01T00:00:00Z") ∧
    (InfluxStorage.Query dropClient exampleEnv exampleConfig
      (ParseQueryParameters exampleTimeParse exampleAtoi [("limit", ["5"])]) 1 10
      [floatSource] ()).calls = [] ∧
    ({ Start := -1000000000, End := zeroTime, Sort' := DESC, Limit := -1 } : Query).End <
      ({ Start := -1000000000, End := zeroTime, Sort' := DESC, Limit := -1 } : Query).Start ∧
    (InfluxStorage.Query dropClient exampleEnv exampleConfig
      { Start := -1000000000, End := zeroTime, Sort' := DESC, Limit := -1 } 1 10
      [floatSource] ()).val
      = Outcome.ret ([], 0, some "end argument must be greater than 1970-01-01T00:00:00Z") ∧
    (InfluxStorage.Query dropClient exampleEnv exampleConfig
      { Start := -1000000000, End := zeroTime, Sort' := DESC, Limit := -1 } 1 10
      [floatSource] ()).calls = [] ∧
    ({ Start := -2000000000, End := -3000000000, Sort' := DESC, Limit := -1 } : Query).End <
      ({ Start := -2000000000, End := -3000000000, Sort' := DESC, Limit := -1 } : Query).Start ∧
    (InfluxStorage.Query dropClient exampleEnv exampleConfig
      { Start := -2000000000, End := -3000000000, Sort' := DESC, Limit := -1 } 1 10
      [floatSource] ()).val
      = Outcome.ret ([], 0, some "end argument must be greater than 1970-01-01T00:00:00Z") := by
  refine ⟨by decide, by decide, by decide, by decide, by decide, by decide, by decide,
    by decide⟩

/-- C11, amended: a query whose end is before its start and whose start is not before the
epoch passes the time validation unchanged and every command `Query` sends has the open-ended
condition `time > start`; a query whose start is before the epoch and whose end is after the
epoch passes with its start raised to the epoch and every command has the condition
`time > epoch AND time < end`. With streams to query, the first command is sent in both
cases. `ParseQueryParameters` gives the zero time for a start or end that does not parse. -/
theorem C11_end_before_start_runs_open_ended {σ : Type} (cl : Client σ) (env : Env)
    (config : influxStorageConfig) (q : Query) (page perPage : Int)
    (sources : List DataSource) (eng : σ) :
    (q.End < q.Start → 0 ≤ q.Start →
      clampStart q = Except.ok q ∧
      (∀ c ∈ (InfluxStorage.Query cl env config q page perPage sources eng).calls,
        isQueryCommand { after := rfc3339 q.Start, before := none }
          (if q.Sort' = ASC then "ASC" else "DESC") c) ∧
      (sources ≠ [] →
        (InfluxStorage.Query cl env config q page perPage sources eng).calls ≠ [])) ∧
    (q.Start < 0 → 0 < q.End →
      clampStart q = Except.ok { q with Start := 0 } ∧
      (∀ c ∈ (InfluxStorage.Query cl env config q page perPage sources eng).calls,
        isQueryCommand { after := rfc3339 0, before := some (rfc3339 q.End) }
          (if q.Sort' = ASC then "ASC" else "DESC") c) ∧
      (sources ≠ [] →
        (InfluxStorage.Query cl env config q page perPage sources eng).calls ≠ [])) ∧
    (∀ timeParse atoi form,
      (timeParse (formGet form ParamStart) = none →
        (ParseQueryParameters timeParse atoi form).Start = zeroTime) ∧
      (timeParse (formGet form ParamEnd) = none →
        (ParseQueryParameters timeParse atoi form).End = zeroTime)) := by
  have hne : ∀ q1, clampStart q = Except.ok q1 → sources ≠ [] →
      (InfluxStorage.Query cl env config q page perPage sources eng).calls ≠ [] := by
    intro q1 hq1 hs
    rw [Query_calls cl env config q q1 page perPage sources eng hq1]
    cases sources with
    | nil => exact absurd rfl hs
    | cons ds rest =>
      intro h
      have := queryLoop_first_call cl env config (timeCondOf q1)
        (if q1.Sort' = ASC then "ASC" else "DESC")
        (env.PerItemPagination q1.Limit page perPage (ds :: rest).length).1
        (env.PerItemPagination q1.Limit page perPage (ds :: rest).length).2 0 ds rest [] 0 eng
      rw [h] at this
      simp at this
  refine ⟨?_, ?_, ?_⟩
  · intro hlt hpos
    have hq : clampStart q = Except.ok q := by
      unfold clampStart
      simp [not_lt.2 hpos]
    refine ⟨hq, ?_, hne q hq⟩
    intro c hc
    rw [Query_calls cl env config q q page perPage sources eng hq] at hc
    have := queryLoop_calls_shape cl env config _ _ _ _ sources 0 [] 0 eng c hc
    have htc : timeCondOf q = { after := rfc3339 q.Start, before := none } := by
      unfold timeCondOf
      simp [not_lt.2 (le_of_lt hlt)]
    rw [htc] at this
    exact this
  · intro hneg hend
    have hq : clampStart q = Except.ok { q with Start := 0 } := by
      unfold clampStart
      have : ¬ q.End < 1 := by omega
      simp [hneg, this]
    refine ⟨hq, ?_, hne _ hq⟩
    intro c hc
    rw [Query_calls cl env config q _ page perPage sources eng hq] at hc
    have := queryLoop_calls_shape cl env config _ _ _ _ sources 0 [] 0 eng c hc
    have htc : timeCondOf { q with Start := 0 }
        = { after := rfc3339 0, before := some (rfc3339 q.End) } := by
      unfold timeCondOf
      simp [hend]
    rw [htc] at this
    exact this
  · intro timeParse atoi form
    constructor
    · intro h
      simp [ParseQueryParameters, h]
    · intro h
      simp [ParseQueryParameters, h]

/-- Witness of C11: a query from the instant 1700000000 s with an unset end is sent to the
engine. -/
theorem C11_end_before_start_runs_open_ended_witness :
    (InfluxStorage.Query dropClient exampleEnv exampleConfig
      { Start := 1700000000000000000, End := zeroTime, Sort' := DESC, Limit := -1 } 1 10
      [floatSource] ()).calls ≠ [] ∧
    clampStart { Start := 1700000000000000000, End := zeroTime, Sort' := DESC, Limit := -1 }
      = Except.ok { Start := 1700000000000000000, End := zeroTime, Sort' := DESC,
                    Limit := -1 } :=
  ⟨((C11_end_before_start_runs_open_ended dropClient exampleEnv exampleConfig
      { Start := 1700000000000000000, End := zeroTime, Sort' := DESC, Limit := -1 } 1 10
      [floatSource] ()).1 (by decide) (by decide)).2.2 (by decide),
   ((C11_end_before_start_runs_open_ended dropClient exampleEnv exampleConfig
      { Start := 1700000000000000000, End := zeroTime, Sort' := DESC, Limit := -1 } 1 10
      [floatSource] ()).1 (by decide) (by decide)).1⟩


/-- In a run of the loop of `Query` that ends without error the commands are sent: the count
command of every stream is in the log, and every logged count command that is answered with
a count of at least 1 comes with a selection from the same measurement, with the time
condition and the sort order of the loop. -/
theorem queryLoop_success_sent {σ : Type} (cl : Client σ) (env : Env)
    (config : influxStorageConfig) (cond : TimeCond) (sort : String)
    (perItems offsets : List Int) (sources : List DataSource) :
    ∀ (i : Nat) (pack : List Record) (total : Int) (eng : σ) (p : List Record) (t : Int),
      (queryLoop cl env config cond sort perItems offsets i sources pack total eng).val
        = Outcome.ret (p, t, none) →
      (∀ ds ∈ sources, ∃ reply count,
        Call.query (Stmt.countWhere (FieldForType ds.Type')
          (measurementFQ config ds.Retention (MeasurementName ds.ID)) cond) reply ∈
          (queryLoop cl env config cond sort perItems offsets i sources pack total eng).calls ∧
        countOfReply reply = Outcome.ret (count, none)) ∧
      (∀ field src reply count,
        Call.query (Stmt.countWhere field src cond) reply ∈
          (queryLoop cl env config cond sort perItems offsets i sources pack total eng).calls →
        countOfReply reply = Outcome.ret (count, none) → 1 ≤ count →
        ∃ perItem offset reply2,
          Call.query (Stmt.select src cond sort perItem offset) reply2 ∈
            (queryLoop cl env config cond sort perItems offsets i sources pack total
              eng).calls) := by
  induction sources with
  | nil =>
    intro i pack total eng p t _
    simp [queryLoop]
  | cons ds rest ih =>
    intro i pack total eng p t h
    obtain ⟨count, hcount, hcase⟩ :=
      queryLoop_cons_success cl env config cond sort perItems offsets i ds rest pack total eng
        p t h
    rcases hcase with ⟨hlt, hcalls, hval⟩ | ⟨hge, perItem, offset, eng1, c1, _, _, hc1, hcalls,
      hval⟩
    · obtain ⟨ih1, ih2⟩ := ih _ _ _ _ _ _ hval
      rw [hcalls]
      constructor
      · intro d hd
        rcases List.mem_cons.1 hd with hd | hd
        · subst hd
          exact ⟨_, count, List.mem_cons_self _ _, hcount⟩
        · obtain ⟨reply, cnt, hr, hcr⟩ := ih1 d hd
          exact ⟨reply, cnt, List.mem_cons_of_mem _ hr, hcr⟩
      · intro field src reply cnt hmem hcnt hone
        rcases List.mem_cons.1 hmem with hm | hm
        · simp only [Call.query.injEq, Stmt.countWhere.injEq] at hm
          rw [hm.2, hcount] at hcnt
          simp only [Outcome.ret.injEq, Prod.mk.injEq, and_true] at hcnt
          omega
        · obtain ⟨pi, off, r2, hr2⟩ := ih2 field src reply cnt hm hcnt hone
          exact ⟨pi, off, r2, List.mem_cons_of_mem _ hr2⟩
    · obtain ⟨ih1, ih2⟩ := ih _ _ _ _ _ _ hval
      rw [hcalls]
      constructor
      · intro d hd
        rcases List.mem_cons.1 hd with hd | hd
        · subst hd
          exact ⟨_, count, List.mem_cons_self _ _, hcount⟩
        · obtain ⟨reply, cnt, hr, hcr⟩ := ih1 d hd
          exact ⟨reply, cnt, List.mem_cons_of_mem _ (List.mem_cons_of_mem _ hr), hcr⟩
      · intro field src reply cnt hmem hcnt hone
        rcases List.mem_cons.1 hmem with hm | hm
        · simp only [Call.query.injEq, Stmt.countWhere.injEq] at hm
          rw [hm.1.2.1]
          rw [hc1]
          exact ⟨perItem, offset, _, List.mem_cons_of_mem _ (List.mem_cons_self _ _)⟩
        · rcases List.mem_cons.1 hm with hm1 | hm1
          · rw [hc1] at hm1
            simp at hm1
          · obtain ⟨pi, off, r2, hr2⟩ := ih2 field src reply cnt hm1 hcnt hone
            exact ⟨pi, off, r2, List.mem_cons_of_mem _ (List.mem_cons_of_mem _ hr2)⟩

/-- C12: for a query that passes the time validation, every command `Query` sends is the
count or the selection of a stream with one and the same time condition: with
`s = max(q.Start, epoch)`, it is `time > 's' AND time < 'q.End'` when `s` is strictly before
`q.End`, and `time > 's'` otherwise, the instants written in the layout RFC3339 (whole
seconds). The commands are sent: with streams to query, the first call is the count command
of the first stream with this condition, answered by the engine; and when `Query` returns
without error, the count command of every stream is in the log with this condition and an answer that
reads as a count, and
every count answered with at least 1 comes with the selection from the same measurement
under the same condition. -/
theorem C12_time_predicate {σ : Type} (cl : Client σ) (env : Env)
    (config : influxStorageConfig) (q q1 : Query) (page perPage : Int)
    (sources : List DataSource) (eng : σ)
    (hpass : clampStart q = Except.ok q1) :
    (∀ c ∈ (InfluxStorage.Query cl env config q page perPage sources eng).calls,
      isQueryCommand
        (if max q.Start 0 < q.End then
          { after := rfc3339 (max q.Start 0), before := some (rfc3339 q.End) }
         else { after := rfc3339 (max q.Start 0), before := none })
        (if q.Sort' = ASC then "ASC" else "DESC") c) ∧
    (∀ fmt : Int → String,
      TimeCond.text fmt
        (if max q.Start 0 < q.End then
          { after := rfc3339 (max q.Start 0), before := some (rfc3339 q.End) }
         else { after := rfc3339 (max q.Start 0), before := none })
      = if max q.Start 0 < q.End then
          "time > '" ++ fmt (rfc3339 (max q.Start 0)) ++ "' AND time < '"
            ++ fmt (rfc3339 q.End) ++ "'"
        else "time > '" ++ fmt (rfc3339 (max q.Start 0)) ++ "'") ∧
    (∀ ds rest, sources = ds :: rest →
      (InfluxStorage.Query cl env config q page perPage sources eng).calls.head? =
        some (Call.query
          (Stmt.countWhere (FieldForType ds.Type')
            (measurementFQ config ds.Retention (MeasurementName ds.ID))
            (if max q.Start 0 < q.End then
          { after := rfc3339 (max q.Start 0), before := some (rfc3339 q.End) }
         else { after := rfc3339 (max q.Start 0), before := none }))
          (cl.Query (Stmt.countWhere (FieldForType ds.Type')
            (measurementFQ config ds.Retention (MeasurementName ds.ID))
            (if max q.Start 0 < q.End then
          { after := rfc3339 (max q.Start 0), before := some (rfc3339 q.End) }
         else { after := rfc3339 (max q.Start 0), before := none })) eng).1)) ∧
    (∀ pack total, (InfluxStorage.Query cl env config q page perPage sources eng).val
        = Outcome.ret (pack, total, none) →
      (∀ ds ∈ sources, ∃ reply count,
        Call.query (Stmt.countWhere (FieldForType ds.Type')
          (measurementFQ config ds.Retention (MeasurementName ds.ID))
          (if max q.Start 0 < q.End then
          { after := rfc3339 (max q.Start 0), before := some (rfc3339 q.End) }
         else { after := rfc3339 (max q.Start 0), before := none })) reply ∈
          (InfluxStorage.Query cl env config q page perPage sources eng).calls ∧
        countOfReply reply = Outcome.ret (count, none)) ∧
      (∀ field src reply count,
        Call.query (Stmt.countWhere field src
          (if max q.Start 0 < q.End then
          { after := rfc3339 (max q.Start 0), before := some (rfc3339 q.End) }
         else { after := rfc3339 (max q.Start 0), before := none })) reply ∈
          (InfluxStorage.Query cl env config q page perPage sources eng).calls →
        countOfReply reply = Outcome.ret (count, none) → 1 ≤ count →
        ∃ perItem offset reply2,
          Call.query (Stmt.select src
            (if max q.Start 0 < q.End then
          { after := rfc3339 (max q.Start 0), before := some (rfc3339 q.End) }
         else { after := rfc3339 (max q.Start 0), before := none })
            (if q.Sort' = ASC then "ASC" else "DESC") perItem offset) reply2 ∈
            (InfluxStorage.Query cl env config q page perPage sources eng).calls)) := by
  obtain ⟨hs, he, hsort, _⟩ := clampStart_ok q q1 hpass
  have htc : timeCondOf q1 =
      (if max q.Start 0 < q.End then
          { after := rfc3339 (max q.Start 0), before := some (rfc3339 q.End) }
         else { after := rfc3339 (max q.Start 0), before := none }) := by
    unfold timeCondOf
    rw [hs, he]
  refine ⟨?_, ?_, ?_, ?_⟩
  · intro c hc
    rw [Query_calls cl env config q q1 page perPage sources eng hpass] at hc
    have := queryLoop_calls_shape cl env config _ _ _ _ sources 0 [] 0 eng c hc
    rw [htc, hsort] at this
    exact this
  · intro fmt
    by_cases h : max q.Start 0 < q.End <;> simp [h, TimeCond.text]
  · intro ds rest hsrc
    subst hsrc
    rw [Query_calls cl env config q q1 page perPage (ds :: rest) eng hpass,
      queryLoop_first_call, htc]
  · intro pack total hsucc
    obtain ⟨q2, t0, hq2, hloop, _⟩ :=
      Query_success cl env config q page perPage sources eng pack total hsucc
    rw [hpass] at hq2
    cases hq2
    rw [Query_calls cl env config q q1 page perPage sources eng hpass, htc, hsort]
    rw [htc, hsort] at hloop
    exact queryLoop_success_sent cl env config _ _ _ _ sources 0 [] 0 eng pack t0 hloop

/-- Witness of C12: a query from one second before the epoch to the instant 1700000000 s,
over one stream. The first call is the count command of the stream with the condition from
the epoch to the end, and the selection from its measurement under the same condition is in
the log. -/
theorem C12_time_predicate_witness :
    (InfluxStorage.Query recordsClient exampleEnv exampleConfig epochQuery 1 10
      [floatSource] ()).calls.head? =
      some (Call.query
        (Stmt.countWhere (FieldForType floatSource.Type')
          (measurementFQ exampleConfig floatSource.Retention (MeasurementName floatSource.ID))
          (if max epochQuery.Start 0 < epochQuery.End then
            TimeCond.mk (rfc3339 (max epochQuery.Start 0)) (some (rfc3339 epochQuery.End))
           else TimeCond.mk (rfc3339 (max epochQuery.Start 0)) none))
        (recordsClient.Query (Stmt.countWhere (FieldForType floatSource.Type')
          (measurementFQ exampleConfig floatSource.Retention (MeasurementName floatSource.ID))
          (if max epochQuery.Start 0 < epochQuery.End then
            TimeCond.mk (rfc3339 (max epochQuery.Start 0)) (some (rfc3339 epochQuery.End))
           else TimeCond.mk (rfc3339 (max epochQuery.Start 0)) none)) ()).1) ∧
    ∃ perItem offset reply2,
      Call.query (Stmt.select (measurementFQ exampleConfig "" "data_a")
        (if max epochQuery.Start 0 < epochQuery.End then
          TimeCond.mk (rfc3339 (max epochQuery.Start 0)) (some (rfc3339 epochQuery.End))
         else TimeCond.mk (rfc3339 (max epochQuery.Start 0)) none)
        (if epochQuery.Sort' = ASC then "ASC" else "DESC") perItem offset) reply2 ∈
        (InfluxStorage.Query recordsClient exampleEnv exampleConfig epochQuery 1 10
          [floatSource] ()).calls :=
  ⟨(C12_time_predicate recordsClient exampleEnv exampleConfig epochQuery
      { Start := 0, End := 1700000000000000000, Sort' := "", Limit := -1 } 1 10
      [floatSource] () rfl).2.2.1 floatSource [] rfl,
   ((C12_time_predicate recordsClient exampleEnv exampleConfig epochQuery
      { Start := 0, End := 1700000000000000000, Sort' := "", Limit := -1 } 1 10
      [floatSource] () rfl).2.2.2
      [{ Name := "a", Unit := "", Time := { bits := 0 }, Value := some { bits := 42 },
         StringValue := "", BoolValue := none },
       { Name := "a", Unit := "", Time := { bits := 0 }, Value := some { bits := 43 },
         StringValue := "", BoolValue := none }] 2 (by decide)).2
      "value" (measurementFQ exampleConfig "" "data_a")
      (recordsClient.Query (Stmt.countWhere "value" (measurementFQ exampleConfig "" "data_a")
        (TimeCond.mk 0 (some 1700000000))) ()).1 2 (by decide) (by decide) (by decide)⟩

/-- C13: when `Query` returns without error, one count command was sent per queried stream,
in order, and the total is the sum of the counts read (a count below 1 adds nothing),
replaced by `q.Limit` exactly when `0 < q.Limit < sum`; a limit of 0 or less never changes
the total. The sum of the counts is taken to fit `int64`. -/
theorem C13_total_is_limited_sum {σ : Type} (cl : Client σ) (env : Env)
    (config : influxStorageConfig) (q : Query) (page perPage : Int)
    (sources : List DataSource) (eng : σ) (pack : List Record) (total : Int)
    (hsucc : (InfluxStorage.Query cl env config q page perPage sources eng).val
      = Outcome.ret (pack, total, none))
    (hfit : ((InfluxStorage.Query cl env config q page perPage sources eng).calls.map
      loggedCount).sum ≤ 9223372036854775807) :
    (∃ cond, countCommands (InfluxStorage.Query cl env config q page perPage sources eng).calls
      = sources.map (fun ds => Stmt.countWhere (FieldForType ds.Type')
          (measurementFQ config ds.Retention (MeasurementName ds.ID)) cond)) ∧
    (0 < q.Limit ∧ q.Limit < ((InfluxStorage.Query cl env config q page perPage sources
        eng).calls.map loggedCount).sum → total = q.Limit) ∧
    (¬ (0 < q.Limit ∧ q.Limit < ((InfluxStorage.Query cl env config q page perPage sources
        eng).calls.map loggedCount).sum) →
      total = ((InfluxStorage.Query cl env config q page perPage sources eng).calls.map
        loggedCount).sum) ∧
    (q.Limit ≤ 0 →
      total = ((InfluxStorage.Query cl env config q page perPage sources eng).calls.map
        loggedCount).sum) := by
  obtain ⟨q1, t0, hq1, hloop, htotal⟩ :=
    Query_success cl env config q page perPage sources eng pack total hsucc
  rw [Query_calls cl env config q q1 page perPage sources eng hq1] at hfit ⊢
  obtain ⟨_, hcc, _, hsum⟩ := queryLoop_success cl env config _ _ _ _ sources 0 [] 0 eng pack t0
    hloop
  have ht0 := hsum (le_refl 0) (by simpa using hfit)
  rw [zero_add] at ht0
  rw [← ht0, htotal]
  unfold limitedTotal
  refine ⟨⟨_, hcc⟩, ?_, ?_, ?_⟩
  · intro h
    rw [if_pos h]
  · intro h
    rw [if_neg h]
  · intro h
    rw [if_neg (fun hc => absurd hc.1 (not_lt.2 h))]

/-- Witness of C13: a query with limit 1 over one stream whose count is 2. -/
theorem C13_total_is_limited_sum_witness :
    (∃ cond, countCommands (InfluxStorage.Query recordsClient exampleEnv exampleConfig
      { Start := 0, End := 0, Sort' := "", Limit := 1 } 1 10 [floatSource] ()).calls
      = [floatSource].map (fun ds => Stmt.countWhere (FieldForType ds.Type')
          (measurementFQ exampleConfig ds.Retention (MeasurementName ds.ID)) cond)) ∧
    ((InfluxStorage.Query recordsClient exampleEnv exampleConfig
      { Start := 0, End := 0, Sort' := "", Limit := 1 } 1 10 [floatSource] ()).calls.map
      loggedCount).sum = 2 :=
  ⟨(C13_total_is_limited_sum recordsClient exampleEnv exampleConfig
      { Start := 0, End := 0, Sort' := "", Limit := 1 } 1 10 [floatSource] ()
      [{ Name := "a", Unit := "", Time := { bits := 0 }, Value := some { bits := 42 },
         StringValue := "", BoolValue := none },
       { Name := "a", Unit := "", Time := { bits := 0 }, Value := some { bits := 43 },
         StringValue := "", BoolValue := none }] 1
      (by decide) (by decide)).1, by decide⟩


/-- C14 fails as stated: with per-item limits that are all 0, the limit 1 and one stream
whose count is 2, `Query` returns no records and the total 1, not the sum 2 of the counts. -/
theorem C14_counterexample_limit_overrides_total :
    (zeroPageEnv.PerItemPagination 1 3 1 1).1 = [0] ∧
    (InfluxStorage.Query recordsClient zeroPageEnv exampleConfig
      { Start := 0, End := 0, Sort' := "", Limit := 1 } 3 1 [floatSource] ()).val
      = Outcome.ret ([], 1, none) ∧
    ((InfluxStorage.Query recordsClient zeroPageEnv exampleConfig
      { Start := 0, End := 0, Sort' := "", Limit := 1 } 3 1 [floatSource] ()).calls.map
      loggedCount).sum = 2 := by
  refine ⟨by decide, by decide, by decide⟩

/-- C14, amended: when `Query` returns without error, its records are the records the logged
selections contribute, and a selection with limit 0 contributes none, whatever rows the
engine returns for it, while the count of its stream is in the total; when the per-item
limits are all 0 the record list is empty and the total is the sum of the counts, replaced
by `q.Limit` when `0 < q.Limit < sum`; for a limit of 0 or less it is the sum. The sum of
the counts is taken to fit `int64`. -/
theorem C14_limit_zero_appends_nothing {σ : Type} (cl : Client σ) (env : Env)
    (config : influxStorageConfig) (q : Query) (page perPage : Int)
    (sources : List DataSource) (eng : σ) (pack : List Record) (total : Int)
    (hsucc : (InfluxStorage.Query cl env config q page perPage sources eng).val
      = Outcome.ret (pack, total, none))
    (hfit : ((InfluxStorage.Query cl env config q page perPage sources eng).calls.map
      loggedCount).sum ≤ 9223372036854775807) :
    (∀ src cond sort offset reply,
      loggedRecords env (Call.query (Stmt.select src cond sort 0 offset) reply) = []) ∧
    pack = ((InfluxStorage.Query cl env config q page perPage sources eng).calls.map
      (loggedRecords env)).flatten ∧
    total = limitedTotal q.Limit
      ((InfluxStorage.Query cl env config q page perPage sources eng).calls.map
        loggedCount).sum ∧
    ((∀ x ∈ (env.PerItemPagination q.Limit page perPage sources.length).1, x = 0) →
      pack = [] ∧
      (q.Limit ≤ 0 →
        total = ((InfluxStorage.Query cl env config q page perPage sources eng).calls.map
          loggedCount).sum)) := by
  obtain ⟨q1, t0, hq1, hloop, htotal⟩ :=
    Query_success cl env config q page perPage sources eng pack total hsucc
  obtain ⟨_, _, _, hlim⟩ := clampStart_ok q q1 hq1
  rw [Query_calls cl env config q q1 page perPage sources eng hq1] at hfit ⊢
  obtain ⟨hpack, _, hsel, hsum⟩ := queryLoop_success cl env config _ _ _ _ sources 0 [] 0 eng
    pack t0 hloop
  have ht0 := hsum (le_refl 0) (by simpa using hfit)
  rw [zero_add] at ht0
  rw [List.nil_append] at hpack
  refine ⟨?_, hpack, by rw [← ht0]; exact htotal, ?_⟩
  · intro src cond sort offset reply
    simp [loggedRecords]
  · intro hzero
    rw [hlim] at hsel
    constructor
    · rw [hpack, List.flatten_eq_nil_iff]
      intro l hl
      rw [List.mem_map] at hl
      obtain ⟨c, hc, rfl⟩ := hl
      cases c with
      | write bp err => rfl
      | query stmt reply =>
        cases stmt with
        | select src cond sort limit offset =>
          have hmem : limit ∈ selectLimits (queryLoop cl env config (timeCondOf q1)
              (if q1.Sort' = ASC then "ASC" else "DESC")
              (env.PerItemPagination q1.Limit page perPage sources.length).1
              (env.PerItemPagination q1.Limit page perPage sources.length).2 0 sources [] 0
              eng).calls := by
            unfold selectLimits
            rw [List.mem_filterMap]
            exact ⟨_, hc, rfl⟩
          rw [hlim] at hmem
          have := hzero limit (hsel limit hmem)
          subst this
          simp [loggedRecords]
        | countWhere _ _ _ => rfl
        | countGroupByAll _ _ => rfl
        | selectIntoAfter _ _ _ => rfl
        | selectInto _ _ => rfl
        | deleteFrom _ => rfl
        | dropMeasurement _ => rfl
    · intro hle
      rw [htotal, ← ht0]
      unfold limitedTotal
      rw [if_neg (fun hc => absurd hc.1 (not_lt.2 hle))]

/-- Witness of C14: per-item limits all 0 with the limit 0, over one stream whose count is
2: no records. -/
theorem C14_limit_zero_appends_nothing_witness :
    ([] : List Record) = ((InfluxStorage.Query recordsClient zeroPageEnv exampleConfig
      { Start := 0, End := 0, Sort' := "", Limit := 0 } 1 10 [floatSource] ()).calls.map
      (loggedRecords zeroPageEnv)).flatten ∧
    (2 : Int) = limitedTotal 0
      ((InfluxStorage.Query recordsClient zeroPageEnv exampleConfig
        { Start := 0, End := 0, Sort' := "", Limit := 0 } 1 10 [floatSource] ()).calls.map
        loggedCount).sum :=
  ⟨(C14_limit_zero_appends_nothing recordsClient zeroPageEnv exampleConfig
      { Start := 0, End := 0, Sort' := "", Limit := 0 } 1 10 [floatSource] () [] 2
      (by decide) (by decide)).2.1,
   (C14_limit_zero_appends_nothing recordsClient zeroPageEnv exampleConfig
      { Start := 0, End := 0, Sort' := "", Limit := 0 } 1 10 [floatSource] () [] 2
      (by decide) (by decide)).2.2.1⟩


/-- C15: every selection `Query` sends is ordered by time `ASC` when `q.Sort` is the constant
`ASC` and by time `DESC` for every other value, and the selections are sent: with streams
to query and a query that passes the time validation the first call is the count command of
the first stream; when `Query` returns without error the count command of every stream is in
the log with an answer that reads as a count, and every count command answered with at least
1 comes with a selection from the same measurement carrying that order. `ParseQueryParameters` returns the sort `ASC`
exactly when the parameter `sort` is `ASC`, and `DESC` otherwise, so that its sort is always
one of the two constants. -/
theorem C15_sort_order {σ : Type} (cl : Client σ) (env : Env)
    (config : influxStorageConfig) (q : Query) (page perPage : Int)
    (sources : List DataSource) (eng : σ)
    (timeParse atoi : String → Option Int) (form : List (String × List String)) :
    (∀ src cond sort limit offset reply,
      Call.query (Stmt.select src cond sort limit offset) reply ∈
        (InfluxStorage.Query cl env config q page perPage sources eng).calls →
      (q.Sort' = ASC → sort = "ASC") ∧ (q.Sort' ≠ ASC → sort = "DESC")) ∧
    (∀ q1 ds rest, clampStart q = Except.ok q1 → sources = ds :: rest →
      (InfluxStorage.Query cl env config q page perPage sources eng).calls.head? =
        some (Call.query
          (Stmt.countWhere (FieldForType ds.Type')
            (measurementFQ config ds.Retention (MeasurementName ds.ID)) (timeCondOf q1))
          (cl.Query (Stmt.countWhere (FieldForType ds.Type')
            (measurementFQ config ds.Retention (MeasurementName ds.ID)) (timeCondOf q1))
            eng).1)) ∧
    (∀ pack total, (InfluxStorage.Query cl env config q page perPage sources eng).val
        = Outcome.ret (pack, total, none) →
      (∀ ds ∈ sources, ∃ cond reply count,
        Call.query (Stmt.countWhere (FieldForType ds.Type')
          (measurementFQ config ds.Retention (MeasurementName ds.ID)) cond) reply ∈
          (InfluxStorage.Query cl env config q page perPage sources eng).calls ∧
        countOfReply reply = Outcome.ret (count, none)) ∧
      (∀ field src cond reply count,
        Call.query (Stmt.countWhere field src cond) reply ∈
          (InfluxStorage.Query cl env config q page perPage sources eng).calls →
        countOfReply reply = Outcome.ret (count, none) → 1 ≤ count →
        ∃ perItem offset reply2,
          Call.query (Stmt.select src cond (if q.Sort' = ASC then "ASC" else "DESC")
            perItem offset) reply2 ∈
            (InfluxStorage.Query cl env config q page perPage sources eng).calls)) ∧
    ((ParseQueryParameters timeParse atoi form).Sort' = ASC ↔ formGet form ParamSort = ASC) ∧
    (formGet form ParamSort ≠ ASC → (ParseQueryParameters timeParse atoi form).Sort' = DESC) ∧
    ((ParseQueryParameters timeParse atoi form).Sort' = ASC ∨
      (ParseQueryParameters timeParse atoi form).Sort' = DESC) := by
  have hne : ASC ≠ DESC := by decide
  have hne2 : ¬ (ASC = "") := by decide
  refine ⟨?_, ?_, ?_, ?_, ?_, ?_⟩
  · intro src cond sort limit offset reply hc
    cases hq : clampStart q with
    | error e =>
      unfold InfluxStorage.Query at hc
      simp [hq] at hc
    | ok q1 =>
      obtain ⟨_, _, hsort, _⟩ := clampStart_ok q q1 hq
      rw [Query_calls cl env config q q1 page perPage sources eng hq] at hc
      obtain ⟨reply1, h | h⟩ :=
        queryLoop_calls_shape cl env config _ _ _ _ sources 0 [] 0 eng _ hc
      · obtain ⟨_, _, h⟩ := h
        cases h
      · obtain ⟨_, _, _, h⟩ := h
        simp only [Call.query.injEq, Stmt.select.injEq] at h
        rw [hsort] at h
        rw [h.1.2.2.1]
        constructor
        · intro ha
          simp [ha]
        · intro ha
          simp [ha]
  · intro q1 ds rest hq1 hsrc
    subst hsrc
    rw [Query_calls cl env config q q1 page perPage (ds :: rest) eng hq1,
      queryLoop_first_call]
  · intro pack total hsucc
    obtain ⟨q1, t0, hq1, hloop, _⟩ :=
      Query_success cl env config q page perPage sources eng pack total hsucc
    obtain ⟨_, _, hsort, _⟩ := clampStart_ok q q1 hq1
    constructor
    · intro ds hds
      rw [Query_calls cl env config q q1 page perPage sources eng hq1]
      obtain ⟨reply, count, hm, hc⟩ :=
        (queryLoop_success_sent cl env config _ _ _ _ sources 0 [] 0 eng pack t0 hloop).1
          ds hds
      exact ⟨_, reply, count, hm, hc⟩
    intro field src cond reply count hmem hcount hone
    rw [Query_calls cl env config q q1 page perPage sources eng hq1] at hmem ⊢
    have hcond : cond = timeCondOf q1 := by
      obtain ⟨reply1, h | h⟩ :=
        queryLoop_calls_shape cl env config _ _ _ _ sources 0 [] 0 eng _ hmem
      · obtain ⟨_, _, h⟩ := h
        simp only [Call.query.injEq, Stmt.countWhere.injEq] at h
        exact h.1.2.2
      · obtain ⟨_, _, _, h⟩ := h
        cases h
    subst hcond
    rw [← hsort]
    exact (queryLoop_success_sent cl env config _ _ _ _ sources 0 [] 0 eng pack t0 hloop).2
      field src reply count hmem hcount hone
  · unfold ParseQueryParameters
    simp only []
    by_cases h : formGet form ParamSort = ASC
    · simp [h, hne2]
    · simp only [h, ne_eq, not_false_eq_true, or_true, if_true, iff_false]
      exact fun hc => hne hc.symm
  · intro h
    unfold ParseQueryParameters
    simp [h]
  · unfold ParseQueryParameters
    simp only []
    by_cases h : formGet form ParamSort = ASC
    · left
      simp [h, hne2]
    · right
      simp [h]

/-- Witness of C15: over one stream whose count is 2, the query with the sort `ASC` sends
the selection ordered `ASC`, and the query with an unrecognised sort sends it ordered
`DESC`. -/
theorem C15_sort_order_witness :
    (∃ perItem offset reply2,
      Call.query (Stmt.select (measurementFQ exampleConfig "" "data_a")
        (TimeCond.mk 0 none)
        (if ({ Start := 0, End := 0, Sort' := ASC, Limit := -1 } : Query).Sort' = ASC
          then "ASC" else "DESC") perItem offset) reply2 ∈
        (InfluxStorage.Query recordsClient exampleEnv exampleConfig
          { Start := 0, End := 0, Sort' := ASC, Limit := -1 } 1 10 [floatSource] ()).calls) ∧
    (∃ perItem offset reply2,
      Call.query (Stmt.select (measurementFQ exampleConfig "" "data_a")
        (TimeCond.mk 0 none)
        (if ({ Start := 0, End := 0, Sort' := "up", Limit := -1 } : Query).Sort' = ASC
          then "ASC" else "DESC") perItem offset) reply2 ∈
        (InfluxStorage.Query recordsClient exampleEnv exampleConfig
          { Start := 0, End := 0, Sort' := "up", Limit := -1 } 1 10 [floatSource] ()).calls) ∧
    (if ({ Start := 0, End := 0, Sort' := ASC, Limit := -1 } : Query).Sort' = ASC
      then "ASC" else "DESC") = "ASC" ∧
    (if ({ Start := 0, End := 0, Sort' := "up", Limit := -1 } : Query).Sort' = ASC
      then "ASC" else "DESC") = "DESC" :=
  ⟨((C15_sort_order recordsClient exampleEnv exampleConfig
      { Start := 0, End := 0, Sort' := ASC, Limit := -1 } 1 10 [floatSource] ()
      exampleTimeParse exampleAtoi []).2.2.1
      [{ Name := "a", Unit := "", Time := { bits := 0 }, Value := some { bits := 42 },
         StringValue := "", BoolValue := none },
       { Name := "a", Unit := "", Time := { bits := 0 }, Value := some { bits := 43 },
         StringValue := "", BoolValue := none }] 2 (by decide)).2
      "value" (measurementFQ exampleConfig "" "data_a") (TimeCond.mk 0 none)
      (recordsClient.Query (Stmt.countWhere "value" (measurementFQ exampleConfig "" "data_a")
        (TimeCond.mk 0 none)) ()).1 2 (by decide) (by decide) (by decide),
   ((C15_sort_order recordsClient exampleEnv exampleConfig
      { Start := 0, End := 0, Sort' := "up", Limit := -1 } 1 10 [floatSource] ()
      exampleTimeParse exampleAtoi []).2.2.1
      [{ Name := "a", Unit := "", Time := { bits := 0 }, Value := some { bits := 42 },
         StringValue := "", BoolValue := none },
       { Name := "a", Unit := "", Time := { bits := 0 }, Value := some { bits := 43 },
         StringValue := "", BoolValue := none }] 2 (by decide)).2
      "value" (measurementFQ exampleConfig "" "data_a") (TimeCond.mk 0 none)
      (recordsClient.Query (Stmt.countWhere "value" (measurementFQ exampleConfig "" "data_a")
        (TimeCond.mk 0 none)) ()).1 2 (by decide) (by decide) (by decide),
   by decide, by decide⟩

/-- C16: the fully qualified target of a stream is `"db"."policy_p"."data_id"` for a
non-empty retention period `p` and `"db"."autogen"."data_id"` for the empty one; the
measurement name is `data_` followed by the id and the policy name `policy_` followed by the
period, or `autogen`. -/
theorem C16_fully_qualified_name (config : influxStorageConfig) (id p : String) :
    MeasurementName id = "data_" ++ id ∧
    (p ≠ "" → RetentionPolicyName p = "policy_" ++ p) ∧
    RetentionPolicyName "" = "autogen" ∧
    (p ≠ "" → MeasurementNameFQ config p (MeasurementName id)
      = "\"" ++ config.database ++ "\".\"policy_" ++ p ++ "\".\"data_" ++ id ++ "\"") ∧
    MeasurementNameFQ config "" (MeasurementName id)
      = "\"" ++ config.database ++ "\".\"autogen\".\"data_" ++ id ++ "\"" ∧
    (measurementFQ config p (MeasurementName id)).text
      = MeasurementNameFQ config p (MeasurementName id) := by
  have hsplit1 : ∀ x : String, "\".\"policy_" ++ x = "\".\"" ++ ("policy_" ++ x) := by
    intro x
    rw [← String.append_assoc]
    rfl
  have hsplit2 : ∀ x : String, "\".\"data_" ++ x = "\".\"" ++ ("data_" ++ x) := by
    intro x
    rw [← String.append_assoc]
    rfl
  refine ⟨rfl, ?_, rfl, ?_, ?_, ?_⟩
  · intro h
    simp [RetentionPolicyName, h]
  · intro h
    simp only [MeasurementNameFQ, RetentionPolicyName, MeasurementName, h, if_false,
      String.append_assoc, hsplit1, hsplit2]
  · have h3 : "\".\"autogen\".\"data_" ++ id = "\".\"" ++ ("autogen" ++ ("\".\"" ++ ("data_" ++ id))) := by
      simp only [← String.append_assoc]
      rfl
    simp only [MeasurementNameFQ, RetentionPolicyName, MeasurementName, if_true,
      String.append_assoc, h3]
  · simp only [FQName.text, measurementFQ, MeasurementNameFQ, if_true, String.append_assoc]
    have h4 : ∀ x : String, "\".\"" ++ x = "\"" ++ (".\"" ++ x) := by
      intro x
      rw [← String.append_assoc]
      rfl
    simp only [h4]

/-- Witness of C16: the stream `a` of database `hds` with retention `1h`. -/
theorem C16_fully_qualified_name_witness :
    MeasurementNameFQ exampleConfig "1h" (MeasurementName "a")
      = "\"" ++ exampleConfig.database ++ "\".\"policy_" ++ "1h" ++ "\".\"data_" ++ "a" ++ "\"" ∧
    MeasurementNameFQ exampleConfig "1h" (MeasurementName "a")
      = "\"hds\".\"policy_1h\".\"data_a\"" :=
  ⟨(C16_fully_qualified_name exampleConfig "a" "1h").2.2.2.1 (by decide), by decide⟩

/-- C17: every point `Submit` writes is the point of a record of the batch, and its fields
are: the single field `value` when the record has a `Value`; else the single field
`stringValue` when its `StringValue` is not empty; else the single field `booleanValue` when it
has a `BoolValue`; else no field. There is never more than one field. -/
theorem C17_at_most_one_field {σ : Type} (cl : Client σ) (env : Env)
    (config : influxStorageConfig) (data : List (String × List Record))
    (sources : List (String × DataSource)) (eng : σ) (dp : Record) :
    (∀ bp err pt, Call.write bp err ∈ (Submit cl env config data sources eng).calls →
      pt ∈ bp.points → ∃ id dps r, (id, dps) ∈ data ∧ r ∈ dps ∧ pt.fields = fieldsOf r) ∧
    (fieldsOf dp).length ≤ 1 ∧
    (∀ v, dp.Value = some v → fieldsOf dp = [("value", FieldValue.float v)]) ∧
    (dp.Value = none → dp.StringValue ≠ "" →
      fieldsOf dp = [("stringValue", FieldValue.string dp.StringValue)]) ∧
    (∀ b, dp.Value = none → dp.StringValue = "" → dp.BoolValue = some b →
      fieldsOf dp = [("booleanValue", FieldValue.bool b)]) ∧
    (dp.Value = none → dp.StringValue = "" → dp.BoolValue = none → fieldsOf dp = []) := by
  refine ⟨?_, ?_, ?_, ?_, ?_, ?_⟩
  · intro bp err pt hcall hpt
    obtain ⟨id, dps, src, hmem, _, hpoints, _⟩ :=
      Submit_write_mem cl env config data sources eng bp err hcall
    rw [hpoints, List.mem_map] at hpt
    obtain ⟨r, hr, rfl⟩ := hpt
    exact ⟨id, dps, r, hmem, hr, rfl⟩
  · unfold fieldsOf
    cases dp.Value with
    | some v => simp [mapPut]
    | none =>
      by_cases hs : dp.StringValue = ""
      · cases dp.BoolValue <;> simp [hs, mapPut]
      · simp [hs, mapPut]
  · intro v hv
    simp [fieldsOf, hv, mapPut]
  · intro hv hs
    simp [fieldsOf, hv, hs, mapPut]
  · intro b hv hs hb
    simp [fieldsOf, hv, hs, hb, mapPut]
  · intro hv hs hb
    simp [fieldsOf, hv, hs, hb]


/-! ### Submit and serieToRecords -/

/-- C18: for a record with exactly one value, the series made of the tags and the field that
`Submit` writes for it, with a number that reads back as the float written, is decoded by
`serieToRecords` to one record with the same name, unit and value fields. -/
theorem C18_submit_decode_roundtrip (env : Env) (enc : F64 → JsonNumber) (id : String)
    (dp : Record) (henc : ∀ v, (enc v).float64 = some v) (hone : exactlyOneValue dp) :
    ∃ r, serieToRecords env (rowOfPoint enc (pointOf env id dp)) = Outcome.ret ([r], none) ∧
      r.Name = dp.Name ∧ r.Unit = dp.Unit ∧ r.Value = dp.Value ∧
      r.StringValue = dp.StringValue ∧ r.BoolValue = dp.BoolValue := by
  rcases hone with ⟨hv, hs, hb⟩ | ⟨hv, hs, hb⟩ | ⟨hv, hs, hb⟩
  · cases hval : dp.Value with
    | none => exact absurd hval hv
    | some v =>
      by_cases hu : dp.Unit = ""
      · simp [serieToRecords, rowsToRecords, rowToRecord, setColumn, rowOfPoint, pointOf,
          tagsOf, fieldsOf, mapPut, cellOf, zeroRecord, hval, hs, hb, hu, henc]
      · simp [serieToRecords, rowsToRecords, rowToRecord, setColumn, rowOfPoint, pointOf,
          tagsOf, fieldsOf, mapPut, cellOf, zeroRecord, hval, hs, hb, hu, henc]
  · by_cases hu : dp.Unit = ""
    · simp [serieToRecords, rowsToRecords, rowToRecord, setColumn, rowOfPoint, pointOf,
        tagsOf, fieldsOf, mapPut, cellOf, zeroRecord, hv, hs, hb, hu]
    · simp [serieToRecords, rowsToRecords, rowToRecord, setColumn, rowOfPoint, pointOf,
        tagsOf, fieldsOf, mapPut, cellOf, zeroRecord, hv, hs, hb, hu]
  · cases hbv : dp.BoolValue with
    | none => exact absurd hbv hb
    | some bv =>
      by_cases hu : dp.Unit = ""
      · simp [serieToRecords, rowsToRecords, rowToRecord, setColumn, rowOfPoint, pointOf,
          tagsOf, fieldsOf, mapPut, cellOf, zeroRecord, hv, hs, hbv, hu]
      · simp [serieToRecords, rowsToRecords, rowToRecord, setColumn, rowOfPoint, pointOf,
          tagsOf, fieldsOf, mapPut, cellOf, zeroRecord, hv, hs, hbv, hu]

/-- Witness of C18: the record with a number. -/
theorem C18_submit_decode_roundtrip_witness :
    ∃ r, serieToRecords exampleEnv (rowOfPoint exampleEnc (pointOf exampleEnv "a"
        (numberRecord "a"))) = Outcome.ret ([r], none) ∧
      r.Name = (numberRecord "a").Name ∧ r.Unit = (numberRecord "a").Unit ∧
      r.Value = (numberRecord "a").Value ∧
      r.StringValue = (numberRecord "a").StringValue ∧
      r.BoolValue = (numberRecord "a").BoolValue :=
  C18_submit_decode_roundtrip exampleEnv exampleEnc "a" (numberRecord "a") (fun _ => rfl)
    (Or.inl ⟨by decide, rfl, rfl⟩)

/-! ### Register, unregister and the update handler -/

theorem mapGet_mapDelete_self {V : Type} (m : List (String × V)) (k : String) :
    mapGet (mapDelete m k) k = none := by
  induction m with
  | nil => rfl
  | cons p rest ih =>
    obtain ⟨k1, v⟩ := p
    by_cases h : k1 = k
    · simp only [mapDelete, List.filter, h, ne_eq, not_true_eq_false, decide_False] at ih ⊢
      exact ih
    · simp only [mapDelete, List.filter, h, ne_eq, not_false_eq_true, decide_True, mapGet,
        if_false] at ih ⊢
      exact ih

theorem mapPut_ne_nil {V : Type} (m : List (String × V)) (k : String) (v : V) :
    mapPut m k v ≠ [] := by
  cases m with
  | nil => simp [mapPut]
  | cons p rest =>
    obtain ⟨k1, v1⟩ := p
    by_cases h : k1 = k <;> simp [mapPut, h]

/-- A call of `register` leaves the cache and the failed registrations as they are. -/
theorem register_frame (b : Broker) (c : MQTTConnector) (src : MQTTSource) :
    (register b c src).1.cache = c.cache ∧
    (register b c src).1.failedRegistrations = c.failedRegistrations := by
  unfold register
  cases mapGet c.managers src.BrokerURL with
  | none =>
    simp only []
    cases b.connect src.BrokerURL <;> exact ⟨rfl, rfl⟩
  | some manager =>
    simp only []
    cases mapGet manager.subscriptions src.Topic with
    | none =>
      simp only []
      cases b.subscribe manager.url src.Topic <;> exact ⟨rfl, rfl⟩
    | some sub => exact ⟨rfl, rfl⟩

/-- A call of `unregister` leaves the cache and the failed registrations as they are. -/
theorem unregister_frame (b : Broker) (c : MQTTConnector) (src : MQTTSource) :
    (unregister b c src).1.cache = c.cache ∧
    (unregister b c src).1.failedRegistrations = c.failedRegistrations := by
  unfold unregister disconnectIfEmpty
  cases mapGet c.managers src.BrokerURL with
  | none => exact ⟨rfl, rfl⟩
  | some manager =>
    simp only []
    cases mapGet manager.subscriptions src.Topic with
    | none => exact ⟨rfl, rfl⟩
    | some sub =>
      simp only []
      split
      · cases b.unsubscribe manager.url src.Topic with
        | some e => exact ⟨rfl, rfl⟩
        | none =>
          simp only []
          split <;> exact ⟨rfl, rfl⟩
      · split <;> exact ⟨rfl, rfl⟩

/-- The cache after `UpdateHandler`: flushed when the retention changed, else as before. -/
theorem UpdateHandler_cache (b : Broker) (c : MQTTConnector) (oldDS newDS : DataStream)
    (samePointer : Bool) :
    (UpdateHandler b c oldDS newDS samePointer).1.cache =
      (if oldDS.Retention ≠ newDS.Retention then flushCache c else c).cache := by
  unfold UpdateHandler
  generalize (if oldDS.Retention ≠ newDS.Retention then flushCache c else c) = c0
  simp only []
  split
  · cases hold : oldDS.Source.MQTTSource with
    | none =>
      simp only []
      cases hnew : newDS.Source.MQTTSource with
      | none => rfl
      | some src =>
        simp only []
        have hf := (register_frame b
          { c0 with failedRegistrations := mapDelete c0.failedRegistrations oldDS.Name } src).1
        split
        · rename_i c3 e hr
          rw [hr] at hf
          exact hf
        · rename_i c3 hr
          rw [hr] at hf
          exact hf
    | some osrc =>
      simp only []
      have hu := (unregister_frame b c0 osrc).1
      rcases hr : unregister b c0 osrc with ⟨c1, o⟩
      rw [hr] at hu
      cases o with
      | panic msg => exact hu
      | ret err =>
        cases err with
        | some e => exact hu
        | none =>
          simp only []
          cases hnew : newDS.Source.MQTTSource with
          | none => exact hu
          | some src =>
            simp only []
            have hf := (register_frame b
              { c1 with failedRegistrations := mapDelete c1.failedRegistrations oldDS.Name }
              src).1
            split
            · rename_i c3 e hr3
              rw [hr3] at hf
              exact hf.trans hu
            · rename_i c3 hr3
              rw [hr3] at hf
              exact hf.trans hu
  · rfl

/-- The cache after `DeleteHandler` is empty. -/
theorem DeleteHandler_cache (b : Broker) (c : MQTTConnector) (oldDS : DataStream) :
    (DeleteHandler b c oldDS).1.cache = [] := by
  unfold DeleteHandler
  cases hold : oldDS.Source.MQTTSource with
  | none => rfl
  | some src =>
    simp only []
    have hu := (unregister_frame b
      { flushCache c with cache := mapDelete (flushCache c).cache oldDS.Name } src).1
    rcases hr : unregister b
      { flushCache c with cache := mapDelete (flushCache c).cache oldDS.Name } src with ⟨c2, o⟩
    rw [hr] at hu
    have hc2 : c2.cache = [] := by
      rw [hu]
      rfl
    cases o with
    | panic msg => exact hc2
    | ret err =>
      cases err with
      | some e => exact hc2
      | none => exact hc2

/-- C19: an update that changes only the source of a stream leaves its cached snapshot in
place. The cache holds the snapshot of `s4` with topic `t`; the update moves `s4` to topic
`t2` with the same retention, returns nil and subscribes `t2`, but the cache still holds the
snapshot with topic `t`. A record for `s4` arriving on `t2`, which the registry now gives as
its topic, is then refused as unwanted (status 406) and nothing is submitted. The sibling
paths invalidate the snapshot: after `DeleteHandler` the cache is empty, and after the same
update with a changed retention the cache is empty and the record arriving on `t2` is
submitted. -/
theorem C19_update_keeps_stale_snapshot :
    mapGet warmConnector.cache "s4" = some (mqttStream "s4") ∧
    (mqttStream "s4").Retention = movedStream.Retention ∧
    (UpdateHandler acceptingBroker warmConnector (mqttStream "s4") movedStream false).2
      = Outcome.ret none ∧
    mapGet (UpdateHandler acceptingBroker warmConnector (mqttStream "s4") movedStream
      false).1.cache "s4" = some (mqttStream "s4") ∧
    subscriptionOf (UpdateHandler acceptingBroker warmConnector (mqttStream "s4") movedStream
      false).1 "tcp://b:1883" "t2"
      = some { url := "tcp://b:1883", topic := "t2", qos := 1, receivers := 1 } ∧
    (onMessage s4Decode (fun _ => GetResult.found movedStream) (fun _ _ => none)
      (UpdateHandler acceptingBroker warmConnector (mqttStream "s4") movedStream false).1
      "tcp://b:1883" "t2" "").log = [(406, "s4")] ∧
    (onMessage s4Decode (fun _ => GetResult.found movedStream) (fun _ _ => none)
      (UpdateHandler acceptingBroker warmConnector (mqttStream "s4") movedStream false).1
      "tcp://b:1883" "t2" "").submitted = none ∧
    (DeleteHandler acceptingBroker warmConnector (mqttStream "s4")).1.cache = [] ∧
    (UpdateHandler acceptingBroker warmConnector (mqttStream "s4") movedRetainedStream
      false).1.cache = [] ∧
    submittedRecords
      (onMessage s4Decode (fun _ => GetResult.found movedRetainedStream) (fun _ _ => none)
        (UpdateHandler acceptingBroker warmConnector (mqttStream "s4") movedRetainedStream
          false).1 "tcp://b:1883" "t2" "") = [numberRecord "s4"] := by
  refine ⟨by decide, by decide, by decide, by decide, by decide, by decide, by decide,
    by decide, by decide, by decide⟩


/-- A successful `register`: the subscription of the source gains one receiver, and one
with a single receiver is created when there was none. -/
theorem register_success (b : Broker) (c c3 : MQTTConnector) (src : MQTTSource)
    (h : register b c src = (c3, none)) :
    receiversOf c3 src.BrokerURL src.Topic = receiversOf c src.BrokerURL src.Topic + 1 ∧
    (subscriptionOf c src.BrokerURL src.Topic = none →
      ∃ s, subscriptionOf c3 src.BrokerURL src.Topic = some s ∧ s.receivers = 1) := by
  unfold register at h
  cases hm : mapGet c.managers src.BrokerURL with
  | none =>
    simp only [hm] at h
    cases hconn : b.connect src.BrokerURL with
    | some e => simp [hconn] at h
    | none =>
      simp only [hconn, Prod.mk.injEq, and_true] at h
      subst h
      simp [receiversOf, subscriptionOf, hm, mapGet_mapPut, mapPut, mapGet]
  | some manager =>
    simp only [hm] at h
    cases hs : mapGet manager.subscriptions src.Topic with
    | none =>
      simp only [hs] at h
      cases hsub : b.subscribe manager.url src.Topic with
      | some e => simp [hsub] at h
      | none =>
        simp only [hsub, Prod.mk.injEq, and_true] at h
        subst h
        simp [receiversOf, subscriptionOf, hm, hs, mapGet_mapPut]
    | some sub =>
      simp only [hs, Prod.mk.injEq, and_true] at h
      subst h
      simp [receiversOf, subscriptionOf, hm, hs, mapGet_mapPut]

/-- A successful `unregister`: without a manager for the broker nothing changes; with one,
the subscription of the source loses one receiver, is removed when it had a single receiver,
and a manager that is left for the broker has a subscription. -/
theorem unregister_success (b : Broker) (c c1 : MQTTConnector) (src : MQTTSource)
    (h : unregister b c src = (c1, Outcome.ret none)) :
    (mapGet c.managers src.BrokerURL = none → c1 = c) ∧
    (mapGet c.managers src.BrokerURL ≠ none →
      receiversOf c1 src.BrokerURL src.Topic = receiversOf c src.BrokerURL src.Topic - 1 ∧
      (receiversOf c src.BrokerURL src.Topic = 1 →
        subscriptionOf c1 src.BrokerURL src.Topic = none) ∧
      (∀ m, mapGet c1.managers src.BrokerURL = some m → m.subscriptions ≠ [])) := by
  unfold unregister at h
  cases hm : mapGet c.managers src.BrokerURL with
  | none =>
    simp only [hm, Prod.mk.injEq, and_true] at h
    exact ⟨fun _ => h.symm, fun hc => absurd rfl hc⟩
  | some manager =>
    refine ⟨fun hc => Option.noConfusion hc, fun _ => ?_⟩
    simp only [hm] at h
    cases hs : mapGet manager.subscriptions src.Topic with
    | none => simp [hs] at h
    | some sub =>
      simp only [hs] at h
      by_cases hz : sub.receivers - 1 = 0
      · simp only [hz, if_true] at h
        cases hun : b.unsubscribe manager.url src.Topic with
        | some e => simp [hun] at h
        | none =>
          simp only [hun, disconnectIfEmpty] at h
          split at h
          · simp only [Prod.mk.injEq, and_true] at h
            subst h
            simp [receiversOf, subscriptionOf, hm, hs, mapGet_mapDelete_self, hz]
          · rename_i hlen
            simp only [Prod.mk.injEq, and_true] at h
            subst h
            refine ⟨?_, ?_, ?_⟩
            · simp [receiversOf, hm, hs, mapGet_mapPut, mapGet_mapDelete_self, hz]
            · intro _
              simp [subscriptionOf, mapGet_mapPut, mapGet_mapDelete_self]
            · intro m hmm
              simp only [mapGet_mapPut, if_true, Option.some.injEq] at hmm
              subst hmm
              intro hnil
              simp only at hnil
              rw [hnil] at hlen
              exact hlen rfl
      · simp only [hz, if_false, disconnectIfEmpty] at h
        have hlen : ¬ (mapPut manager.subscriptions src.Topic
            { sub with receivers := sub.receivers - 1 }).length = 0 := by
          rw [List.length_eq_zero]
          exact mapPut_ne_nil _ _ _
        simp only [hlen, if_false, Prod.mk.injEq, and_true] at h
        subst h
        refine ⟨?_, ?_, ?_⟩
        · simp [receiversOf, hm, hs, mapGet_mapPut]
        · intro h1
          simp only [receiversOf, hm, hs] at h1
          omega
        · intro m hmm
          simp only [mapGet_mapPut, if_true, Option.some.injEq] at hmm
          subst hmm
          exact mapPut_ne_nil _ _ _


/-- A successful `UpdateHandler` whose source pointers differ: the old source, if any, was
unregistered with success, giving the connector `mid`; then the entry of the stream was
deleted from the failed registrations and the new source, if any, was registered with
success, giving the final connector. -/
theorem UpdateHandler_changed (b : Broker) (c : MQTTConnector) (oldDS newDS : DataStream)
    (samePointer : Bool)
    (hdiff : pointersDiffer oldDS.Source.MQTTSource newDS.Source.MQTTSource samePointer = true)
    (hsucc : (UpdateHandler b c oldDS newDS samePointer).2 = Outcome.ret none) :
    ∃ mid : MQTTConnector,
      (∀ src, oldDS.Source.MQTTSource = some src →
        unregister b (if oldDS.Retention ≠ newDS.Retention then flushCache c else c) src
          = (mid, Outcome.ret none)) ∧
      (oldDS.Source.MQTTSource = none →
        mid = (if oldDS.Retention ≠ newDS.Retention then flushCache c else c)) ∧
      (∀ src, newDS.Source.MQTTSource = some src →
        register b
          { mid with failedRegistrations := mapDelete mid.failedRegistrations oldDS.Name } src
          = ((UpdateHandler b c oldDS newDS samePointer).1, none)) ∧
      (newDS.Source.MQTTSource = none →
        (UpdateHandler b c oldDS newDS samePointer).1 =
          { mid with failedRegistrations := mapDelete mid.failedRegistrations oldDS.Name }) := by
  unfold UpdateHandler at hsucc ⊢
  generalize (if oldDS.Retention ≠ newDS.Retention then flushCache c else c) = c0 at hsucc ⊢
  simp only [hdiff, if_true] at hsucc ⊢
  cases hold : oldDS.Source.MQTTSource with
  | none =>
    simp only [hold] at hsucc ⊢
    refine ⟨c0, fun src h => Option.noConfusion h, fun _ => rfl, ?_, ?_⟩
    · intro src hnew
      simp only [hnew] at hsucc ⊢
      rcases hr : register b
        { c0 with failedRegistrations := mapDelete c0.failedRegistrations oldDS.Name } src with
        ⟨c3, e⟩
      try rw [hr] at hsucc
      cases e with
      | some e => simp at hsucc
      | none => rfl
    · intro hnew
      simp only [hnew]
  | some osrc =>
    simp only [hold] at hsucc ⊢
    rcases hr : unregister b c0 osrc with ⟨c1, o⟩
    try rw [hr] at hsucc
    cases o with
    | panic msg => simp at hsucc
    | ret err =>
      cases err with
      | some e => simp at hsucc
      | none =>
        simp only at hsucc ⊢
        refine ⟨c1, ?_, fun h => Option.noConfusion h, ?_, ?_⟩
        · intro src hsrc
          simp only [Option.some.injEq] at hsrc
          subst hsrc
          exact hr
        · intro src hnew
          simp only [hnew] at hsucc ⊢
          rcases hr3 : register b
            { c1 with failedRegistrations := mapDelete c1.failedRegistrations oldDS.Name }
            src with ⟨c3, e⟩
          try rw [hr3] at hsucc
          cases e with
          | some e => simp at hsucc
          | none => rfl
        · intro hnew
          simp only [hnew]


/-- C20 fails as stated: in a connector without managers where the registration of `s4` has
failed, the update that takes the mqtt source away from `s4` succeeds, and the subscription
of the old source does not lose a receiver: the count is 0 before and after. -/
theorem C20_counterexample_nothing_to_unregister :
    pointersDiffer (mqttStream "s4").Source.MQTTSource unsourcedStream.Source.MQTTSource false
      = true ∧
    (UpdateHandler acceptingBroker failedConnector (mqttStream "s4") unsourcedStream false).2
      = Outcome.ret none ∧
    receiversOf failedConnector "tcp://b:1883" "t" = 0 ∧
    receiversOf (UpdateHandler acceptingBroker failedConnector (mqttStream "s4")
      unsourcedStream false).1 "tcp://b:1883" "t" = 0 ∧
    receiversOf (UpdateHandler acceptingBroker failedConnector (mqttStream "s4")
      unsourcedStream false).1 "tcp://b:1883" "t"
      ≠ receiversOf failedConnector "tcp://b:1883" "t" - 1 := by
  refine ⟨by decide, by decide, by decide, by decide, by decide⟩

theorem mapGet_mapDelete_ne {V : Type} (m : List (String × V)) (k k1 : String) (h : k1 ≠ k) :
    mapGet (mapDelete m k) k1 = mapGet m k1 := by
  induction m with
  | nil => rfl
  | cons p rest ih =>
    obtain ⟨k2, v⟩ := p
    by_cases h2 : k2 = k
    · have h3 : ¬ k2 = k1 := fun e => h (e.symm.trans h2)
      simp only [mapDelete, List.filter, h2, ne_eq, not_true_eq_false, decide_False] at ih ⊢
      rw [ih]
      simp [mapGet, h2 ▸ h3]
    · simp only [mapDelete, List.filter, h2, ne_eq, not_false_eq_true, decide_True] at ih ⊢
      simp only [mapGet, ih]

theorem mapGet_of_mapDelete_nil {V : Type} (m : List (String × V)) (k k1 : String)
    (hnil : mapDelete m k = []) (h : k1 ≠ k) : mapGet m k1 = none := by
  rw [← mapGet_mapDelete_ne m k k1 h, hnil]
  rfl

theorem receiversOf_eq (c : MQTTConnector) (url topic : String) :
    receiversOf c url topic =
      match subscriptionOf c url topic with
      | some s => s.receivers
      | none => 0 := by
  unfold receiversOf subscriptionOf
  cases mapGet c.managers url with
  | none => rfl
  | some m =>
    simp only []
    cases mapGet m.subscriptions topic <;> rfl

theorem subscriptionOf_congr (c c1 : MQTTConnector) (url topic : String)
    (h : mapGet c1.managers url = mapGet c.managers url) :
    subscriptionOf c1 url topic = subscriptionOf c url topic := by
  unfold subscriptionOf
  rw [h]

/-- A successful `register` touches the subscription of its source only, and leaves a
manager with a subscription for its broker. -/
theorem register_others (b : Broker) (c c3 : MQTTConnector) (src : MQTTSource)
    (h : register b c src = (c3, none)) :
    (∀ url, url ≠ src.BrokerURL → mapGet c3.managers url = mapGet c.managers url) ∧
    (∀ topic, topic ≠ src.Topic →
      subscriptionOf c3 src.BrokerURL topic = subscriptionOf c src.BrokerURL topic) ∧
    (∀ m, mapGet c3.managers src.BrokerURL = some m → m.subscriptions ≠ []) := by
  unfold register at h
  cases hm : mapGet c.managers src.BrokerURL with
  | none =>
    simp only [hm] at h
    cases hconn : b.connect src.BrokerURL with
    | some e => simp [hconn] at h
    | none =>
      simp only [hconn, Prod.mk.injEq, and_true] at h
      subst h
      refine ⟨?_, ?_, ?_⟩
      · intro url hu
        simp [mapGet_mapPut, Ne.symm hu]
      · intro topic ht
        simp [subscriptionOf, hm, mapGet_mapPut, mapPut, mapGet, Ne.symm ht]
      · intro m hmm
        simp only [mapGet_mapPut, if_true, Option.some.injEq] at hmm
        subst hmm
        simp [mapPut]
  | some manager =>
    simp only [hm] at h
    cases hs : mapGet manager.subscriptions src.Topic with
    | none =>
      simp only [hs] at h
      cases hsub : b.subscribe manager.url src.Topic with
      | some e => simp [hsub] at h
      | none =>
        simp only [hsub, Prod.mk.injEq, and_true] at h
        subst h
        refine ⟨?_, ?_, ?_⟩
        · intro url hu
          simp [mapGet_mapPut, Ne.symm hu]
        · intro topic ht
          simp [subscriptionOf, hm, mapGet_mapPut, Ne.symm ht]
        · intro m hmm
          simp only [mapGet_mapPut, if_true, Option.some.injEq] at hmm
          subst hmm
          exact mapPut_ne_nil _ _ _
    | some sub =>
      simp only [hs, Prod.mk.injEq, and_true] at h
      subst h
      refine ⟨?_, ?_, ?_⟩
      · intro url hu
        simp [mapGet_mapPut, Ne.symm hu]
      · intro topic ht
        simp [subscriptionOf, hm, mapGet_mapPut, Ne.symm ht]
      · intro m hmm
        simp only [mapGet_mapPut, if_true, Option.some.injEq] at hmm
        subst hmm
        exact mapPut_ne_nil _ _ _

/-- A successful `unregister` touches the subscription of its source only; and with a
manager for the broker it found a subscription for the topic. -/
theorem unregister_others (b : Broker) (c c1 : MQTTConnector) (src : MQTTSource)
    (h : unregister b c src = (c1, Outcome.ret none)) :
    (∀ url, url ≠ src.BrokerURL → mapGet c1.managers url = mapGet c.managers url) ∧
    (∀ topic, topic ≠ src.Topic →
      subscriptionOf c1 src.BrokerURL topic = subscriptionOf c src.BrokerURL topic) ∧
    (mapGet c.managers src.BrokerURL ≠ none →
      subscriptionOf c src.BrokerURL src.Topic ≠ none) := by
  unfold unregister at h
  cases hm : mapGet c.managers src.BrokerURL with
  | none =>
    simp only [hm, Prod.mk.injEq, and_true] at h
    subst h
    exact ⟨fun _ _ => rfl, fun _ _ => rfl, fun hc => absurd rfl hc⟩
  | some manager =>
    simp only [hm] at h
    cases hs : mapGet manager.subscriptions src.Topic with
    | none => simp [hs] at h
    | some sub =>
      simp only [hs] at h
      have hthird : subscriptionOf c src.BrokerURL src.Topic ≠ none := by
        simp [subscriptionOf, hm, hs]
      by_cases hz : sub.receivers - 1 = 0
      · simp only [hz, if_true] at h
        cases hun : b.unsubscribe manager.url src.Topic with
        | some e => simp [hun] at h
        | none =>
          simp only [hun, disconnectIfEmpty] at h
          split at h
          · rename_i hlen
            simp only [Prod.mk.injEq, and_true] at h
            subst h
            refine ⟨?_, ?_, fun _ => hthird⟩
            · intro url hu
              simp [mapGet_mapDelete_ne _ _ _ hu, mapGet_mapPut, Ne.symm hu]
            · intro topic ht
              have h1 := mapGet_of_mapDelete_nil _ _ topic (List.length_eq_zero.1 hlen) ht
              rw [mapGet_mapPut] at h1
              simp only [Ne.symm ht, if_false] at h1
              simp [subscriptionOf, hm, mapGet_mapDelete_self, h1]
          · simp only [Prod.mk.injEq, and_true] at h
            subst h
            refine ⟨?_, ?_, fun _ => hthird⟩
            · intro url hu
              simp [mapGet_mapPut, Ne.symm hu]
            · intro topic ht
              simp [subscriptionOf, hm, mapGet_mapPut, mapGet_mapDelete_ne _ _ _ ht,
                Ne.symm ht]
      · simp only [hz, if_false, disconnectIfEmpty] at h
        have hlen : ¬ (mapPut manager.subscriptions src.Topic
            { sub with receivers := sub.receivers - 1 }).length = 0 := by
          rw [List.length_eq_zero]
          exact mapPut_ne_nil _ _ _
        simp only [hlen, if_false, Prod.mk.injEq, and_true] at h
        subst h
        refine ⟨?_, ?_, fun _ => hthird⟩
        · intro url hu
          simp [mapGet_mapPut, Ne.symm hu]
        · intro topic ht
          simp [subscriptionOf, hm, mapGet_mapPut, Ne.symm ht]

theorem receiversOf_congr (c c1 : MQTTConnector) (url topic : String)
    (h : mapGet c1.managers url = mapGet c.managers url) :
    receiversOf c1 url topic = receiversOf c url topic := by
  unfold receiversOf
  rw [h]

/-- A successful `unregister`, place by place: the receivers count changes by the receiver
lost, and a subscription at another place than the source stays as it is. -/
theorem unregister_receivers (b : Broker) (c c1 : MQTTConnector) (src : MQTTSource)
    (h : unregister b c src = (c1, Outcome.ret none)) (url topic : String) :
    receiversOf c1 url topic
      = receiversOf c url topic - lostReceiver c (some src) url topic ∧
    (¬ (src.BrokerURL = url ∧ src.Topic = topic) →
      subscriptionOf c1 url topic = subscriptionOf c url topic) := by
  obtain ⟨o1, o2, _⟩ := unregister_others b c c1 src h
  obtain ⟨s1, s2⟩ := unregister_success b c c1 src h
  have hframe : ¬ (src.BrokerURL = url ∧ src.Topic = topic) →
      subscriptionOf c1 url topic = subscriptionOf c url topic := by
    intro hn
    by_cases hu : url = src.BrokerURL
    · subst hu
      exact o2 topic (fun ht => hn ⟨rfl, ht.symm⟩)
    · exact subscriptionOf_congr c c1 url topic (o1 url hu)
  refine ⟨?_, hframe⟩
  by_cases hat : src.BrokerURL = url ∧ src.Topic = topic
  · obtain ⟨hu, ht⟩ := hat
    subst hu ht
    by_cases hm : mapGet c.managers src.BrokerURL = none
    · rw [s1 hm]
      simp [lostReceiver, hm]
    · rw [(s2 hm).1]
      simp [lostReceiver, hm]
  · rw [receiversOf_eq c1, receiversOf_eq c, hframe hat]
    simp [lostReceiver, hat]

/-- A successful `register`, place by place: the receivers count changes by the receiver
gained, and a subscription at another place than the source stays as it is. -/
theorem register_receivers (b : Broker) (c c3 : MQTTConnector) (src : MQTTSource)
    (h : register b c src = (c3, none)) (url topic : String) :
    receiversOf c3 url topic
      = receiversOf c url topic + gainedReceiver (some src) url topic ∧
    (¬ (src.BrokerURL = url ∧ src.Topic = topic) →
      subscriptionOf c3 url topic = subscriptionOf c url topic) := by
  obtain ⟨o1, o2, _⟩ := register_others b c c3 src h
  obtain ⟨s1, _⟩ := register_success b c c3 src h
  have hframe : ¬ (src.BrokerURL = url ∧ src.Topic = topic) →
      subscriptionOf c3 url topic = subscriptionOf c url topic := by
    intro hn
    by_cases hu : url = src.BrokerURL
    · subst hu
      exact o2 topic (fun ht => hn ⟨rfl, ht.symm⟩)
    · exact subscriptionOf_congr c c3 url topic (o1 url hu)
  refine ⟨?_, hframe⟩
  by_cases hat : src.BrokerURL = url ∧ src.Topic = topic
  · obtain ⟨hu, ht⟩ := hat
    subst hu ht
    rw [s1]
    simp [gainedReceiver]
  · rw [receiversOf_eq c3, receiversOf_eq c, hframe hat]
    simp [gainedReceiver, hat]

/-- C20, amended: for a successful `UpdateHandler` whose source pointers differ, place by
place over all `(url, topic)`: the receivers count at the end is the count before, less one
at the place of the old source when a manager existed for its broker, plus one at the place
of the new source; a subscription at a place that is neither that of the old nor that of the
new source is as before. The subscription of the old source is removed when it had a single
receiver and the new source is elsewhere, and a manager left for its broker has a
subscription; a subscription with a single receiver is created for the new source when there
was none; the failed registrations hold no entry for the name of the old stream. Without a
manager for the broker of the old source nothing is unregistered. When the source pointers
do not differ, managers and failed registrations are unchanged. -/
theorem C20_update_moves_one_receiver (b : Broker) (c : MQTTConnector)
    (oldDS newDS : DataStream) (samePointer : Bool)
    (hsucc : (UpdateHandler b c oldDS newDS samePointer).2 = Outcome.ret none) :
    (pointersDiffer oldDS.Source.MQTTSource newDS.Source.MQTTSource samePointer = false →
      (UpdateHandler b c oldDS newDS samePointer).1.managers = c.managers ∧
      (UpdateHandler b c oldDS newDS samePointer).1.failedRegistrations
        = c.failedRegistrations) ∧
    (pointersDiffer oldDS.Source.MQTTSource newDS.Source.MQTTSource samePointer = true →
      mapGet (UpdateHandler b c oldDS newDS samePointer).1.failedRegistrations oldDS.Name
        = none ∧
      (∀ url topic,
        receiversOf (UpdateHandler b c oldDS newDS samePointer).1 url topic
          = receiversOf c url topic - lostReceiver c oldDS.Source.MQTTSource url topic
            + gainedReceiver newDS.Source.MQTTSource url topic) ∧
      (∀ url topic, ¬ sourceAt oldDS.Source.MQTTSource url topic →
        ¬ sourceAt newDS.Source.MQTTSource url topic →
        subscriptionOf (UpdateHandler b c oldDS newDS samePointer).1 url topic
          = subscriptionOf c url topic) ∧
      (∀ src, oldDS.Source.MQTTSource = some src →
        mapGet c.managers src.BrokerURL ≠ none →
        (receiversOf c src.BrokerURL src.Topic = 1 →
          ¬ sourceAt newDS.Source.MQTTSource src.BrokerURL src.Topic →
          subscriptionOf (UpdateHandler b c oldDS newDS samePointer).1 src.BrokerURL
            src.Topic = none) ∧
        (∀ m, mapGet (UpdateHandler b c oldDS newDS samePointer).1.managers src.BrokerURL
          = some m → m.subscriptions ≠ [])) ∧
      (∀ src, newDS.Source.MQTTSource = some src →
        subscriptionOf c src.BrokerURL src.Topic = none →
        ∃ s, subscriptionOf (UpdateHandler b c oldDS newDS samePointer).1 src.BrokerURL
          src.Topic = some s ∧ s.receivers = 1)) := by
  have hc0 : (if oldDS.Retention ≠ newDS.Retention then flushCache c else c).managers
      = c.managers ∧
      (if oldDS.Retention ≠ newDS.Retention then flushCache c else c).failedRegistrations
      = c.failedRegistrations := by
    split <;> exact ⟨rfl, rfl⟩
  constructor
  · intro hsame
    unfold UpdateHandler
    simp only [hsame, Bool.false_eq_true, if_false]
    exact hc0
  · intro hdiff
    obtain ⟨mid, hold, holdnone, hnew, hnewnone⟩ :=
      UpdateHandler_changed b c oldDS newDS samePointer hdiff hsucc
    generalize (if oldDS.Retention ≠ newDS.Retention then flushCache c else c) = c0
      at hc0 hold holdnone
    generalize (UpdateHandler b c oldDS newDS samePointer).1 = fin at hnew hnewnone ⊢
    have hsub0 : ∀ url topic, subscriptionOf c0 url topic = subscriptionOf c url topic :=
      fun url topic => subscriptionOf_congr c c0 url topic (by rw [hc0.1])
    have hrec0 : ∀ url topic, receiversOf c0 url topic = receiversOf c url topic :=
      fun url topic => receiversOf_congr c c0 url topic (by rw [hc0.1])
    have hlost0 : ∀ o url topic, lostReceiver c0 o url topic = lostReceiver c o url topic := by
      intro o url topic
      unfold lostReceiver
      rw [hc0.1]
    -- the connector after the removal of the old subscription
    have hmidrec : ∀ url topic, receiversOf mid url topic
        = receiversOf c url topic - lostReceiver c oldDS.Source.MQTTSource url topic := by
      intro url topic
      cases ho : oldDS.Source.MQTTSource with
      | none =>
        rw [holdnone ho, hrec0]
        simp [lostReceiver]
      | some src =>
        rw [(unregister_receivers b c0 mid src (hold src ho) url topic).1, hrec0, hlost0]
    have hmidsub : ∀ url topic, ¬ sourceAt oldDS.Source.MQTTSource url topic →
        subscriptionOf mid url topic = subscriptionOf c url topic := by
      intro url topic hn
      cases ho : oldDS.Source.MQTTSource with
      | none => rw [holdnone ho, hsub0]
      | some src =>
        rw [(unregister_receivers b c0 mid src (hold src ho) url topic).2
          (fun h => hn ⟨src, ho, h.1, h.2⟩), hsub0]
    -- the final connector
    have hfinrec : ∀ url topic, receiversOf fin url topic
        = receiversOf mid url topic + gainedReceiver newDS.Source.MQTTSource url topic := by
      intro url topic
      cases hn : newDS.Source.MQTTSource with
      | none =>
        rw [hnewnone hn]
        simp [gainedReceiver, receiversOf]
      | some src =>
        rw [(register_receivers b _ fin src (hnew src hn) url topic).1]
        rfl
    have hfinsub : ∀ url topic, ¬ sourceAt newDS.Source.MQTTSource url topic →
        subscriptionOf fin url topic = subscriptionOf mid url topic := by
      intro url topic hnot
      cases hn : newDS.Source.MQTTSource with
      | none =>
        rw [hnewnone hn]
        rfl
      | some src =>
        rw [(register_receivers b _ fin src (hnew src hn) url topic).2
          (fun h => hnot ⟨src, hn, h.1, h.2⟩)]
        rfl
    have hfailed : mapGet fin.failedRegistrations oldDS.Name = none := by
      cases hn : newDS.Source.MQTTSource with
      | none =>
        rw [hnewnone hn]
        exact mapGet_mapDelete_self _ _
      | some src =>
        have hf := (register_frame b
          { mid with failedRegistrations := mapDelete mid.failedRegistrations oldDS.Name }
          src).2
        rw [hnew src hn] at hf
        rw [hf]
        exact mapGet_mapDelete_self _ _
    refine ⟨hfailed, ?_, ?_, ?_, ?_⟩
    · intro url topic
      rw [hfinrec, hmidrec]
    · intro url topic h1 h2
      rw [hfinsub url topic h2, hmidsub url topic h1]
    · intro src ho hm
      have hm0 : mapGet c0.managers src.BrokerURL ≠ none := by rw [hc0.1]; exact hm
      obtain ⟨_, u2⟩ := unregister_success b c0 mid src (hold src ho)
      obtain ⟨_, u3, u4⟩ := u2 hm0
      constructor
      · intro hone hnot
        rw [hfinsub _ _ hnot]
        exact u3 (by rw [hrec0]; exact hone)
      · intro m hmm
        cases hn : newDS.Source.MQTTSource with
        | none =>
          rw [hnewnone hn] at hmm
          exact u4 m hmm
        | some nsrc =>
          obtain ⟨r1, _, r3⟩ := register_others b _ fin nsrc (hnew nsrc hn)
          by_cases hu : src.BrokerURL = nsrc.BrokerURL
          · rw [hu] at hmm
            exact r3 m hmm
          · rw [r1 _ hu] at hmm
            exact u4 m hmm
    · intro src hn hnone
      have hmidnone : subscriptionOf mid src.BrokerURL src.Topic = none := by
        cases ho : oldDS.Source.MQTTSource with
        | none => rw [holdnone ho, hsub0]; exact hnone
        | some osrc =>
          by_cases hat : osrc.BrokerURL = src.BrokerURL ∧ osrc.Topic = src.Topic
          · obtain ⟨u1, _⟩ := unregister_success b c0 mid osrc (hold osrc ho)
            obtain ⟨_, _, o3⟩ := unregister_others b c0 mid osrc (hold osrc ho)
            by_cases hm : mapGet c0.managers osrc.BrokerURL = none
            · rw [u1 hm, hsub0]; exact hnone
            · exfalso
              apply o3 hm
              rw [hat.1, hat.2, hsub0]
              exact hnone
          · rw [(unregister_receivers b c0 mid osrc (hold osrc ho) _ _).2 hat, hsub0]
            exact hnone
      exact (register_success b _ fin src (hnew src hn)).2 hmidnone

/-- Witness of C20: the stream `s4`, registered on topic `t`, is moved to topic `t2`. By the
theorem the count of `t` is the count before less one and that of `t2` the count before plus
one; the subscription of `t` is removed and one with a single receiver is created for
`t2`. -/
theorem C20_update_moves_one_receiver_witness :
    receiversOf (UpdateHandler acceptingBroker
      (CreateHandler acceptingBroker (NewMQTTConnector "hds") (mqttStream "s4")).1
      (mqttStream "s4") movedStream false).1 "tcp://b:1883" "t" = 0 ∧
    receiversOf (UpdateHandler acceptingBroker
      (CreateHandler acceptingBroker (NewMQTTConnector "hds") (mqttStream "s4")).1
      (mqttStream "s4") movedStream false).1 "tcp://b:1883" "t2" = 1 ∧
    subscriptionOf (UpdateHandler acceptingBroker
      (CreateHandler acceptingBroker (NewMQTTConnector "hds") (mqttStream "s4")).1
      (mqttStream "s4") movedStream false).1 "tcp://b:1883" "t" = none ∧
    (∃ s, subscriptionOf (UpdateHandler acceptingBroker
      (CreateHandler acceptingBroker (NewMQTTConnector "hds") (mqttStream "s4")).1
      (mqttStream "s4") movedStream false).1 "tcp://b:1883" "t2" = some s ∧
      s.receivers = 1) ∧
    mapGet (UpdateHandler acceptingBroker
      (CreateHandler acceptingBroker (NewMQTTConnector "hds") (mqttStream "s4")).1
      (mqttStream "s4") movedStream false).1.failedRegistrations "s4" = none := by
  have h := (C20_update_moves_one_receiver acceptingBroker
    (CreateHandler acceptingBroker (NewMQTTConnector "hds") (mqttStream "s4")).1
    (mqttStream "s4") movedStream false (by decide)).2 (by decide)
  obtain ⟨hfailed, hrec, _, hold, hnew⟩ := h
  refine ⟨?_, ?_, ?_, ?_, hfailed⟩
  · rw [hrec "tcp://b:1883" "t"]
    decide
  · rw [hrec "tcp://b:1883" "t2"]
    decide
  · refine (hold sourceT rfl (by decide)).1 (by decide) ?_
    rintro ⟨s, hs, _, ht⟩
    cases hs
    revert ht
    decide
  · exact hnew sourceT2 rfl (by decide)


/-! ### The message handler checks the type of the value -/

theorem typeError_false_iff (ds : DataStream) (r : Record) :
    typeError ds r = false ↔ carriesDeclaredValue ds r := by
  have hfs : FLOAT ≠ STRING := by decide
  have hfb : FLOAT ≠ BOOL := by decide
  have hsb : STRING ≠ BOOL := by decide
  have hsf : STRING ≠ FLOAT := by decide
  have hbf : BOOL ≠ FLOAT := by decide
  have hbs : BOOL ≠ STRING := by decide
  unfold typeError carriesDeclaredValue
  by_cases h1 : ds.Type' = FLOAT
  · cases hv : r.Value <;> simp [h1, hv, hfs, hfb]
  · by_cases h2 : ds.Type' = STRING
    · simp [h2, hsb, hsf]
    · by_cases h3 : ds.Type' = BOOL
      · cases hv : r.BoolValue <;> simp [h3, hv, hbf, hbs]
      · simp [h1, h2, h3]

/-- Checking a record adds nothing, or adds it after the type check has passed. -/
theorem checkRecord_typed (url topic : String) (st : MessageState) (ds : DataStream)
    (r x : Record)
    (hx : x ∈ ((checkRecord url topic st ds r).data.map (fun p => p.2)).flatten) :
    x ∈ (st.data.map (fun p => p.2)).flatten ∨ (x = r ∧ typeError ds r = false) := by
  unfold checkRecord at hx
  cases hm : ds.Source.MQTTSource with
  | none => simp only [hm] at hx; exact Or.inl hx
  | some m =>
    simp only [hm] at hx
    split at hx
    · exact Or.inl hx
    · split at hx
      · exact Or.inl hx
      · split at hx
        · exact Or.inl hx
        · rename_i _ _ hty
          rcases collectRecord_mem st ds r x hx with h | h
          · exact Or.inr ⟨h, by simpa using hty⟩
          · exact Or.inl h

/-- What a loop step does to the collected records, as to the type check. -/
theorem onMessageRecord_typed (url topic : String) (registryGet : String → GetResult)
    (st : MessageState) (r x : Record)
    (hx : x ∈ ((onMessageRecord url topic registryGet st r).data.map (fun p => p.2)).flatten) :
    x ∈ (st.data.map (fun p => p.2)).flatten ∨
    (x = r ∧ ∃ ds, resolveStream st.cache registryGet r.Name = some ds ∧
      typeError ds r = false) := by
  unfold onMessageRecord at hx
  cases hc : mapGet st.cache r.Name with
  | some ds =>
    simp only [hc] at hx
    rcases checkRecord_typed url topic st ds r x hx with h | ⟨h, hw⟩
    · exact Or.inl h
    · exact Or.inr ⟨h, ds, by simp [resolveStream, hc], hw⟩
  | none =>
    simp only [hc] at hx
    cases hg : registryGet r.Name with
    | notFound => simp only [hg] at hx; exact Or.inl hx
    | failed => simp only [hg] at hx; exact Or.inl hx
    | found ds =>
      simp only [hg] at hx
      rcases checkRecord_typed url topic _ ds r x hx with h | ⟨h, hw⟩
      · exact Or.inl h
      · exact Or.inr ⟨h, ds, by simp [resolveStream, hc, hg], hw⟩

/-- Invariant of the loop of `onMessage`: every collected record has passed the type check
of the stream its name resolves to. -/
theorem foldl_onMessageRecord_typed (url topic : String) (registryGet : String → GetResult)
    (cache0 : List (String × DataStream)) (records : List Record) (st : MessageState)
    (hcache : ∀ name, resolveStream st.cache registryGet name
      = resolveStream cache0 registryGet name)
    (hinv : ∀ x ∈ (st.data.map (fun p => p.2)).flatten,
      ∃ ds, resolveStream cache0 registryGet x.Name = some ds ∧ typeError ds x = false) :
    ∀ x ∈ (((records.foldl (onMessageRecord url topic registryGet) st).data).map
        (fun p => p.2)).flatten,
      ∃ ds, resolveStream cache0 registryGet x.Name = some ds ∧ typeError ds x = false := by
  induction records generalizing st with
  | nil => simpa using hinv
  | cons r rest ih =>
    simp only [List.foldl_cons]
    apply ih
    · intro name
      rw [resolveStream_onMessageRecord, hcache]
    · intro x hx
      rcases onMessageRecord_typed url topic registryGet st r x hx with h | ⟨h, ds, hds, hw⟩
      · exact hinv x h
      · subst h
        exact ⟨ds, by rw [← hcache]; exact hds, hw⟩

theorem mem_flatten_mapPut_value {V : Type} (m : List (String × List V)) (k : String)
    (v : List V) (x : V) (hx : x ∈ v) : x ∈ ((mapPut m k v).map (fun p => p.2)).flatten := by
  induction m with
  | nil => simpa [mapPut] using hx
  | cons p rest ih =>
    obtain ⟨k2, v2⟩ := p
    by_cases h : k2 = k
    · simp [mapPut, h, hx]
    · simp only [mapPut, h, if_false, List.map_cons, List.flatten_cons, List.mem_append]
      exact Or.inr ih

/-- Replacing the entry of `k` by a list that extends it loses no element. -/
theorem mem_flatten_mapPut_mono {V : Type} (m : List (String × List V)) (k : String)
    (v : List V) (x : V) (hext : ∀ v0, mapGet m k = some v0 → ∀ y ∈ v0, y ∈ v)
    (hx : x ∈ (m.map (fun p => p.2)).flatten) :
    x ∈ ((mapPut m k v).map (fun p => p.2)).flatten := by
  induction m with
  | nil => simp at hx
  | cons p rest ih =>
    obtain ⟨k2, v2⟩ := p
    by_cases h : k2 = k
    · simp only [mapPut, h, if_true, List.map_cons, List.flatten_cons, List.mem_append] at hx ⊢
      rcases hx with hx | hx
      · exact Or.inl (hext v2 (by simp [mapGet, h]) x hx)
      · exact Or.inr hx
    · simp only [mapPut, h, if_false, List.map_cons, List.flatten_cons, List.mem_append] at hx ⊢
      rcases hx with hx | hx
      · exact Or.inl hx
      · exact Or.inr (ih (fun v0 h0 => hext v0 (by simpa [mapGet, h] using h0)) hx)

/-- Collecting a record keeps the records collected before and adds the record. -/
theorem collectRecord_keeps (st : MessageState) (ds : DataStream) (r x : Record)
    (hx : x = r ∨ x ∈ (st.data.map (fun p => p.2)).flatten) :
    x ∈ ((collectRecord st ds r).data.map (fun p => p.2)).flatten := by
  have key : ∀ data : List (String × List Record),
      (x = r ∨ x ∈ (data.map (fun p => p.2)).flatten) →
      x ∈ ((mapPut data ds.Name (((mapGet data ds.Name).getD []) ++ [r])).map
        (fun p => p.2)).flatten := by
    intro data h
    rcases h with h | h
    · exact mem_flatten_mapPut_value _ _ _ _ (by simp [h])
    · apply mem_flatten_mapPut_mono _ _ _ _ _ h
      intro v0 h0 y hy
      simp [h0, hy]
  unfold collectRecord
  cases hk : mapGet st.data ds.Name with
  | some v => simpa [hk] using key st.data hx
  | none =>
    simp only []
    apply key
    rcases hx with h | h
    · exact Or.inl h
    · refine Or.inr (mem_flatten_mapPut_mono _ _ _ _ ?_ h)
      intro v0 h0
      rw [hk] at h0
      cases h0

/-- Checking a record loses none of the records collected before. -/
theorem checkRecord_keeps (url topic : String) (st : MessageState) (ds : DataStream)
    (r x : Record) (hx : x ∈ (st.data.map (fun p => p.2)).flatten) :
    x ∈ ((checkRecord url topic st ds r).data.map (fun p => p.2)).flatten := by
  unfold checkRecord
  cases hm : ds.Source.MQTTSource with
  | none => exact hx
  | some m =>
    simp only []
    split
    · exact hx
    · split
      · exact hx
      · split
        · exact hx
        · exact collectRecord_keeps st ds r x (Or.inr hx)

/-- A record that passes the checks is collected. -/
theorem checkRecord_accepts (url topic : String) (st : MessageState) (ds : DataStream)
    (r : Record) (hs : sourceMatches url topic ds) (ht : typeError ds r = false) :
    r ∈ ((checkRecord url topic st ds r).data.map (fun p => p.2)).flatten := by
  obtain ⟨m, hm, hu, htp⟩ := hs
  unfold checkRecord
  simp only [hm, hu, htp, ht, ne_eq, not_true_eq_false, if_false, Bool.false_eq_true]
  exact collectRecord_keeps st ds r r (Or.inl rfl)

theorem onMessageRecord_keeps (url topic : String) (registryGet : String → GetResult)
    (st : MessageState) (r x : Record) (hx : x ∈ (st.data.map (fun p => p.2)).flatten) :
    x ∈ ((onMessageRecord url topic registryGet st r).data.map (fun p => p.2)).flatten := by
  unfold onMessageRecord
  cases hc : mapGet st.cache r.Name with
  | some ds => exact checkRecord_keeps url topic st ds r x hx
  | none =>
    simp only []
    cases hg : registryGet r.Name with
    | notFound => exact hx
    | failed => exact hx
    | found ds => exact checkRecord_keeps url topic _ ds r x hx

theorem onMessageRecord_accepts (url topic : String) (registryGet : String → GetResult)
    (st : MessageState) (r : Record) (ds : DataStream)
    (hr : resolveStream st.cache registryGet r.Name = some ds)
    (hs : sourceMatches url topic ds) (ht : typeError ds r = false) :
    r ∈ ((onMessageRecord url topic registryGet st r).data.map (fun p => p.2)).flatten := by
  unfold resolveStream at hr
  unfold onMessageRecord
  cases hc : mapGet st.cache r.Name with
  | some ds1 =>
    rw [hc] at hr
    cases hr
    exact checkRecord_accepts url topic st ds r hs ht
  | none =>
    rw [hc] at hr
    simp only []
    cases hg : registryGet r.Name with
    | notFound => rw [hg] at hr; cases hr
    | failed => rw [hg] at hr; cases hr
    | found ds1 =>
      rw [hg] at hr
      cases hr
      exact checkRecord_accepts url topic _ ds r hs ht

theorem foldl_onMessageRecord_keeps (url topic : String) (registryGet : String → GetResult)
    (records : List Record) (st : MessageState) (x : Record)
    (hx : x ∈ (st.data.map (fun p => p.2)).flatten) :
    x ∈ (((records.foldl (onMessageRecord url topic registryGet) st).data).map
        (fun p => p.2)).flatten := by
  induction records generalizing st with
  | nil => exact hx
  | cons r rest ih =>
    simp only [List.foldl_cons]
    exact ih _ (onMessageRecord_keeps url topic registryGet st r x hx)

/-- Every record of the message that passes the checks is among the collected ones at the
end of the loop. -/
theorem foldl_onMessageRecord_accepts (url topic : String) (registryGet : String → GetResult)
    (cache0 : List (String × DataStream)) (records : List Record) (st : MessageState)
    (hcache : ∀ name, resolveStream st.cache registryGet name
      = resolveStream cache0 registryGet name)
    (r : Record) (hmem : r ∈ records) (ds : DataStream)
    (hr : resolveStream cache0 registryGet r.Name = some ds)
    (hs : sourceMatches url topic ds) (ht : typeError ds r = false) :
    r ∈ (((records.foldl (onMessageRecord url topic registryGet) st).data).map
        (fun p => p.2)).flatten := by
  induction records generalizing st with
  | nil => cases hmem
  | cons r1 rest ih =>
    simp only [List.foldl_cons]
    rcases List.mem_cons.1 hmem with h | h
    · subst h
      apply foldl_onMessageRecord_keeps
      exact onMessageRecord_accepts url topic registryGet st r ds (by rw [hcache]; exact hr) hs ht
    · apply ih _ _ h
      intro name
      rw [resolveStream_onMessageRecord, hcache]

/-- C21: every record that `onMessage` hands to `Submit` carries a value of the declared type
of the stream its name resolves to (a present `Value` for a float stream, a non-empty
`StringValue` for a string stream, a present `BoolValue` for a bool stream); a record that
lacks that value is not handed over; and every record of the message whose stream is wanted
and that carries the value is handed over, whatever became of the other records. -/
theorem C21_type_checked_records (decode : String → Option (List Record))
    (registryGet : String → GetResult)
    (storageSubmit : List (String × List Record) → List (String × DataStream) → GoError)
    (c : MQTTConnector) (url topic payload : String) :
    (∀ r ∈ submittedRecords (onMessage decode registryGet storageSubmit c url topic payload),
      ∃ ds, resolveStream c.cache registryGet r.Name = some ds ∧ carriesDeclaredValue ds r) ∧
    (∀ r ds, resolveStream c.cache registryGet r.Name = some ds →
      ¬ carriesDeclaredValue ds r →
      r ∉ submittedRecords (onMessage decode registryGet storageSubmit c url topic payload)) ∧
    (∀ records, decode payload = some records → ∀ r ∈ records, ∀ ds,
      resolveStream c.cache registryGet r.Name = some ds → sourceMatches url topic ds →
      carriesDeclaredValue ds r →
      r ∈ submittedRecords (onMessage decode registryGet storageSubmit c url topic payload)) := by
  have main : ∀ r ∈ submittedRecords
      (onMessage decode registryGet storageSubmit c url topic payload),
      ∃ ds, resolveStream c.cache registryGet r.Name = some ds ∧ carriesDeclaredValue ds r := by
    intro r hr
    unfold onMessage at hr
    cases hd : decode payload with
    | none => simp [hd, submittedRecords] at hr
    | some records =>
      have inv := foldl_onMessageRecord_typed url topic registryGet c.cache records
        { cache := c.cache, data := [], sources := [], log := [] } (fun _ => rfl) (by simp)
      simp only [hd] at hr
      have fin : r ∈ (((records.foldl (onMessageRecord url topic registryGet)
          { cache := c.cache, data := [], sources := [], log := [] }).data).map
          (fun p => p.2)).flatten → ∃ ds, resolveStream c.cache registryGet r.Name = some ds ∧
          carriesDeclaredValue ds r := by
        intro h
        obtain ⟨ds, h1, h2⟩ := inv r h
        exact ⟨ds, h1, (typeError_false_iff ds r).1 h2⟩
      split at hr
      · split at hr <;> exact fin (by simpa [submittedRecords] using hr)
      · simp [submittedRecords] at hr
  refine ⟨main, ?_, ?_⟩
  · intro r ds hds hnot hr
    obtain ⟨ds1, h1, h2⟩ := main r hr
    rw [hds] at h1
    cases h1
    exact hnot h2
  · intro records hd r hmem ds hds hs hcar
    have acc := foldl_onMessageRecord_accepts url topic registryGet c.cache records
      { cache := c.cache, data := [], sources := [], log := [] } (fun _ => rfl) r hmem ds hds hs
      ((typeError_false_iff ds r).2 hcar)
    unfold onMessage
    simp only [hd]
    have hne : (records.foldl (onMessageRecord url topic registryGet)
        { cache := c.cache, data := [], sources := [], log := [] }).data.length > 0 := by
      cases hdat : (records.foldl (onMessageRecord url topic registryGet)
        { cache := c.cache, data := [], sources := [], log := [] }).data with
      | nil => rw [hdat] at acc; simp at acc
      | cons p rest => simp
    rw [if_pos hne]
    split <;> simpa [submittedRecords] using acc

/-! ### Configuration and start-up -/

/-- C22: a DSN whose path is a single slash names no database, yet `initInfluxConf` accepts
it. A DSN without a path is refused and a DSN with the path `/hds` gives the database `hds`;
but the path is tested for emptiness before the slashes are trimmed, so for the path `/` the
configuration is returned with an empty database name. -/
theorem C22_slash_path_gives_empty_database :
    initInfluxConf exampleUrlParse "http://localhost:8086"
      = Except.error "Influxdb config: db must be not empty" ∧
    initInfluxConf exampleUrlParse "http://localhost:8086/hds"
      = Except.ok (influxStorageConfig.mk "http://localhost:8086" "hds" "" "" 0) ∧
    initInfluxConf exampleUrlParse "http://localhost:8086/"
      = Except.ok (influxStorageConfig.mk "http://localhost:8086" "" "" "" 0) := by
  refine ⟨?_, ?_, ?_⟩
  · rfl
  · rfl
  · rfl

theorem backoffSeconds_succ (n : Nat) :
    (if backoffSeconds n * 2 ≥ 60 then 60 else backoffSeconds n * 2) = backoffSeconds (n + 1) := by
  unfold backoffSeconds
  have h : (5 : Int) * 2 ^ (n + 1) = 2 * (5 * 2 ^ n) := by ring
  rw [h]
  have hp : (0 : Int) < 5 * 2 ^ n := by positivity
  generalize (5 : Int) * 2 ^ n = x at hp ⊢
  split <;> omega

theorem backoffSeconds_bounds (n : Nat) : 5 ≤ backoffSeconds n ∧ backoffSeconds n ≤ 60 := by
  unfold backoffSeconds
  have hp : (1 : Int) ≤ 2 ^ n := by exact_mod_cast Nat.one_le_two_pow
  generalize (2 : Int) ^ n = x at hp ⊢
  omega

theorem wrap64_small (x : Int) (h0 : 0 ≤ x) (h1 : x ≤ 60000000000) : wrap64 x = x := by
  unfold wrap64
  omega

/-- The wait loop from pass `a` on, when the capped loop variable is the specified wait. -/
theorem waitForEngine_from (pingFails : Nat → Bool) (k : Nat) (hok : pingFails k = false) :
    ∀ (d a fuel : Nat) (interval : Int), a + d = k → d < fuel →
      (∀ n, a ≤ n → n < k → pingFails n = true) →
      (if interval ≥ 60 then 60 else interval) = backoffSeconds a →
      waitForEngine pingFails fuel a interval
        = some ((List.range' a d).map (fun n => backoffSeconds n * second)) := by
  intro d
  induction d with
  | zero =>
    intro a fuel interval hk hf _ _
    have ha : a = k := by omega
    subst ha
    cases fuel with
    | zero => omega
    | succ f => simp [waitForEngine, hok]
  | succ d ih =>
    intro a fuel interval hk hf hfail hi
    cases fuel with
    | zero => omega
    | succ f =>
      have hb := backoffSeconds_bounds a
      have hfa : pingFails a = true := hfail a (le_refl a) (by omega)
      have hnext : wrap64 (backoffSeconds a * 2) = backoffSeconds a * 2 :=
        wrap64_small _ (by omega) (by omega)
      have hsl : wrap64 (backoffSeconds a * second) = backoffSeconds a * second := by
        apply wrap64_small <;> simp only [second] <;> omega
      have rec := ih (a + 1) f (backoffSeconds a * 2) (by omega) (by omega)
        (fun n h1 h2 => hfail n (by omega) h2) (backoffSeconds_succ a)
      simp only [waitForEngine, hi, hfa, if_true, hnext, hsl, rec, List.range'_succ,
        List.map_cons]

/-- C25: while the engine does not answer, the wait after the ping of pass `n` of
`prepareStorage` is `min(5·2^n, 60)` seconds: when the first `k` pings fail and the next one
is answered, the loop returns after sleeping exactly these `k` durations. No wait exceeds 60
seconds, and neither the doubling of the loop variable nor the conversion to a duration
leaves the range of the machine integer. -/
theorem C25_backoff_waits (pingFails : Nat → Bool) (k fuel : Nat)
    (hfail : ∀ n, n < k → pingFails n = true) (hok : pingFails k = false) (hfuel : k < fuel) :
    waitForEngine pingFails fuel 0 5
      = some ((List.range k).map (fun n => backoffSeconds n * second)) ∧
    (∀ n, backoffSeconds n ≤ 60 ∧
      wrap64 (backoffSeconds n * 2) = backoffSeconds n * 2 ∧
      wrap64 (backoffSeconds n * second) = backoffSeconds n * second) := by
  constructor
  · rw [List.range_eq_range']
    exact waitForEngine_from pingFails k hok k 0 fuel 5 (by omega) hfuel
      (fun n _ h => hfail n h) (by decide)
  · intro n
    have hb := backoffSeconds_bounds n
    refine ⟨hb.2, wrap64_small _ (by omega) (by omega), ?_⟩
    apply wrap64_small <;> simp only [second] <;> omega

/-- C25 at a concrete run: five pings fail, the sixth is answered; the waits are 5, 10, 20,
40 and 60 seconds. -/
theorem C25_backoff_waits_witness :
    waitForEngine (fun n => decide (n < 5)) 6 0 5
      = some ((List.range 5).map (fun n => backoffSeconds n * second)) ∧
    (List.range 5).map (fun n => backoffSeconds n * second)
      = [5000000000, 10000000000, 20000000000, 40000000000, 60000000000] :=
  ⟨(C25_backoff_waits (fun n => decide (n < 5)) 5 6 (fun n h => by simp [h]) (by decide)
      (by decide)).1, by decide⟩

/-! ### The HTTP submit handler -/

theorem fillData_error_code (dsResources : List (String × DataSource)) (entries : List Entry) :
    ∀ (data : List (String × List Entry)) (sources : List (String × DataSource)) (code : Nat),
      fillData dsResources entries data sources = Except.error code →
      code = 400 ∨ code = 404 := by
  induction entries with
  | nil => intro data sources code h; simp [fillData] at h
  | cons e rest ih =>
    intro data sources code h
    unfold fillData at h
    split at h
    · cases h; exact Or.inl rfl
    · split at h
      · cases h; exact Or.inr rfl
      · split at h
        · cases h; exact Or.inl rfl
        · split at h <;> exact ih _ _ _ h

/-- C23: the handler answers 415 exactly when the media type of the `Content-Type` header,
the part before the first semicolon, is not `application/senml+json`; and when it is not,
the handler has neither decoded the body, nor asked the registry, nor called the storage. -/
theorem C23_unsupported_media_type (env : HttpEnv) (contentTypeHeader idParam body : String) :
    ((WriteableAPI.Submit env contentTypeHeader idParam body).status = 415 ↔
      mediaType contentTypeHeader ≠ "application/senml+json") ∧
    (mediaType contentTypeHeader ≠ "application/senml+json" →
      (WriteableAPI.Submit env contentTypeHeader idParam body).ops = []) := by
  by_cases hm : mediaType contentTypeHeader = "application/senml+json"
  · refine ⟨⟨fun h => ?_, fun h => absurd hm h⟩, fun h => absurd hm h⟩
    exfalso
    unfold WriteableAPI.Submit at h
    simp only [hm, ne_eq, not_true_eq_false, if_false] at h
    cases hd : env.decode body with
    | none => simp [hd] at h
    | some entries =>
      simp only [hd] at h
      rcases hs : sourcesByResource env.registryGet (env.splitIDs idParam) []
        [HandlerOp.decodeBody] with ⟨ops, _ | dsResources⟩
      · simp [hs] at h
      · simp only [hs] at h
        cases hf : fillData dsResources entries [] [] with
        | error code =>
          simp only [hf] at h
          rcases fillData_error_code dsResources entries [] [] code hf with h1 | h1 <;> omega
        | ok p =>
          obtain ⟨data, sources⟩ := p
          simp only [hf] at h
          cases hw : env.storageSubmit data sources <;> simp [hw] at h
  · refine ⟨⟨fun _ => hm, fun _ => ?_⟩, fun _ => ?_⟩ <;>
      simp [WriteableAPI.Submit, hm]

theorem entryTypeError_of_wrongKind (ds : DataSource) (e : Entry) (h : wrongKind ds e) :
    entryTypeError ds e = true := by
  have hsf : STRING ≠ FLOAT := by decide
  have hbf : BOOL ≠ FLOAT := by decide
  have hbs : BOOL ≠ STRING := by decide
  unfold entryTypeError
  rcases h with ⟨ht, hv⟩ | ⟨ht, hv⟩ | ⟨ht, hv⟩
  · simp only [ht, hsf, if_false, if_true]
    rcases hv with hv | hv
    · cases h1 : e.Value with
      | none => exact absurd h1 hv
      | some v => simp
    · cases h1 : e.BooleanValue with
      | none => exact absurd h1 hv
      | some v => simp
  · simp only [ht, hbf, hbs, if_false, if_true]
    rcases hv with hv | hv
    · cases h1 : e.Value with
      | none => exact absurd h1 hv
      | some v => simp
    · obtain ⟨s, hs, hne⟩ := hv
      simp [hs, hne]
  · simp only [ht, if_true]
    rcases hv with hv | hv
    · cases h1 : e.BooleanValue with
      | none => exact absurd h1 hv
      | some v => simp
    · obtain ⟨s, hs, hne⟩ := hv
      simp [hs, hne]

/-- The second loop stops with status 400 when every entry names a resource of the request
and some entry has a value of the wrong kind. -/
theorem fillData_wrongKind (dsResources : List (String × DataSource)) (entries : List Entry)
    (hnames : ∀ e ∈ entries, mapGet dsResources e.Name ≠ none)
    (hwrong : ∃ e ∈ entries, ∃ ds, mapGet dsResources e.Name = some ds ∧
      entryTypeError ds e = true) :
    ∀ (data : List (String × List Entry)) (sources : List (String × DataSource)),
      fillData dsResources entries data sources = Except.error 400 := by
  induction entries with
  | nil =>
    obtain ⟨e, he, _⟩ := hwrong
    cases he
  | cons e rest ih =>
    intro data sources
    unfold fillData
    by_cases hn : e.Name = ""
    · simp [hn]
    · simp only [hn, if_false]
      cases hg : mapGet dsResources e.Name with
      | none => exact absurd hg (hnames e (List.mem_cons_self _ _))
      | some ds =>
        simp only []
        by_cases ht : entryTypeError ds e = true
        · simp [ht]
        · simp only [ht, if_false]
          have hrest : ∃ e1 ∈ rest, ∃ ds1, mapGet dsResources e1.Name = some ds1 ∧
              entryTypeError ds1 e1 = true := by
            obtain ⟨e1, he1, ds1, hd1, ht1⟩ := hwrong
            rcases List.mem_cons.1 he1 with h | h
            · subst h
              rw [hg] at hd1
              cases hd1
              exact absurd ht1 ht
            · exact ⟨e1, h, ds1, hd1, ht1⟩
          have ih1 := ih (fun e1 h1 => hnames e1 (List.mem_cons_of_mem _ h1)) hrest
          cases hd : mapGet data ds.ID <;> exact ih1 _ _

/-- The first loop calls the registry only. -/
theorem sourcesByResource_ops (registryGet : String → Option DataSource) (ids : List String) :
    ∀ (dsResources : List (String × DataSource)) (ops : List HandlerOp),
      (∀ op ∈ ops, op.isSubmit = false) →
      ∀ op ∈ (sourcesByResource registryGet ids dsResources ops).1, op.isSubmit = false := by
  induction ids with
  | nil => intro dsResources ops h; simpa [sourcesByResource] using h
  | cons id rest ih =>
    intro dsResources ops h
    have hops : ∀ op ∈ ops ++ [HandlerOp.registryGet id], op.isSubmit = false := by
      intro op hop
      rcases List.mem_append.1 hop with h1 | h1
      · exact h op h1
      · simp only [List.mem_singleton] at h1
        subst h1
        rfl
    unfold sourcesByResource
    cases hg : registryGet id with
    | none => exact hops
    | some ds => exact ih _ _ hops

/-- C24: for a push with the supported content type whose body decodes, whose ids are all
returned by the registry and whose entries all name a resource of these streams: if some
entry carries a value of another kind than the type of its stream (a number or a boolean for
a string stream, a number or a non-empty string for a bool stream, a boolean or a non-empty
string for a float stream), the handler answers 400 and does not call `storage.Submit`. -/
theorem C24_wrong_kind_refused (env : HttpEnv) (contentTypeHeader idParam body : String)
    (entries : List Entry) (dsResources : List (String × DataSource))
    (hmedia : mediaType contentTypeHeader = "application/senml+json")
    (hdecode : env.decode body = some entries)
    (hids : (sourcesByResource env.registryGet (env.splitIDs idParam) []
      [HandlerOp.decodeBody]).2 = some dsResources)
    (hnames : ∀ e ∈ entries, mapGet dsResources e.Name ≠ none)
    (hwrong : ∃ e ∈ entries, ∃ ds, mapGet dsResources e.Name = some ds ∧ wrongKind ds e) :
    (WriteableAPI.Submit env contentTypeHeader idParam body).status = 400 ∧
    ∀ op ∈ (WriteableAPI.Submit env contentTypeHeader idParam body).ops,
      op.isSubmit = false := by
  have hfill := fillData_wrongKind dsResources entries hnames
    (by
      obtain ⟨e, he, ds, hd, hw⟩ := hwrong
      exact ⟨e, he, ds, hd, entryTypeError_of_wrongKind ds e hw⟩) [] []
  have hops := sourcesByResource_ops env.registryGet (env.splitIDs idParam) []
    [HandlerOp.decodeBody] (by intro op hop; simp only [List.mem_singleton] at hop; subst hop; rfl)
  unfold WriteableAPI.Submit
  simp only [hmedia, ne_eq, not_true_eq_false, if_false, hdecode]
  rcases hs : sourcesByResource env.registryGet (env.splitIDs idParam) []
    [HandlerOp.decodeBody] with ⟨ops, res⟩
  rw [hs] at hids hops
  simp only at hids
  subst hids
  simp only [hfill]
  exact ⟨trivial, hops⟩

/-- C24 at a concrete push: one entry with a boolean for a float stream. -/
theorem C24_wrong_kind_refused_witness :
    (WriteableAPI.Submit exampleHttpEnv "application/senml+json; charset=utf-8" "a" "").status
      = 400 ∧
    ∀ op ∈ (WriteableAPI.Submit exampleHttpEnv "application/senml+json; charset=utf-8" "a"
      "").ops, op.isSubmit = false :=
  C24_wrong_kind_refused exampleHttpEnv "application/senml+json; charset=utf-8" "a" ""
    [Entry.mk "a" "" none none (some true)] [("a", floatSource)] (by decide) rfl rfl
    (by decide)
    ⟨Entry.mk "a" "" none none (some true), by decide, floatSource, by decide,
      Or.inr (Or.inr ⟨rfl, Or.inl (by decide)⟩)⟩

/-! ### A retention change that fails -/

theorem refusingEngine_hit (k : Nat) (stmt : Stmt) (store : List Stored) :
    (refusingEngine k).Query stmt (k, store)
      = (QueryReply.failed "connection refused", (k + 1, store)) := by
  simp [refusingEngine]

theorem refusingEngine_miss (k n : Nat) (h : n ≠ k) (stmt : Stmt) (store : List Stored) :
    (refusingEngine k).Query stmt (n, store)
      = ((retentionEngineQuery stmt store).1, (n + 1, (retentionEngineQuery stmt store).2)) := by
  simp [refusingEngine, h]

theorem replyResult_refused :
    replyResult (QueryReply.failed "connection refused")
      = ([], some "Request error: connection refused") := rfl

theorem stringsContains_refused :
    stringsContains "Request error: connection refused" "measurement not found" = false := by
  decide

/-- The count of the first step, on a store with a point of the counted field. -/
theorem count_of_store (config : influxStorageConfig) (measurement countField oldRP : String)
    (store : List Stored)
    (hcount : ∃ s ∈ store, s.retentionPolicy = RetentionPolicyName oldRP ∧
      s.point.name = measurement ∧ hasField countField s = true) :
    ∃ n : Int, n ≠ 0 ∧
      countOfReply (retentionEngineQuery (Stmt.countGroupByAll countField
        (measurementFQ config oldRP measurement)) store).1 = Outcome.ret (n, none) := by
  obtain ⟨s0, hs0, hrp, hname, hfield⟩ := hcount
  have hne : store.filter (fun s => inTarget (measurementFQ config oldRP measurement) s &&
      hasField countField s) ≠ [] := by
    intro h
    have : s0 ∈ store.filter (fun s => inTarget (measurementFQ config oldRP measurement) s &&
        hasField countField s) := by
      simp [List.mem_filter, hs0, inTarget, measurementFQ, hrp, hname, hfield]
    rw [h] at this
    simp at this
  obtain ⟨k, hk0, hk⟩ := countOfResults_countSeries _ hne
  refine ⟨(k : Int), by omega, ?_⟩
  have := countOfReply_retentionEngine countField (measurementFQ config oldRP measurement) store
  simp only [retentionEngine] at this
  rw [this, hk]

theorem count_store_unchanged (countField : String) (src : FQName) (store : List Stored) :
    (retentionEngineQuery (Stmt.countGroupByAll countField src) store).2 = store := rfl

theorem CRP_refused_restore (env : Env) (config : influxStorageConfig)
    (measurement countField oldRP newRP : String) (store : List Stored) (parsed : Int)
    (hcount : ∃ s ∈ store, s.retentionPolicy = RetentionPolicyName oldRP ∧
      s.point.name = measurement ∧ hasField countField s = true)
    (hparse : ParseDuration env newRP = Except.ok parsed) :
    (ChangeRetentionPolicy (refusingEngine 3) env config measurement countField oldRP newRP
      (0, store)).val = Outcome.ret (some
        "Error moving the historical data to new retention policy: Request error: connection refused") ∧
    (ChangeRetentionPolicy (refusingEngine 3) env config measurement countField oldRP newRP
      (0, store)).engine.2 =
      (store ++ (store.filter (fun s => inTarget (measurementFQ config oldRP measurement) s &&
          decide (s.point.time > rfc3339 (stagingCutoff env.nowCommand parsed) * 1000000000))).map
            (retarget (measurementNameTempFQ config env.uuid))).filter
            (fun s => decide (s.point.name ≠ measurement)) := by
  obtain ⟨n, hn0, hn⟩ := count_of_store config measurement countField oldRP store hcount
  unfold ChangeRetentionPolicy
  simp only [CountSprintf_val, CountSprintf_calls, CountSprintf_engine,
    refusingEngine_miss 3 0 (by decide), hn, hn0, if_false, hparse, count_store_unchanged]
  simp only [QuerySprintf, moveStaged, zero_add, Nat.reduceAdd,
    refusingEngine_miss 3 1 (by decide), refusingEngine_miss 3 2 (by decide),
    refusingEngine_hit 3, retentionEngineQuery, replyResult_emptyReply, replyResult_refused]
  exact ⟨by trivial, by trivial⟩

theorem CRP_refused_count (env : Env) (config : influxStorageConfig)
    (measurement countField oldRP newRP : String) (store : List Stored) :
    (ChangeRetentionPolicy (refusingEngine 0) env config measurement countField oldRP newRP
      (0, store)).val = Outcome.ret (some
        "Error counting historical data: Request error: connection refused") ∧
    (ChangeRetentionPolicy (refusingEngine 0) env config measurement countField oldRP newRP
      (0, store)).engine.2 = store := by
  unfold ChangeRetentionPolicy
  simp only [CountSprintf_val, CountSprintf_calls, CountSprintf_engine, refusingEngine_hit 0,
    countOfReply, replyResult_refused]
  exact ⟨by trivial, by trivial⟩

theorem CRP_refused_stage (env : Env) (config : influxStorageConfig)
    (measurement countField oldRP newRP : String) (store : List Stored) (parsed : Int)
    (hcount : ∃ s ∈ store, s.retentionPolicy = RetentionPolicyName oldRP ∧
      s.point.name = measurement ∧ hasField countField s = true)
    (hparse : ParseDuration env newRP = Except.ok parsed) :
    (ChangeRetentionPolicy (refusingEngine 1) env config measurement countField oldRP newRP
      (0, store)).val = Outcome.ret (some
        "Error moving the historical data to new retention policy: Request error: connection refused") ∧
    (ChangeRetentionPolicy (refusingEngine 1) env config measurement countField oldRP newRP
      (0, store)).engine.2 = store := by
  obtain ⟨n, hn0, hn⟩ := count_of_store config measurement countField oldRP store hcount
  unfold ChangeRetentionPolicy
  simp only [CountSprintf_val, CountSprintf_calls, CountSprintf_engine,
    refusingEngine_miss 1 0 (by decide), hn, hn0, if_false, hparse, count_store_unchanged]
  simp only [QuerySprintf, zero_add, refusingEngine_hit 1, replyResult_refused]
  exact ⟨by trivial, by trivial⟩

theorem CRP_refused_delete (env : Env) (config : influxStorageConfig)
    (measurement countField oldRP newRP : String) (store : List Stored) (parsed : Int)
    (hcount : ∃ s ∈ store, s.retentionPolicy = RetentionPolicyName oldRP ∧
      s.point.name = measurement ∧ hasField countField s = true)
    (hparse : ParseDuration env newRP = Except.ok parsed) :
    (ChangeRetentionPolicy (refusingEngine 2) env config measurement countField oldRP newRP
      (0, store)).val = Outcome.ret (some
        "Error removing the historical data: Request error: connection refused") ∧
    (ChangeRetentionPolicy (refusingEngine 2) env config measurement countField oldRP newRP
      (0, store)).engine.2 =
      store ++ (store.filter (fun s => inTarget (measurementFQ config oldRP measurement) s &&
          decide (s.point.time > rfc3339 (stagingCutoff env.nowCommand parsed) * 1000000000))).map
            (retarget (measurementNameTempFQ config env.uuid)) := by
  obtain ⟨n, hn0, hn⟩ := count_of_store config measurement countField oldRP store hcount
  unfold ChangeRetentionPolicy
  simp only [CountSprintf_val, CountSprintf_calls, CountSprintf_engine,
    refusingEngine_miss 2 0 (by decide), hn, hn0, if_false, hparse, count_store_unchanged]
  simp only [QuerySprintf, moveStaged, zero_add, Nat.reduceAdd,
    refusingEngine_miss 2 1 (by decide), refusingEngine_hit 2, retentionEngineQuery,
    replyResult_emptyReply, replyResult_refused]
  exact ⟨by trivial, by trivial⟩

theorem CRP_refused_drop (env : Env) (config : influxStorageConfig)
    (measurement countField oldRP newRP : String) (store : List Stored) (parsed : Int)
    (hcount : ∃ s ∈ store, s.retentionPolicy = RetentionPolicyName oldRP ∧
      s.point.name = measurement ∧ hasField countField s = true)
    (hparse : ParseDuration env newRP = Except.ok parsed) :
    (ChangeRetentionPolicy (refusingEngine 4) env config measurement countField oldRP newRP
      (0, store)).val = Outcome.ret (some
        "Error removing the historical data: Request error: connection refused") ∧
    (ChangeRetentionPolicy (refusingEngine 4) env config measurement countField oldRP newRP
      (0, store)).engine.2 =
      (store ++ (store.filter (fun s => inTarget (measurementFQ config oldRP measurement) s &&
          decide (s.point.time > rfc3339 (stagingCutoff env.nowCommand parsed) * 1000000000))).map
            (retarget (measurementNameTempFQ config env.uuid))).filter
            (fun s => decide (s.point.name ≠ measurement)) ++
      (((store ++ (store.filter (fun s => inTarget (measurementFQ config oldRP measurement) s &&
          decide (s.point.time > rfc3339 (stagingCutoff env.nowCommand parsed) * 1000000000))).map
            (retarget (measurementNameTempFQ config env.uuid))).filter
            (fun s => decide (s.point.name ≠ measurement))).filter
              (fun s => inTarget (measurementNameTempFQ config env.uuid) s)).map
                (retarget (measurementFQ config newRP measurement)) := by
  obtain ⟨n, hn0, hn⟩ := count_of_store config measurement countField oldRP store hcount
  unfold ChangeRetentionPolicy
  simp only [CountSprintf_val, CountSprintf_calls, CountSprintf_engine,
    refusingEngine_miss 4 0 (by decide), hn, hn0, if_false, hparse, count_store_unchanged]
  simp only [QuerySprintf, moveStaged, zero_add, Nat.reduceAdd,
    refusingEngine_miss 4 1 (by decide), refusingEngine_miss 4 2 (by decide),
    refusingEngine_miss 4 3 (by decide), refusingEngine_hit 4, retentionEngineQuery,
    replyResult_emptyReply, replyResult_refused, stringsContains_refused]
  exact ⟨by trivial, by trivial⟩

/-- C26 fails as stated: on the example store the change to the retention `1h` stages the
point after the cutoff and deletes the measurement; when the command that copies the staged
points back is refused, the change returns an error and the point, stored before the call
after the cutoff, is under the name of the measurement no more: the store holds only its
copy in the staging measurement. -/
theorem C26_counterexample_restore_refused :
    (ChangeRetentionPolicy (refusingEngine 3) exampleEnv exampleConfig "data_a" "value" ""
      "1h" (0, exampleStore)).val = Outcome.ret (some
        "Error moving the historical data to new retention policy: Request error: connection refused") ∧
    ({ retentionPolicy := "autogen", point := pointAt 1699996461000000000 } : Stored)
      ∈ exampleStore ∧
    (pointAt 1699996461000000000).time ≥ exampleEnv.nowCommand - 3600000000000 + minute ∧
    (ChangeRetentionPolicy (refusingEngine 3) exampleEnv exampleConfig "data_a" "value" ""
      "1h" (0, exampleStore)).engine.2
      = [retarget (measurementNameTempFQ exampleConfig "u1")
          { retentionPolicy := "autogen", point := pointAt 1699996461000000000 }] ∧
    (retarget (measurementNameTempFQ exampleConfig "u1")
      { retentionPolicy := "autogen", point := pointAt 1699996461000000000 }).point.name
        ≠ "data_a" := by
  refine ⟨by decide, by decide, by decide, by decide, by decide⟩

theorem CRP_refused_parse (env : Env) (config : influxStorageConfig)
    (measurement countField oldRP newRP : String) (store : List Stored) (k : Nat)
    (err : String) (hk : k ≠ 0)
    (hcount : ∃ s ∈ store, s.retentionPolicy = RetentionPolicyName oldRP ∧
      s.point.name = measurement ∧ hasField countField s = true)
    (hparse : ParseDuration env newRP = Except.error err) :
    (ChangeRetentionPolicy (refusingEngine k) env config measurement countField oldRP newRP
      (0, store)).val = Outcome.ret (some
        ("Error parsing retention period: " ++ newRP ++ ": " ++ err)) ∧
    (ChangeRetentionPolicy (refusingEngine k) env config measurement countField oldRP newRP
      (0, store)).engine.2 = store := by
  obtain ⟨n, hn0, hn⟩ := count_of_store config measurement countField oldRP store hcount
  unfold ChangeRetentionPolicy
  simp only [CountSprintf_val, CountSprintf_calls, CountSprintf_engine,
    refusingEngine_miss k 0 (Ne.symm hk), hn, hn0, if_false, hparse, count_store_unchanged]
  exact ⟨by trivial, by trivial⟩

/-- C26, amended: a retention change on the engine, for a measurement with a point of the
counted field under the old policy, when one of its five commands is refused with the store
left as it was. If the new retention does not parse, the change returns an error and the
store is as before. If it parses, the change returns an error, and: if the count, the
staging or the delete command is refused, every point stored before the call is still
stored; if the command that copies the staged points back is refused, no point is left under
the name of the measurement and the points of the old policy after the cutoff are held only
as copies in the staging measurement; if the final drop is refused, the points of the old
policy after the cutoff are stored under the name of the measurement and the new policy. -/
theorem C26_failed_change (env : Env) (config : influxStorageConfig)
    (measurement countField oldRP newRP : String) (store : List Stored) (k : Nat)
    (hcount : ∃ s ∈ store, s.retentionPolicy = RetentionPolicyName oldRP ∧
      s.point.name = measurement ∧ hasField countField s = true)
    (hne : measurement ≠ measurementNameTemp env.uuid) :
    (∀ err, ParseDuration env newRP = Except.error err →
      returnsError (ChangeRetentionPolicy (refusingEngine k) env config measurement
        countField oldRP newRP (0, store)).val ∧
      (ChangeRetentionPolicy (refusingEngine k) env config measurement countField oldRP
        newRP (0, store)).engine.2 = store) ∧
    (∀ parsed, ParseDuration env newRP = Except.ok parsed →
      (k ≤ 4 → returnsError (ChangeRetentionPolicy (refusingEngine k) env config measurement
        countField oldRP newRP (0, store)).val) ∧
      (k ≤ 2 → ∀ s ∈ store, s ∈ (ChangeRetentionPolicy (refusingEngine k) env config
        measurement countField oldRP newRP (0, store)).engine.2) ∧
      (k = 3 →
        (∀ s ∈ (ChangeRetentionPolicy (refusingEngine k) env config measurement countField
          oldRP newRP (0, store)).engine.2, s.point.name ≠ measurement) ∧
        (∀ y ∈ store, inTarget (measurementFQ config oldRP measurement) y = true →
          y.point.time > rfc3339 (stagingCutoff env.nowCommand parsed) * 1000000000 →
          retarget (measurementNameTempFQ config env.uuid) y ∈
            (ChangeRetentionPolicy (refusingEngine k) env config measurement countField oldRP
              newRP (0, store)).engine.2)) ∧
      (k = 4 → ∀ y ∈ store, inTarget (measurementFQ config oldRP measurement) y = true →
        y.point.time > rfc3339 (stagingCutoff env.nowCommand parsed) * 1000000000 →
        ({ retentionPolicy := RetentionPolicyName newRP, point := y.point } : Stored) ∈
          (ChangeRetentionPolicy (refusingEngine k) env config measurement countField oldRP
            newRP (0, store)).engine.2)) := by
  refine ⟨?_, ?_⟩
  · intro err herr
    by_cases hk : k = 0
    · subst hk
      have h0 := CRP_refused_count env config measurement countField oldRP newRP store
      exact ⟨⟨_, h0.1⟩, h0.2⟩
    · have hp := CRP_refused_parse env config measurement countField oldRP newRP store k err
        hk hcount herr
      exact ⟨⟨_, hp.1⟩, hp.2⟩
  intro parsed hparse
  have h0 := CRP_refused_count env config measurement countField oldRP newRP store
  have h1 := CRP_refused_stage env config measurement countField oldRP newRP store parsed
    hcount hparse
  have h2 := CRP_refused_delete env config measurement countField oldRP newRP store parsed
    hcount hparse
  have h3 := CRP_refused_restore env config measurement countField oldRP newRP store parsed
    hcount hparse
  have h4 := CRP_refused_drop env config measurement countField oldRP newRP store parsed
    hcount hparse
  have hstaged : ∀ y ∈ store, inTarget (measurementFQ config oldRP measurement) y = true →
      y.point.time > rfc3339 (stagingCutoff env.nowCommand parsed) * 1000000000 →
      retarget (measurementNameTempFQ config env.uuid) y ∈
        (store ++ (store.filter (fun s =>
          inTarget (measurementFQ config oldRP measurement) s &&
          decide (s.point.time > rfc3339 (stagingCutoff env.nowCommand parsed) * 1000000000))).map
            (retarget (measurementNameTempFQ config env.uuid))).filter
            (fun s => decide (s.point.name ≠ measurement)) := by
    intro y hy hyt htime
    rw [List.mem_filter, List.mem_append]
    refine ⟨Or.inr ?_, ?_⟩
    · rw [List.mem_map]
      exact ⟨y, by simp [List.mem_filter, hy, hyt, htime], rfl⟩
    · simp only [retarget, measurementNameTempFQ, ne_eq, decide_eq_true_eq]
      exact fun h => hne h.symm
  refine ⟨?_, ?_, ?_, ?_⟩
  · intro hk
    interval_cases k
    · exact ⟨_, h0.1⟩
    · exact ⟨_, h1.1⟩
    · exact ⟨_, h2.1⟩
    · exact ⟨_, h3.1⟩
    · exact ⟨_, h4.1⟩
  · intro hk s hs
    interval_cases k
    · rw [h0.2]; exact hs
    · rw [h1.2]; exact hs
    · rw [h2.2]; exact List.mem_append_left _ hs
  · intro hk
    subst hk
    rw [h3.2]
    refine ⟨?_, hstaged⟩
    intro s hs
    rw [List.mem_filter] at hs
    simpa using hs.2
  · intro hk y hy hyt htime
    subst hk
    rw [h4.2, List.mem_append]
    right
    have hyn : y.point.name = measurement := by
      simp only [inTarget, measurementFQ, decide_eq_true_eq] at hyt
      exact hyt.2
    rw [List.mem_map]
    refine ⟨retarget (measurementNameTempFQ config env.uuid) y, ?_, ?_⟩
    · rw [List.mem_filter]
      exact ⟨hstaged y hy hyt htime, by simp [inTarget, retarget]⟩
    · simp only [retarget, measurementFQ, ← hyn]

/-- C26, amended, at a concrete run: the delete command is refused; the change returns an
error and both points of the example store are still stored. -/
theorem C26_failed_change_witness :
    returnsError (ChangeRetentionPolicy (refusingEngine 2) exampleEnv exampleConfig "data_a"
      "value" "" "1h" (0, exampleStore)).val ∧
    ∀ s ∈ exampleStore, s ∈ (ChangeRetentionPolicy (refusingEngine 2) exampleEnv
      exampleConfig "data_a" "value" "" "1h" (0, exampleStore)).engine.2 :=
  ⟨((C26_failed_change exampleEnv exampleConfig "data_a" "value" "" "1h" exampleStore 2
      (by decide) (by decide)).2 3600000000000 rfl).1 (by decide),
   ((C26_failed_change exampleEnv exampleConfig "data_a" "value" "" "1h" exampleStore 2
      (by decide) (by decide)).2 3600000000000 rfl).2.1 (by decide)⟩

/-! ### Registrations that failed, and the receivers of the others -/

/-- C27: the receivers count does not follow the streams whose registration succeeded. With
the broker down, `Start` notes the registration of `s6` as failed. The broker comes back and
`s7`, with the same source, is created: its subscription has one receiver. Deleting `s6`,
which never registered, takes that receiver away: the topic is unsubscribed, the
subscription of the live stream `s7` is gone, and the retry task has nothing left to
register. -/
theorem C27_delete_of_failed_stream_takes_receiver :
    Start downBroker s6Registry 1 (NewMQTTConnector "hds")
      = some (afterFailedStart, Outcome.ret none) ∧
    mapGet afterFailedStart.failedRegistrations "s6" = (mqttStream "s6").Source.MQTTSource ∧
    (CreateHandler acceptingBroker afterFailedStart (mqttStream "s7")).2 = none ∧
    receiversOf (CreateHandler acceptingBroker afterFailedStart (mqttStream "s7")).1
      "tcp://b:1883" "t" = 1 ∧
    (DeleteHandler acceptingBroker
      (CreateHandler acceptingBroker afterFailedStart (mqttStream "s7")).1
      (mqttStream "s6")).2 = Outcome.ret none ∧
    subscriptionOf (DeleteHandler acceptingBroker
      (CreateHandler acceptingBroker afterFailedStart (mqttStream "s7")).1
      (mqttStream "s6")).1 "tcp://b:1883" "t" = none ∧
    ClientOp.unsubscribe "tcp://b:1883" "t" ∈ (DeleteHandler acceptingBroker
      (CreateHandler acceptingBroker afterFailedStart (mqttStream "s7")).1
      (mqttStream "s6")).1.clientLog ∧
    (retryRegistrations acceptingBroker (DeleteHandler acceptingBroker
      (CreateHandler acceptingBroker afterFailedStart (mqttStream "s7")).1
      (mqttStream "s6")).1).managers = [] := by
  refine ⟨by decide, by decide, by decide, by decide, by decide, by decide, by decide,
    by decide⟩

/-- C28: `unregister` dereferences a missing entry. `Start` with a broker that refuses the
subscription to `t2` leaves a manager that holds the topic `t` only, with the registration of
`s5` noted as failed; `unregister` for the source of `s5` then reads `receivers` through the
missing entry of `t2` and panics, and so does `DeleteHandler` for `s5`. -/
theorem C28_unregister_missing_topic_panics :
    Start refusingT2Broker s4s5Registry 1 (NewMQTTConnector "hds")
      = some (afterPartialStart, Outcome.ret none) ∧
    (unregister acceptingBroker afterPartialStart sourceT2).2
      = Outcome.panic "invalid memory address or nil pointer dereference" ∧
    (DeleteHandler acceptingBroker afterPartialStart t2Stream).2
      = Outcome.panic "invalid memory address or nil pointer dereference" := by
  refine ⟨by decide, by decide, by decide⟩

/-- C29: an `unregister` that returns an error leaves a subscription without receivers. After
one registration every subscription has a receiver; when the unsubscribe call then fails,
`unregister` returns the error and the subscription stays stored with `receivers = 0`. -/
theorem C29_failed_unsubscribe_leaves_zero_receivers :
    (register acceptingBroker (NewMQTTConnector "hds") sourceT).2 = none ∧
    receiversPositive (register acceptingBroker (NewMQTTConnector "hds") sourceT).1 = true ∧
    (unregister stuckBroker (register acceptingBroker (NewMQTTConnector "hds") sourceT).1
      sourceT).2 = Outcome.ret (some "MQTT: Error unsubscribing: timeout") ∧
    subscriptionOf (unregister stuckBroker
      (register acceptingBroker (NewMQTTConnector "hds") sourceT).1 sourceT).1
      "tcp://b:1883" "t"
      = some { url := "tcp://b:1883", topic := "t", qos := 1, receivers := 0 } ∧
    receiversPositive (unregister stuckBroker
      (register acceptingBroker (NewMQTTConnector "hds") sourceT).1 sourceT).1 = false := by
  refine ⟨by decide, by decide, by decide, by decide, by decide⟩

/-- C30: `serieToRecords` is not total. A cell of the column `value` that is a string fails
the unchecked assertion to a number, and a value row longer than the list of columns is
indexed out of range; both runs panic instead of returning. -/
theorem C30_serieToRecords_panics :
    serieToRecords exampleEnv
      { Name := "data_a", Tags := [], Columns := ["value"], Values := [[Cell.str "12.5"]] }
      = Outcome.panic "interface conversion: interface is not json.Number" ∧
    serieToRecords exampleEnv
      { Name := "data_a", Tags := [], Columns := ["name"],
        Values := [[Cell.str "a", Cell.str "b"]] }
      = Outcome.panic "index out of range" := by
  refine ⟨by decide, by decide⟩

end HDS
